import Mathlib

/-!
# The reconcilers of the unito operator

A shallow embedding of `controllers/mysql_controller.go` and
`controllers/student_controller.go` together with the record types of
`api/v1beta1`.

* Objects are Lean structures that keep the Go field names; an embedded
  `metav1.ObjectMeta` becomes `extends ObjectMeta`.
* Go slices are lists, Go string maps are association lists written in key
  order, a nil pointer is `none`.
* The API server is a `Store` (one list of objects per kind).  A `World` adds
  what a pass can observe besides the store: a schedule of injected store
  failures, the random numbers that `uuid.New` will draw, and the log of the
  client calls issued by the current pass.
* A pass is a function `World → (Result × Option Err) × World`.
-/

namespace Unito

/-! ## Errors and results -/

/-- Errors a client call or a mutate function can return. -/
inductive Err
  | notFound
  | alreadyExists
  | conflict
  | internal
  | alreadyOwned
  deriving DecidableEq, Repr

/-- The value of `ctrl.Result` (only `Requeue` is ever set by the controllers). -/
structure Result where
  Requeue : Bool := false
  deriving DecidableEq, Repr

/-- The value of `controllerutil.OperationResult`. -/
inductive OperationResult
  | none
  | created
  | updated
  deriving DecidableEq, Repr

/-- Go `len` on a string: the number of bytes. -/
def len (s : String) : Nat := s.utf8ByteSize

/-! ## Object model -/

/-- A Go `map[string]string`. -/
abbrev Labels := List (String × String)

/-- The value of `types.NamespacedName`. -/
structure NamespacedName where
  Namespace : String := ""
  Name : String := ""
  deriving DecidableEq, Repr

/-- The value of `metav1.OwnerReference`; `APIVersion` is kept as its group and version. -/
structure OwnerReference where
  Group : String := ""
  Version : String := ""
  Kind : String := ""
  Name : String := ""
  UID : String := ""
  Controller : Bool := false
  BlockOwnerDeletion : Bool := false
  deriving DecidableEq, Repr

/-- The fields of `metav1.ObjectMeta` that the controllers read or write. -/
structure ObjectMeta where
  Name : String := ""
  Namespace : String := ""
  UID : String := ""
  DeletionTimestamp : Option Nat := none
  Finalizers : List String := []
  Labels : Labels := []
  OwnerReferences : List OwnerReference := []
  deriving DecidableEq, Repr

structure EnvVar where
  Name : String := ""
  Value : String := ""
  deriving DecidableEq, Repr

structure Container where
  Name : String := ""
  Image : String := ""
  Env : List EnvVar := []
  ImagePullPolicy : String := ""
  TerminationMessagePath : String := ""
  TerminationMessagePolicy : String := ""
  deriving DecidableEq, Repr

structure PodSpec where
  Containers : List Container := []
  deriving DecidableEq, Repr

structure PodStatus where
  Phase : String := ""
  deriving DecidableEq, Repr

structure Pod extends ObjectMeta where
  Spec : PodSpec := {}
  Status : PodStatus := {}
  deriving DecidableEq, Repr

/-- The value of `intstr.IntOrString`; `Typ` is the Go field `Type`, 0 being `intstr.Int`. -/
structure IntOrString where
  Typ : Nat := 0
  IntVal : Int := 0
  StrVal : String := ""
  deriving DecidableEq, Repr

structure ServicePort where
  Name : String := ""
  Protocol : String := ""
  Port : Int := 0
  TargetPort : IntOrString := {}
  deriving DecidableEq, Repr

structure ServiceSpec where
  Ports : List ServicePort := []
  Selector : Labels := []
  ClusterIP : String := ""
  Typ : String := ""
  deriving DecidableEq, Repr

structure Service extends ObjectMeta where
  Spec : ServiceSpec := {}
  deriving DecidableEq, Repr

structure LabelSelector where
  MatchLabels : Labels := []
  deriving DecidableEq, Repr

structure PodTemplateSpec extends ObjectMeta where
  Spec : PodSpec := {}
  deriving DecidableEq, Repr

structure DeploymentSpec where
  Selector : Option LabelSelector := none
  Template : PodTemplateSpec := {}
  deriving DecidableEq, Repr

structure DeploymentStatus where
  UnavailableReplicas : Int := 0
  deriving DecidableEq, Repr

structure Deployment extends ObjectMeta where
  Spec : DeploymentSpec := {}
  Status : DeploymentStatus := {}
  deriving DecidableEq, Repr

structure MySQLAuthenticationSpec where
  RootPassword : String := ""
  deriving DecidableEq, Repr

structure MySQLSpec where
  Authentication : MySQLAuthenticationSpec := {}
  Version : String := ""
  deriving DecidableEq, Repr

structure MySQLStatus where
  RootPassword : String := ""
  Initialized : Bool := false
  Address : String := ""
  Ready : Bool := false
  deriving DecidableEq, Repr

structure MySQL extends ObjectMeta where
  Spec : MySQLSpec := {}
  Status : MySQLStatus := {}
  deriving DecidableEq, Repr

structure StudentSpec where
  Surname : String := ""
  BirthDate : String := ""
  CourseYear : String := ""
  Nickname : String := ""
  deriving DecidableEq, Repr

structure StudentStatus where
  Initialized : Bool := false
  Acceptance : String := ""
  deriving DecidableEq, Repr

structure Student extends ObjectMeta where
  Spec : StudentSpec := {}
  Status : StudentStatus := {}
  deriving DecidableEq, Repr

/-! ## The store and the client -/

/-- The identity of an object inside its kind. -/
def keyOf (m : ObjectMeta) : NamespacedName := ⟨m.Namespace, m.Name⟩

/-- The first object of a kind stored under the key `k`. -/
def lookup {α : Type} (meta : α → ObjectMeta) (k : NamespacedName) (xs : List α) : Option α :=
  xs.find? (fun x => decide (keyOf (meta x) = k))

/-- Overwrite the objects stored under the key of `x` by `x`. -/
def replace {α : Type} (meta : α → ObjectMeta) (x : α) (xs : List α) : List α :=
  xs.map (fun y => if keyOf (meta y) = keyOf (meta x) then x else y)

/-- Drop the objects stored under the key `k`. -/
def remove {α : Type} (meta : α → ObjectMeta) (k : NamespacedName) (xs : List α) : List α :=
  xs.filter (fun y => decide (keyOf (meta y) ≠ k))

/-- The content of the API server, one list per kind. -/
structure Store where
  mysqls : List MySQL := []
  students : List Student := []
  pods : List Pod := []
  services : List Service := []
  deployments : List Deployment := []
  deriving DecidableEq, Repr

/-- A client call, with the object or key it was issued for. -/
inductive Op
  | getMySQL (k : NamespacedName)
  | getStudent (k : NamespacedName)
  | getPod (k : NamespacedName)
  | getService (k : NamespacedName)
  | getDeployment (k : NamespacedName)
  | createPod (p : Pod)
  | updatePod (p : Pod)
  | deletePod (p : Pod)
  | createService (s : Service)
  | updateService (s : Service)
  | createDeployment (d : Deployment)
  | updateDeployment (d : Deployment)
  | updateStudent (s : Student)
  | statusUpdateMySQL (m : MySQL)
  | statusUpdateStudent (s : Student)
  deriving DecidableEq, Repr

/-- A logged client call and the error it returned, if any. -/
structure Event where
  op : Op
  err : Option Err
  deriving DecidableEq, Repr

/-- Everything a pass can observe or change. -/
structure World where
  store : Store := {}
  faults : List (Option Err) := []
  random : List Nat := []
  trace : List Event := []
  deriving DecidableEq, Repr

/-- The error carried by a result. -/
def errOf {α : Type} : Except Err α → Option Err
  | .error e => some e
  | .ok _ => none

/-- One client call: the next entry of the failure schedule decides whether
the call fails before reaching the store; otherwise `run` is applied to the
store. The call and its outcome are logged. -/
def World.call {α : Type} (w : World) (op : Op) (run : Store → Except Err α × Store) :
    Except Err α × World :=
  match w.faults with
  | some e :: fs => (.error e, { w with faults := fs, trace := w.trace ++ [⟨op, some e⟩] })
  | _ =>
    let r := run w.store
    (r.1, { w with store := r.2, faults := w.faults.tail, trace := w.trace ++ [⟨op, errOf r.1⟩] })

/-- Result of reading a key. -/
def found {α : Type} : Option α → Except Err α
  | some x => .ok x
  | none => .error .notFound

/-- Model of `Client.Get` for each kind. -/
def Client.getMySQL (k : NamespacedName) (w : World) : Except Err MySQL × World :=
  w.call (.getMySQL k) fun s => (found (lookup MySQL.toObjectMeta k s.mysqls), s)

def Client.getStudent (k : NamespacedName) (w : World) : Except Err Student × World :=
  w.call (.getStudent k) fun s => (found (lookup Student.toObjectMeta k s.students), s)

def Client.getPod (k : NamespacedName) (w : World) : Except Err Pod × World :=
  w.call (.getPod k) fun s => (found (lookup Pod.toObjectMeta k s.pods), s)

def Client.getService (k : NamespacedName) (w : World) : Except Err Service × World :=
  w.call (.getService k) fun s => (found (lookup Service.toObjectMeta k s.services), s)

def Client.getDeployment (k : NamespacedName) (w : World) : Except Err Deployment × World :=
  w.call (.getDeployment k) fun s => (found (lookup Deployment.toObjectMeta k s.deployments), s)

/-- Store side of a create: refused when the key is taken. -/
def insertNew {α : Type} (meta : α → ObjectMeta) (x : α) (xs : List α) : Except Err Unit × List α :=
  match lookup meta (keyOf (meta x)) xs with
  | some _ => (.error .alreadyExists, xs)
  | none => (.ok (), xs ++ [x])

/-- Store side of an update: refused when the key is absent. -/
def overwrite {α : Type} (meta : α → ObjectMeta) (x : α) (xs : List α) : Except Err Unit × List α :=
  match lookup meta (keyOf (meta x)) xs with
  | some _ => (.ok (), replace meta x xs)
  | none => (.error .notFound, xs)

/-- Store side of a delete: refused when the key is absent. -/
def erase {α : Type} (meta : α → ObjectMeta) (k : NamespacedName) (xs : List α) : Except Err Unit × List α :=
  match lookup meta k xs with
  | some _ => (.ok (), remove meta k xs)
  | none => (.error .notFound, xs)

/-- Model of `Client.Create`, `Client.Update` and `Client.Delete` on child objects. -/
def Client.createPod (p : Pod) (w : World) : Option Err × World :=
  let r := w.call (.createPod p) fun s =>
    let o := insertNew Pod.toObjectMeta p s.pods
    (o.1, { s with pods := o.2 })
  (errOf r.1, r.2)

def Client.updatePod (p : Pod) (w : World) : Option Err × World :=
  let r := w.call (.updatePod p) fun s =>
    let o := overwrite Pod.toObjectMeta p s.pods
    (o.1, { s with pods := o.2 })
  (errOf r.1, r.2)

def Client.deletePod (p : Pod) (w : World) : Option Err × World :=
  let r := w.call (.deletePod p) fun s =>
    let o := erase Pod.toObjectMeta (keyOf p.toObjectMeta) s.pods
    (o.1, { s with pods := o.2 })
  (errOf r.1, r.2)

def Client.createService (x : Service) (w : World) : Option Err × World :=
  let r := w.call (.createService x) fun s =>
    let o := insertNew Service.toObjectMeta x s.services
    (o.1, { s with services := o.2 })
  (errOf r.1, r.2)

def Client.updateService (x : Service) (w : World) : Option Err × World :=
  let r := w.call (.updateService x) fun s =>
    let o := overwrite Service.toObjectMeta x s.services
    (o.1, { s with services := o.2 })
  (errOf r.1, r.2)

def Client.createDeployment (d : Deployment) (w : World) : Option Err × World :=
  let r := w.call (.createDeployment d) fun s =>
    let o := insertNew Deployment.toObjectMeta d s.deployments
    (o.1, { s with deployments := o.2 })
  (errOf r.1, r.2)

def Client.updateDeployment (d : Deployment) (w : World) : Option Err × World :=
  let r := w.call (.updateDeployment d) fun s =>
    let o := overwrite Deployment.toObjectMeta d s.deployments
    (o.1, { s with deployments := o.2 })
  (errOf r.1, r.2)

/-- Model of `Client.Update` on a Student record: the status is a subresource,
so the stored status is kept. The store completes the deletion of a record
that is marked for deletion once an update leaves it without finalizers: the
record is then removed. -/
def Client.updateStudent (x : Student) (w : World) : Option Err × World :=
  let r := w.call (.updateStudent x) fun s =>
    match lookup Student.toObjectMeta (keyOf x.toObjectMeta) s.students with
    | some old =>
      if old.DeletionTimestamp ≠ none ∧ x.Finalizers = [] then
        (Except.ok (), { s with students := remove Student.toObjectMeta (keyOf x.toObjectMeta) s.students })
      else
        (Except.ok (), { s with students := replace Student.toObjectMeta { x with Status := old.Status } s.students })
    | none => (Except.error Err.notFound, s)
  (errOf r.1, r.2)

/-- Model of `Client.Status().Update` on a Student record: only the status is stored. -/
def Client.statusUpdateStudent (x : Student) (w : World) : Option Err × World :=
  let r := w.call (.statusUpdateStudent x) fun s =>
    match lookup Student.toObjectMeta (keyOf x.toObjectMeta) s.students with
    | some old =>
      (Except.ok (), { s with students := replace Student.toObjectMeta { old with Status := x.Status } s.students })
    | none => (Except.error Err.notFound, s)
  (errOf r.1, r.2)

/-- Model of `Client.Status().Update` on a MySQL record: only the status is stored. -/
def Client.statusUpdateMySQL (x : MySQL) (w : World) : Option Err × World :=
  let r := w.call (.statusUpdateMySQL x) fun s =>
    match lookup MySQL.toObjectMeta (keyOf x.toObjectMeta) s.mysqls with
    | some old =>
      (Except.ok (), { s with mysqls := replace MySQL.toObjectMeta { old with Status := x.Status } s.mysqls })
    | none => (Except.error Err.notFound, s)
  (errOf r.1, r.2)

/-! ## The helpers of `controllerutil` and `uuid` used by the controllers -/

/-- Model of `controllerutil.ContainsFinalizer`. -/
def ContainsFinalizer (m : ObjectMeta) (finalizer : String) : Bool :=
  m.Finalizers.any (fun e => decide (e = finalizer))

/-- Model of `controllerutil.AddFinalizer`: the new finalizer list. -/
def AddFinalizer (m : ObjectMeta) (finalizer : String) : List String :=
  if ContainsFinalizer m finalizer then m.Finalizers else m.Finalizers ++ [finalizer]

/-- Model of `controllerutil.RemoveFinalizer`: the new finalizer list. -/
def RemoveFinalizer (m : ObjectMeta) (finalizer : String) : List String :=
  m.Finalizers.filter (fun e => decide (e ≠ finalizer))

/-- What the controllers use of a `runtime.Scheme`: the group and version under
which the record kinds are registered, and the defaulting applied by `Default`
to a Deployment. -/
structure Scheme where
  Group : String
  Version : String
  Default : Deployment → Deployment

/-- Model of `metav1.GetControllerOf`. -/
def GetControllerOf (refs : List OwnerReference) : Option OwnerReference :=
  refs.find? (fun r => r.Controller)

/-- Model of `referSameObject` in `controllerutil`. -/
def referSameObject (a b : OwnerReference) : Bool :=
  decide (a.Group = b.Group) && decide (a.Kind = b.Kind) && decide (a.Name = b.Name)

/-- Model of `upsertOwnerRef` in `controllerutil`. -/
def upsertOwnerRef (ref : OwnerReference) : List OwnerReference → List OwnerReference
  | [] => [ref]
  | r :: rs => if referSameObject r ref then ref :: rs else r :: upsertOwnerRef ref rs

/-- Model of `controllerutil.SetControllerReference` for an owner of kind `kind`:
the new owner references of the controlled object, or the error for an object
that another controller owns. (Parent and child always share the namespace
here, so the namespace validation of the library cannot fail.) -/
def SetControllerReference (sch : Scheme) (kind : String) (owner : ObjectMeta)
    (refs : List OwnerReference) : Except Err (List OwnerReference) :=
  let ref : OwnerReference :=
    { Group := sch.Group, Version := sch.Version, Kind := kind, Name := owner.Name,
      UID := owner.UID, BlockOwnerDeletion := true, Controller := true }
  match GetControllerOf refs with
  | some existing =>
    if referSameObject existing ref then .ok (upsertOwnerRef ref refs) else .error .alreadyOwned
  | none => .ok (upsertOwnerRef ref refs)

/-- A lower-case hexadecimal digit. -/
def hexDigit (d : Nat) : Char :=
  if d % 16 < 10 then Char.ofNat (48 + d % 16) else Char.ofNat (87 + d % 16)

/-- The two hexadecimal digits of a byte. -/
def hexByte (b : Nat) : List Char := [hexDigit (b / 16), hexDigit b]

/-- Byte `i` (0 first) of a 128-bit number. -/
def byteAt (n i : Nat) : Nat := n / 256 ^ (15 - i) % 256

/-- Model of `uuid.New().String()` on the 128 random bits `n`: version 4,
variant 10, printed as 8-4-4-4-12 hexadecimal digits. -/
def uuidString (n : Nat) : String :=
  String.mk
    (hexByte (byteAt n 0) ++ hexByte (byteAt n 1) ++ hexByte (byteAt n 2) ++ hexByte (byteAt n 3)
      ++ '-' :: hexByte (byteAt n 4) ++ hexByte (byteAt n 5)
      ++ '-' :: hexByte (byteAt n 6 % 16 + 64) ++ hexByte (byteAt n 7)
      ++ '-' :: hexByte (byteAt n 8 % 64 + 128) ++ hexByte (byteAt n 9)
      ++ '-' :: hexByte (byteAt n 10) ++ hexByte (byteAt n 11) ++ hexByte (byteAt n 12)
      ++ hexByte (byteAt n 13) ++ hexByte (byteAt n 14) ++ hexByte (byteAt n 15))

/-- Draw the next token from the random source of the world. -/
def uuidNew (w : World) : String × World :=
  match w.random with
  | [] => (uuidString 0, w)
  | n :: ns => (uuidString n, { w with random := ns })

/-- The three client calls `CreateOrUpdate` needs for one child kind. -/
structure ChildClient (α : Type) where
  meta : α → ObjectMeta
  get : NamespacedName → World → Except Err α × World
  create : α → World → Option Err × World
  update : α → World → Option Err × World

def podClient : ChildClient Pod := ⟨Pod.toObjectMeta, Client.getPod, Client.createPod, Client.updatePod⟩

def serviceClient : ChildClient Service :=
  ⟨Service.toObjectMeta, Client.getService, Client.createService, Client.updateService⟩

def deploymentClient : ChildClient Deployment :=
  ⟨Deployment.toObjectMeta, Client.getDeployment, Client.createDeployment, Client.updateDeployment⟩

/-- What a call of `CreateOrUpdate` leaves behind: the object as the caller
sees it afterwards, the variables captured by the mutate function, the
operation result and the error. -/
structure Upsert (α β : Type) where
  obj : α
  captured : β
  result : OperationResult
  err : Option Err

/-- Model of `controllerutil.CreateOrUpdate`. The mutate function `f` may
assign variables of its caller (`β`) and draw random numbers. -/
def CreateOrUpdate {α β : Type} [DecidableEq α] (c : ChildClient α) (obj : α) (b : β)
    (f : α → β → World → (α × β × Option Err) × World) (w : World) : Upsert α β × World :=
  let g := c.get (keyOf (c.meta obj)) w
  match g.1 with
  | .error e =>
    if e = .notFound then
      let m := f obj b g.2
      match m.1.2.2 with
      | some e1 => (⟨m.1.1, m.1.2.1, .none, some e1⟩, m.2)
      | none =>
        let cr := c.create m.1.1 m.2
        match cr.1 with
        | some e2 => (⟨m.1.1, m.1.2.1, .none, some e2⟩, cr.2)
        | none => (⟨m.1.1, m.1.2.1, .created, none⟩, cr.2)
    else (⟨obj, b, .none, some e⟩, g.2)
  | .ok existing =>
    let m := f existing b g.2
    match m.1.2.2 with
    | some e1 => (⟨m.1.1, m.1.2.1, .none, some e1⟩, m.2)
    | none =>
      if existing = m.1.1 then (⟨m.1.1, m.1.2.1, .none, none⟩, m.2)
      else
        let up := c.update m.1.1 m.2
        match up.1 with
        | some e2 => (⟨m.1.1, m.1.2.1, .none, some e2⟩, up.2)
        | none => (⟨m.1.1, m.1.2.1, .updated, none⟩, up.2)

/-! ## Assignments to status fields -/

/-- The assignment `student.Status.Initialized = v`. -/
def Student.setInitialized (student : Student) (v : Bool) : Student :=
  { student with Status := { student.Status with Initialized := v } }

/-- The assignment `student.Status.Acceptance = a`. -/
def Student.setAcceptance (student : Student) (a : String) : Student :=
  { student with Status := { student.Status with Acceptance := a } }

/-- The assignment `db.Status.Initialized = v`. -/
def MySQL.setInitialized (db : MySQL) (v : Bool) : MySQL :=
  { db with Status := { db.Status with Initialized := v } }

/-- The assignment `db.Status.Address = a`. -/
def MySQL.setAddress (db : MySQL) (a : String) : MySQL :=
  { db with Status := { db.Status with Address := a } }

/-- The assignment `db.Status.RootPassword = p`. -/
def MySQL.setRootPassword (db : MySQL) (p : String) : MySQL :=
  { db with Status := { db.Status with RootPassword := p } }

/-- The assignment `db.Status.Ready = v`. -/
def MySQL.setReady (db : MySQL) (v : Bool) : MySQL :=
  { db with Status := { db.Status with Ready := v } }

/-! ## The Student controller -/

/-- The finalizer token of the Student controller. -/
def studentFinalizer : String := "k8s.unito.it/api"

/-- The name `fmt.Sprintf("unito-%s-%s", student.UID, student.Name)`. -/
def studentChildName (student : Student) : String :=
  "unito-" ++ student.UID ++ "-" ++ student.Name

/-- The Deployment the pass starts from: only namespace and name are set. -/
def studentDeployment (student : Student) : Deployment :=
  { Namespace := student.Namespace, Name := studentChildName student }

/-- The Service the pass starts from: only namespace and name are set. -/
def studentService (student : Student) : Service :=
  { Namespace := student.Namespace, Name := studentChildName student }

/-- The mutate function of the Deployment upsert: the Deployment it leaves
and the error it returns. -/
def studentDeploymentMutate (sch : Scheme) (student : Student) (deployment : Deployment) :
    Deployment × Option Err :=
  let d1 : Deployment :=
    { deployment with
      Spec :=
        { deployment.Spec with
          Selector := some { MatchLabels := [("operator", "unito"), ("student", student.Name)] }
          Template :=
            { deployment.Spec.Template with
              Labels := [("operator", "unito"), ("student", student.Name)]
              Spec :=
                { deployment.Spec.Template.Spec with
                  Containers :=
                    [{ Name := "nginx", Image := "nginx", ImagePullPolicy := "Always",
                       TerminationMessagePath := "/dev/termination-log",
                       TerminationMessagePolicy := "File" }] } } } }
  let d2 := sch.Default d1
  match SetControllerReference sch "Student" student.toObjectMeta d2.OwnerReferences with
  | .error e => (d2, some e)
  | .ok refs => ({ d2 with OwnerReferences := refs }, none)

/-- The map `deployment.Spec.Selector.MatchLabels`, read through the pointer. -/
def matchLabelsOf (deployment : Deployment) : Labels :=
  match deployment.Spec.Selector with
  | some sel => sel.MatchLabels
  | none => []

/-- The mutate function of the Service upsert of the Student controller. -/
def studentServiceMutate (sch : Scheme) (student : Student) (deployment : Deployment)
    (svc : Service) : Service × Option Err :=
  let s1 : Service :=
    { svc with
      Spec :=
        { svc.Spec with
          Typ := "ClusterIP"
          Ports := [{ Name := "http", Protocol := "TCP", Port := 80, TargetPort := { IntVal := 80 } }]
          Selector := matchLabelsOf deployment } }
  match SetControllerReference sch "Student" student.toObjectMeta s1.OwnerReferences with
  | .error e => (s1, some e)
  | .ok refs => ({ s1 with OwnerReferences := refs }, none)

/-- The part of `StudentReconciler.Reconcile` that follows the finalizer
handling: the two upserts and the status update. -/
def StudentReconciler.sync (sch : Scheme) (student : Student) (w : World) :
    (Result × Option Err) × World :=
  let d := CreateOrUpdate deploymentClient (studentDeployment student) ()
    (fun d b x => (((studentDeploymentMutate sch student d).1, b,
      (studentDeploymentMutate sch student d).2), x)) w
  match d.1.err with
  | some e => (({}, some e), d.2)
  | none =>
    let s := CreateOrUpdate serviceClient (studentService student) ()
      (fun s b x => (((studentServiceMutate sch student d.1.obj s).1, b,
        (studentServiceMutate sch student d.1.obj s).2), x)) d.2
    match s.1.err with
    | some e => (({}, some e), s.2)
    | none =>
      if d.1.obj.Status.UnavailableReplicas > 0 then
        let u := Client.statusUpdateStudent (student.setInitialized false) s.2
        match u.1 with
        | some e => (({}, some e), u.2)
        | none => (({}, none), u.2)
      else
        let u := Client.statusUpdateStudent
          ((student.setInitialized true).setAcceptance "Accepted") s.2
        match u.1 with
        | some e => (({}, some e), u.2)
        | none => (({}, none), u.2)

/-- Model of `StudentReconciler.Reconcile`. The log of client calls starts
empty at every pass. -/
def StudentReconciler.Reconcile (sch : Scheme) (req : NamespacedName) (w0 : World) :
    (Result × Option Err) × World :=
  let g := Client.getStudent req { w0 with trace := [] }
  match g.1 with
  | .error e =>
    if e = .notFound then (({}, none), g.2) else (({}, some e), g.2)
  | .ok student =>
    if student.DeletionTimestamp ≠ none then
      let u := Client.updateStudent
        { student with Finalizers := RemoveFinalizer student.toObjectMeta studentFinalizer } g.2
      (({}, u.1), u.2)
    else if len student.Spec.Nickname = 0 then
      (({ Requeue := true }, none), g.2)
    else if ContainsFinalizer student.toObjectMeta studentFinalizer = false then
      let u := Client.updateStudent
        { student with Finalizers := AddFinalizer student.toObjectMeta studentFinalizer } g.2
      (({}, u.1), u.2)
    else StudentReconciler.sync sch student g.2

/-! ## The MySQL controller -/

/-- The Pod the pass starts from: `pod.Name = db.Name`, `pod.Namespace = db.Namespace`. -/
def mysqlPod (db : MySQL) : Pod := { Name := db.Name, Namespace := db.Namespace }

/-- The Service the pass starts from: `svc.Name = db.Name`, `svc.Namespace = db.Namespace`. -/
def mysqlService (db : MySQL) : Service := { Name := db.Name, Namespace := db.Namespace }

/-- The statement `if len(xs) == 0 { xs = append(xs, z) }`. -/
def ensureFirst {α : Type} (z : α) (xs : List α) : List α :=
  if xs.length = 0 then xs ++ [z] else xs

/-- An assignment to the fields of `xs[0]`. -/
def setFirst {α : Type} (f : α → α) : List α → List α
  | [] => []
  | x :: xs => f x :: xs

/-- The value `xs[0].Value` of a list of environment variables. -/
def firstValue : List EnvVar → String
  | [] => ""
  | e :: _ => e.Value

/-- The environment `pod.Spec.Containers[0].Env`. -/
def firstEnv : List Container → List EnvVar
  | [] => []
  | c :: _ => c.Env

/-- The `switch` of the mutate function in `createPod`: the password for a
Pod whose first environment variable currently holds `current`. -/
def mysqlPassword (db : MySQL) (current : String) (w : World) : String × World :=
  if len db.Spec.Authentication.RootPassword > 0 then (db.Spec.Authentication.RootPassword, w)
  else if len current = 0 then uuidNew w
  else (current, w)

/-- The mutate function of the Pod upsert in `createPod`. It assigns the
captured variable `password` and may draw a token. -/
def mysqlPodMutate (sch : Scheme) (db : MySQL) (pod : Pod) (_password : String) (w : World) :
    (Pod × String × Option Err) × World :=
  let cs1 := ensureFirst ({} : Container) pod.Spec.Containers
  let cs2 := setFirst
    (fun c => { c with Name := "db", Image := "docker.io/mysql:" ++ db.Spec.Version }) cs1
  let labels : Labels :=
    [("unito.it/db", "mysql"), ("unito.it/name", db.Name), ("unito.it/project", "operator")]
  let cs3 := setFirst (fun c => { c with Env := ensureFirst ({} : EnvVar) c.Env }) cs2
  let cs4 := setFirst
    (fun c => { c with Env := setFirst (fun e => { e with Name := "MYSQL_ROOT_PASSWORD" }) c.Env }) cs3
  let drawn := mysqlPassword db (firstValue (firstEnv cs4)) w
  let cs5 := setFirst
    (fun c => { c with Env := setFirst (fun e => { e with Value := drawn.1 }) c.Env }) cs4
  let pod1 : Pod := { pod with Labels := labels, Spec := { pod.Spec with Containers := cs5 } }
  match SetControllerReference sch "MySQL" db.toObjectMeta pod1.OwnerReferences with
  | .error e => ((pod1, drawn.1, some e), drawn.2)
  | .ok refs => (({ pod1 with OwnerReferences := refs }, drawn.1, none), drawn.2)

/-- Model of `MySQLReconciler.createPod`: what the upsert of the Pod leaves
(`captured` is the returned password), or the error of the delete that
precedes it. -/
def MySQLReconciler.createPod (sch : Scheme) (db : MySQL) (pod : Pod) (w : World) :
    Upsert Pod String × World :=
  if len db.Spec.Authentication.RootPassword > 0
      ∧ db.Spec.Authentication.RootPassword ≠ db.Status.RootPassword then
    let del := Client.deletePod pod w
    match del.1 with
    | some e =>
      if e ≠ .notFound then (⟨pod, "", .none, some e⟩, del.2)
      else CreateOrUpdate podClient pod "" (mysqlPodMutate sch db) del.2
    | none => CreateOrUpdate podClient pod "" (mysqlPodMutate sch db) del.2
  else CreateOrUpdate podClient pod "" (mysqlPodMutate sch db) w

/-- The mutate function of the Service upsert in `createService`. -/
def mysqlServiceMutate (sch : Scheme) (db : MySQL) (svc : Service) : Service × Option Err :=
  let s1 : Service :=
    { svc with
      Spec :=
        { svc.Spec with
          Ports := [{ Name := "mysql", Protocol := "TCP", Port := 3306,
                      TargetPort := { Typ := 0, IntVal := 3306 } }]
          Selector := [("unito.it/db", "mysql"), ("unito.it/name", db.Name)] } }
  match SetControllerReference sch "MySQL" db.toObjectMeta s1.OwnerReferences with
  | .error e => (s1, some e)
  | .ok refs => ({ s1 with OwnerReferences := refs }, none)

/-- Model of `MySQLReconciler.createService`. -/
def MySQLReconciler.createService (sch : Scheme) (db : MySQL) (svc : Service) (w : World) :
    Upsert Service Unit × World :=
  CreateOrUpdate serviceClient svc ()
    (fun s b x => (((mysqlServiceMutate sch db s).1, b, (mysqlServiceMutate sch db s).2), x)) w

/-- Model of `MySQLReconciler.updateDatabaseInstanceStatus`. -/
def MySQLReconciler.updateDatabaseInstanceStatus (db : MySQL) (w : World) : Option Err × World :=
  Client.statusUpdateMySQL db w

/-- The part of `MySQLReconciler.Reconcile` that follows the get of the
record. An error of a status update is only logged by the controller, so its
value is dropped here. -/
def MySQLReconciler.sync (sch : Scheme) (db : MySQL) (w : World) :
    (Result × Option Err) × World :=
  let p := MySQLReconciler.createPod sch db (mysqlPod db) w
  match p.1.err with
  | some e => (({}, some e), p.2)
  | none =>
    let db1 := db.setInitialized true
    let u1 := MySQLReconciler.updateDatabaseInstanceStatus db1 p.2
    let s := MySQLReconciler.createService sch db1 (mysqlService db1) u1.2
    match s.1.err with
    | some e => (({}, some e), s.2)
    | none =>
      if len s.1.obj.Spec.ClusterIP = 0 then (({}, none), s.2)
      else
        let db2 := db1.setAddress s.1.obj.Spec.ClusterIP
        let u2 := MySQLReconciler.updateDatabaseInstanceStatus db2 s.2
        let db3 := db2.setRootPassword p.1.captured
        let u3 := MySQLReconciler.updateDatabaseInstanceStatus db3 u2.2
        let db4 := db3.setReady (decide (p.1.obj.Status.Phase = "Running"))
        let u4 := MySQLReconciler.updateDatabaseInstanceStatus db4 u3.2
        (({}, none), u4.2)

/-- Model of `MySQLReconciler.Reconcile`. The log of client calls starts empty
at every pass. -/
def MySQLReconciler.Reconcile (sch : Scheme) (req : NamespacedName) (w0 : World) :
    (Result × Option Err) × World :=
  let g := Client.getMySQL req { w0 with trace := [] }
  match g.1 with
  | .error e =>
    if e = .notFound then (({}, none), g.2) else (({}, some e), g.2)
  | .ok db => MySQLReconciler.sync sch db g.2

/-! ## Vocabulary for the statements -/

/-- A create, update or delete of a child object (Pod, Deployment, Service). -/
def Op.isChildWrite : Op → Bool
  | .createPod _ | .updatePod _ | .deletePod _ => true
  | .createService _ | .updateService _ => true
  | .createDeployment _ | .updateDeployment _ => true
  | _ => false

/-- A create of a child object. -/
def Op.isChildCreate : Op → Bool
  | .createPod _ | .createService _ | .createDeployment _ => true
  | _ => false

/-- A delete of a child object. -/
def Op.isChildDelete : Op → Bool
  | .deletePod _ => true
  | _ => false

/-- A write of the status subresource of a record. -/
def Op.isStatusWrite : Op → Bool
  | .statusUpdateMySQL _ | .statusUpdateStudent _ => true
  | _ => false

/-- An update of the record itself. -/
def Op.isRecordUpdate : Op → Bool
  | .updateStudent _ => true
  | _ => false

/-- A read. -/
def Op.isGet : Op → Bool
  | .getMySQL _ | .getStudent _ | .getPod _ | .getService _ | .getDeployment _ => true
  | _ => false

/-- Any call other than a read. -/
def Op.isWrite (op : Op) : Bool := !op.isGet

/-- An update of a child object. -/
def Op.isChildUpdate : Op → Bool
  | .updatePod _ | .updateService _ | .updateDeployment _ => true
  | _ => false

/-- A call that `CreateOrUpdate` issues: a read, a create or an update of a child. -/
def Op.isUpsertCall (op : Op) : Bool := op.isGet || op.isChildCreate || op.isChildUpdate

/-- A failed call: it returned an error, other than not-found on a read. -/
def Event.failed (ev : Event) : Bool :=
  match ev.err with
  | none => false
  | some e => !(ev.op.isGet && decide (e = .notFound))

/-- A failed call, not counting what the MySQL controller tolerates: a failed
status update, and not-found on the delete of the Pod. -/
def Event.failedMySQL (ev : Event) : Bool :=
  ev.failed && !ev.op.isStatusWrite && !(ev.op.isChildDelete && decide (ev.err = some .notFound))

/-- Fail-stop: a call that counts as failed is the last call of the log and
its error is the error returned. -/
def FailStop (fatal : Event → Bool) (evs : List Event) (r : Option Err) : Prop :=
  ∀ pre ev post, evs = pre ++ ev :: post → fatal ev = true → post = [] ∧ r = ev.err

/-- What the proofs use of a client of one child kind: each call logs one
event of its own sort and leaves the rest of the world alone. -/
structure ChildClient.Lawful {α : Type} (c : ChildClient α) : Prop where
  get_frame : ∀ k w, ∃ op, op.isGet = true
    ∧ (c.get k w).2.trace = w.trace ++ [⟨op, errOf (c.get k w).1⟩]
    ∧ (c.get k w).2.faults = w.faults.tail
    ∧ (c.get k w).2.random = w.random
    ∧ (c.get k w).2.store = w.store
  create_frame : ∀ x w, ∃ op, op.isChildCreate = true
    ∧ (c.create x w).2.trace = w.trace ++ [⟨op, (c.create x w).1⟩]
    ∧ (c.create x w).2.faults = w.faults.tail
    ∧ (c.create x w).2.random = w.random
    ∧ (c.create x w).2.store.mysqls = w.store.mysqls
    ∧ (c.create x w).2.store.students = w.store.students
  update_frame : ∀ x w, ∃ op, op.isChildUpdate = true
    ∧ (c.update x w).2.trace = w.trace ++ [⟨op, (c.update x w).1⟩]
    ∧ (c.update x w).2.faults = w.faults.tail
    ∧ (c.update x w).2.random = w.random
    ∧ (c.update x w).2.store.mysqls = w.store.mysqls
    ∧ (c.update x w).2.store.students = w.store.students

/-- A mutate function that touches nothing of the world but its random source. -/
def Quiet {α β : Type} (f : α → β → World → (α × β × Option Err) × World) : Prop :=
  ∀ x b w, (f x b w).2.trace = w.trace ∧ (f x b w).2.faults = w.faults
    ∧ (f x b w).2.store = w.store

/-- The credential rule in the words of the specification, to be compared
with `mysqlPassword`: the explicit value `s` when it is non-empty and differs
from the status value `t`; otherwise the value `v` the Pod carries when it is
non-empty; otherwise the fresh token. -/
def claimedCredential (s t v fresh : String) : String :=
  if s ≠ "" ∧ s ≠ t then s else if v ≠ "" then v else fresh

/-- The `initialized` flag carried by a status write. -/
def Op.statusInitialized : Op → Option Bool
  | .statusUpdateMySQL m => some m.Status.Initialized
  | .statusUpdateStudent s => some s.Status.Initialized
  | _ => none

/-- A create, update or delete of a Pod. -/
def Op.isPodWrite : Op → Bool
  | .createPod _ | .updatePod _ | .deletePod _ => true
  | _ => false

/-- The events that the calls of a client log, call by call. -/
structure ChildClient.Logs {α : Type} (c : ChildClient α) (getOp : NamespacedName → Op)
    (createOp updateOp : α → Op) : Prop where
  get_log : ∀ k w, (c.get k w).2.trace = w.trace ++ [⟨getOp k, errOf (c.get k w).1⟩]
  create_log : ∀ x w, (c.create x w).2.trace = w.trace ++ [⟨createOp x, (c.create x w).1⟩]
  update_log : ∀ x w, (c.update x w).2.trace = w.trace ++ [⟨updateOp x, (c.update x w).1⟩]

/-- A call that is no delete and that, when it creates or updates a Pod, hands
over a Pod whose first environment variable holds `s`. -/
def Event.carries (s : String) (ev : Event) : Prop :=
  ev.op.isChildDelete = false
  ∧ ∀ p, (ev.op = .createPod p ∨ ev.op = .updatePod p) → firstValue (firstEnv p.Spec.Containers) = s

/-- What the calls of a client do to the objects of its kind (`view`) in a
world without scheduled failures. -/
structure ChildClient.Faithful {α : Type} (c : ChildClient α) (view : Store → List α) : Prop where
  get_ok : ∀ k w, w.faults = [] → (c.get k w).1 = found (lookup c.meta k (view w.store))
  create_ok : ∀ x w, w.faults = [] → lookup c.meta (keyOf (c.meta x)) (view w.store) = none →
    (c.create x w).1 = none ∧ view (c.create x w).2.store = view w.store ++ [x]
  update_ok : ∀ x w old, w.faults = [] →
    lookup c.meta (keyOf (c.meta x)) (view w.store) = some old →
    (c.update x w).1 = none ∧ view (c.update x w).2.store = replace c.meta x (view w.store)

/-- The `ready` flag carried by a status write of the MySQL controller. -/
def Op.statusReady : Op → Option Bool
  | .statusUpdateMySQL m => some m.Status.Ready
  | _ => none

/-- The status that the Student pass writes for a record whose Deployment is `d`. -/
def studentTarget (student : Student) (d : Deployment) : Student :=
  if d.Status.UnavailableReplicas > 0 then student.setInitialized false
  else (student.setInitialized true).setAcceptance "Accepted"

/-- A store on which the upserts and the status update of the Student pass
for `student` have nothing left to do: either the mutate function of the
Deployment fails on what is stored, or the stored Deployment `d0` is left
unchanged by it and either the mutate function of the Service fails on what is
stored, or the stored Service `s0` is left unchanged by it and every stored
record under the key of `student` is `student`, which carries the status that
the pass writes. -/
def StudentReconciler.Stable (sch : Scheme) (student : Student) (st : Store) : Prop :=
  ∃ d0, d0 = (lookup Deployment.toObjectMeta (keyOf (studentDeployment student).toObjectMeta)
      st.deployments).getD (studentDeployment student)
    ∧ ((studentDeploymentMutate sch student d0).2 ≠ none
      ∨ (lookup Deployment.toObjectMeta (keyOf (studentDeployment student).toObjectMeta)
            st.deployments = some d0
          ∧ studentDeploymentMutate sch student d0 = (d0, none)
          ∧ ∃ s0, s0 = (lookup Service.toObjectMeta (keyOf (studentService student).toObjectMeta)
              st.services).getD (studentService student)
            ∧ ((studentServiceMutate sch student d0 s0).2 ≠ none
              ∨ (lookup Service.toObjectMeta (keyOf (studentService student).toObjectMeta)
                    st.services = some s0
                  ∧ studentServiceMutate sch student d0 s0 = (s0, none)
                  ∧ (∀ z ∈ st.students,
                      keyOf z.toObjectMeta = keyOf student.toObjectMeta → z = student)
                  ∧ studentTarget student d0 = student))))

/-- A store on which the MySQL pass for `db` has nothing left to do: no
rotation is pending, and either the mutate function of the Pod fails on what
is stored, or the stored Pod `p0` is left unchanged by it (with password
`pw`), every stored record under the key of `db` is `db`, which is marked
initialized, and either the mutate function of the Service fails on what is
stored, or the stored Service `s0` is left unchanged by it and either `s0` has
no cluster IP or `db` carries the address, the password and the readiness
that the pass writes. -/
def MySQLReconciler.Stable (sch : Scheme) (db : MySQL) (st : Store) : Prop :=
  ¬ (len db.Spec.Authentication.RootPassword > 0
      ∧ db.Spec.Authentication.RootPassword ≠ db.Status.RootPassword)
  ∧ ∃ p0, p0 = (lookup Pod.toObjectMeta (keyOf (mysqlPod db).toObjectMeta) st.pods).getD (mysqlPod db)
    ∧ ((mysqlPodMutate sch db p0 "" {}).1.2.2 ≠ none
      ∨ (lookup Pod.toObjectMeta (keyOf (mysqlPod db).toObjectMeta) st.pods = some p0
          ∧ (∃ pw, (∀ v, mysqlPodMutate sch db p0 "" v = ((p0, pw, none), v))
            ∧ (∀ z ∈ st.mysqls, keyOf z.toObjectMeta = keyOf db.toObjectMeta → z = db)
            ∧ db.Status.Initialized = true
            ∧ ∃ s0, s0 = (lookup Service.toObjectMeta (keyOf (mysqlService db).toObjectMeta)
                st.services).getD (mysqlService db)
              ∧ ((mysqlServiceMutate sch db s0).2 ≠ none
                ∨ (lookup Service.toObjectMeta (keyOf (mysqlService db).toObjectMeta)
                      st.services = some s0
                    ∧ mysqlServiceMutate sch db s0 = (s0, none)
                    ∧ (len s0.Spec.ClusterIP = 0
                      ∨ (db.Status.Address = s0.Spec.ClusterIP
                          ∧ db.Status.RootPassword = pw
                          ∧ db.Status.Ready = decide (p0.Status.Phase = "Running"))))))))

/-! ## Example worlds -/

/-- A scheme whose `Default` leaves a Deployment as it is. -/
def exScheme : Scheme := ⟨"unito.it", "v1beta1", id⟩

/-- A Student record as a user creates it: nickname set, no finalizer yet. -/
def exStudent : Student :=
  { Name := "alice", Namespace := "campus", UID := "u1",
    Spec := { Surname := "Rossi", BirthDate := "2001-02-03", CourseYear := "2022-2023", Nickname := "al" } }

/-- The request for `exStudent`. -/
def exStudentKey : NamespacedName := ⟨"campus", "alice"⟩

/-- A store that holds `exStudent` only; no failure is scheduled. -/
def exStudentWorld : World := { store := { students := [exStudent] } }

/-- The same record without a nickname. -/
def exAnonymous : Student := { exStudent with Spec := { exStudent.Spec with Nickname := "" } }

/-- A store that holds `exAnonymous` only. -/
def exAnonymousWorld : World := { store := { students := [exAnonymous] } }

/-- The record of `exStudent` under deletion, with the finalizer of the
controller and one of another party. -/
def exLeaving : Student :=
  { exStudent with DeletionTimestamp := some 7, Finalizers := ["k8s.unito.it/api", "other/guard"] }

/-- A store that holds `exLeaving` only. -/
def exLeavingWorld : World := { store := { students := [exLeaving] } }

/-- The record of `exStudent` under deletion, with the finalizer of the
controller only. -/
def exDeparting : Student :=
  { exStudent with DeletionTimestamp := some 7, Finalizers := ["k8s.unito.it/api"] }

/-- A store that holds `exDeparting` only. -/
def exDepartingWorld : World := { store := { students := [exDeparting] } }

/-- The record of `exStudent` once the finalizer is on it. -/
def exEnrolled : Student := { exStudent with Finalizers := ["k8s.unito.it/api"] }

/-- A store that holds `exEnrolled` only. -/
def exEnrolledWorld : World := { store := { students := [exEnrolled] } }

/-- A MySQL record under deletion, held back by a finalizer of another party. -/
def exLeavingDB : MySQL :=
  { Name := "db", Namespace := "campus", UID := "u2", DeletionTimestamp := some 7,
    Finalizers := ["foregroundDeletion"], Spec := { Version := "8.0" } }

/-- The request for the MySQL records of the examples. -/
def exDBKey : NamespacedName := ⟨"campus", "db"⟩

/-- A store that holds `exLeavingDB` only. -/
def exLeavingDBWorld : World := { store := { mysqls := [exLeavingDB] } }

/-- A MySQL record whose explicit root password is already recorded in its status. -/
def exSettledDB : MySQL :=
  { Name := "db", Namespace := "campus", UID := "u2",
    Spec := { Authentication := { RootPassword := "secret" }, Version := "8.0" },
    Status := { RootPassword := "secret", Initialized := true } }

/-- A Pod that carries another password than `exSettledDB` declares. -/
def exStalePod : Pod :=
  { Name := "db", Namespace := "campus",
    Spec := { Containers := [{ Name := "db", Env := [{ Name := "MYSQL_ROOT_PASSWORD", Value := "old" }] }] } }

/-- A store that holds `exSettledDB` and no Pod. -/
def exSettledWorld : World := { store := { mysqls := [exSettledDB] } }

/-- A MySQL record named like the children of `exStudent`. -/
def exClashDB : MySQL :=
  { Name := "unito-u1-alice", Namespace := "campus", UID := "u3", Spec := { Version := "8.0" } }

/-- A second Student record in the namespace of `exStudent`. -/
def exOtherStudent : Student :=
  { Name := "bob", Namespace := "campus", UID := "u4", Spec := { Nickname := "bo" } }

/-- A MySQL record as a user creates it, without explicit root password. -/
def exFreshDB : MySQL :=
  { Name := "db", Namespace := "campus", UID := "u2", Spec := { Version := "8.0" } }

/-- A store that holds `exFreshDB` only, where the fourth client call will
fail with a conflict. -/
def exFlakyWorld : World :=
  { store := { mysqls := [exFreshDB] }, faults := [none, none, none, some .conflict] }

/-- A store that holds `exEnrolled` only, where the third client call will
fail with a conflict. -/
def exFlakyStudentWorld : World :=
  { store := { students := [exEnrolled] }, faults := [none, none, some .conflict] }

/-- The Deployment of `exEnrolled`, reporting two unavailable replicas. -/
def exDegraded : Deployment :=
  { Name := "unito-u1-alice", Namespace := "campus", Status := { UnavailableReplicas := 2 } }

/-- A store that holds `exEnrolled` and its degraded Deployment. -/
def exDegradedWorld : World := { store := { students := [exEnrolled], deployments := [exDegraded] } }

/-- The record of `exEnrolled` after an earlier pass accepted it. -/
def exAccepted : Student :=
  { exEnrolled with Status := { Initialized := true, Acceptance := "Accepted" } }

/-- A store that holds `exAccepted` and its Deployment, degraded since. -/
def exRelapsedWorld : World := { store := { students := [exAccepted], deployments := [exDegraded] } }

/-- A MySQL record whose explicit root password is not yet recorded in its status. -/
def exRotatingDB : MySQL :=
  { Name := "db", Namespace := "campus", UID := "u2",
    Spec := { Authentication := { RootPassword := "secret" }, Version := "8.0" },
    Status := { Initialized := true } }

/-- A store that holds `exRotatingDB` and a Pod with the former password; no
Service exists, so none has a cluster IP. -/
def exRotatingWorld : World := { store := { mysqls := [exRotatingDB], pods := [exStalePod] } }

/-- A Service of `exRotatingDB` to which the store has assigned a cluster IP. -/
def exAddressed : Service :=
  { Name := "db", Namespace := "campus", Spec := { ClusterIP := "10.0.0.7" } }

/-- The store of `exRotatingWorld` with the addressed Service. -/
def exAddressedWorld : World :=
  { store := { mysqls := [exRotatingDB], pods := [exStalePod], services := [exAddressed] } }

/-- A MySQL record that an earlier pass found ready. -/
def exReadyDB : MySQL :=
  { exSettledDB with Status := { exSettledDB.Status with Address := "10.0.0.7", Ready := true } }

/-- The Pod of `exReadyDB`, restarted since: it carries the password and reports `Pending`. -/
def exPendingPod : Pod :=
  { Name := "db", Namespace := "campus",
    Spec := { Containers := [{ Name := "db", Env := [{ Name := "MYSQL_ROOT_PASSWORD", Value := "secret" }] }] },
    Status := { Phase := "Pending" } }

/-- A store that holds `exReadyDB`, its pending Pod and its addressed Service. -/
def exPendingWorld : World :=
  { store := { mysqls := [exReadyDB], pods := [exPendingPod], services := [exAddressed] } }

/-- A store that holds `exFreshDB` only; no failure is scheduled. -/
def exFreshWorld : World := { store := { mysqls := [exFreshDB] } }

/-- A store that holds `exFreshDB` and a Pod that carries a password. -/
def exKeptWorld : World := { store := { mysqls := [exFreshDB], pods := [exStalePod] } }

/-- A store that holds `exRotatingDB` and no Pod. -/
def exUnstartedWorld : World := { store := { mysqls := [exRotatingDB] } }

/-- The store of `exAddressedWorld`, where the tenth client call (the last
status update of the pass) will fail with a conflict. -/
def exLateFaultWorld : World :=
  { exAddressedWorld with
    faults := [none, none, none, none, none, none, none, none, none, some .conflict] }

/-! ## Frame lemmas for the client calls -/

theorem World.call_frame {α : Type} (w : World) (op : Op) (run : Store → Except Err α × Store) :
    (w.call op run).2.trace = w.trace ++ [⟨op, errOf (w.call op run).1⟩]
    ∧ (w.call op run).2.faults = w.faults.tail
    ∧ (w.call op run).2.random = w.random := by
  unfold World.call
  split <;> simp_all [errOf]

theorem World.call_store {α : Type} (w : World) (op : Op) (run : Store → Except Err α × Store)
    (P : Store → Prop) (h0 : P w.store) (h1 : P (run w.store).2) : P (w.call op run).2.store := by
  unfold World.call
  split <;> simpa

@[simp] theorem Client.getMySQL_frame (k : NamespacedName) (w : World) :
    (Client.getMySQL k w).2.trace = w.trace ++ [⟨.getMySQL k, errOf (Client.getMySQL k w).1⟩]
    ∧ (Client.getMySQL k w).2.faults = w.faults.tail
    ∧ (Client.getMySQL k w).2.random = w.random
    ∧ (Client.getMySQL k w).2.store = w.store := by
  refine ⟨(World.call_frame _ _ _).1, (World.call_frame _ _ _).2.1, (World.call_frame _ _ _).2.2, ?_⟩
  exact World.call_store _ _ _ (fun s => s = w.store) rfl rfl

@[simp] theorem Client.getStudent_frame (k : NamespacedName) (w : World) :
    (Client.getStudent k w).2.trace = w.trace ++ [⟨.getStudent k, errOf (Client.getStudent k w).1⟩]
    ∧ (Client.getStudent k w).2.faults = w.faults.tail
    ∧ (Client.getStudent k w).2.random = w.random
    ∧ (Client.getStudent k w).2.store = w.store := by
  refine ⟨(World.call_frame _ _ _).1, (World.call_frame _ _ _).2.1, (World.call_frame _ _ _).2.2, ?_⟩
  exact World.call_store _ _ _ (fun s => s = w.store) rfl rfl

@[simp] theorem Client.getPod_frame (k : NamespacedName) (w : World) :
    (Client.getPod k w).2.trace = w.trace ++ [⟨.getPod k, errOf (Client.getPod k w).1⟩]
    ∧ (Client.getPod k w).2.faults = w.faults.tail
    ∧ (Client.getPod k w).2.random = w.random
    ∧ (Client.getPod k w).2.store = w.store := by
  refine ⟨(World.call_frame _ _ _).1, (World.call_frame _ _ _).2.1, (World.call_frame _ _ _).2.2, ?_⟩
  exact World.call_store _ _ _ (fun s => s = w.store) rfl rfl

@[simp] theorem Client.getService_frame (k : NamespacedName) (w : World) :
    (Client.getService k w).2.trace = w.trace ++ [⟨.getService k, errOf (Client.getService k w).1⟩]
    ∧ (Client.getService k w).2.faults = w.faults.tail
    ∧ (Client.getService k w).2.random = w.random
    ∧ (Client.getService k w).2.store = w.store := by
  refine ⟨(World.call_frame _ _ _).1, (World.call_frame _ _ _).2.1, (World.call_frame _ _ _).2.2, ?_⟩
  exact World.call_store _ _ _ (fun s => s = w.store) rfl rfl

@[simp] theorem Client.getDeployment_frame (k : NamespacedName) (w : World) :
    (Client.getDeployment k w).2.trace = w.trace ++ [⟨.getDeployment k, errOf (Client.getDeployment k w).1⟩]
    ∧ (Client.getDeployment k w).2.faults = w.faults.tail
    ∧ (Client.getDeployment k w).2.random = w.random
    ∧ (Client.getDeployment k w).2.store = w.store := by
  refine ⟨(World.call_frame _ _ _).1, (World.call_frame _ _ _).2.1, (World.call_frame _ _ _).2.2, ?_⟩
  exact World.call_store _ _ _ (fun s => s = w.store) rfl rfl

@[simp] theorem Client.createPod_frame (x : Pod) (w : World) :
    (Client.createPod x w).2.trace = w.trace ++ [⟨.createPod x, (Client.createPod x w).1⟩]
    ∧ (Client.createPod x w).2.faults = w.faults.tail
    ∧ (Client.createPod x w).2.random = w.random
    ∧ (Client.createPod x w).2.store.mysqls = w.store.mysqls
    ∧ (Client.createPod x w).2.store.students = w.store.students
    ∧ (Client.createPod x w).2.store.services = w.store.services
    ∧ (Client.createPod x w).2.store.deployments = w.store.deployments := by
  refine ⟨(World.call_frame _ _ _).1, (World.call_frame _ _ _).2.1, (World.call_frame _ _ _).2.2,
    ?_, ?_, ?_, ?_⟩
  all_goals exact World.call_store _ _ _ (fun s => _ = _) rfl rfl

@[simp] theorem Client.updatePod_frame (x : Pod) (w : World) :
    (Client.updatePod x w).2.trace = w.trace ++ [⟨.updatePod x, (Client.updatePod x w).1⟩]
    ∧ (Client.updatePod x w).2.faults = w.faults.tail
    ∧ (Client.updatePod x w).2.random = w.random
    ∧ (Client.updatePod x w).2.store.mysqls = w.store.mysqls
    ∧ (Client.updatePod x w).2.store.students = w.store.students
    ∧ (Client.updatePod x w).2.store.services = w.store.services
    ∧ (Client.updatePod x w).2.store.deployments = w.store.deployments := by
  refine ⟨(World.call_frame _ _ _).1, (World.call_frame _ _ _).2.1, (World.call_frame _ _ _).2.2,
    ?_, ?_, ?_, ?_⟩
  all_goals exact World.call_store _ _ _ (fun s => _ = _) rfl rfl

@[simp] theorem Client.deletePod_frame (x : Pod) (w : World) :
    (Client.deletePod x w).2.trace = w.trace ++ [⟨.deletePod x, (Client.deletePod x w).1⟩]
    ∧ (Client.deletePod x w).2.faults = w.faults.tail
    ∧ (Client.deletePod x w).2.random = w.random
    ∧ (Client.deletePod x w).2.store.mysqls = w.store.mysqls
    ∧ (Client.deletePod x w).2.store.students = w.store.students
    ∧ (Client.deletePod x w).2.store.services = w.store.services
    ∧ (Client.deletePod x w).2.store.deployments = w.store.deployments := by
  refine ⟨(World.call_frame _ _ _).1, (World.call_frame _ _ _).2.1, (World.call_frame _ _ _).2.2,
    ?_, ?_, ?_, ?_⟩
  all_goals exact World.call_store _ _ _ (fun s => _ = _) rfl rfl

@[simp] theorem Client.createService_frame (x : Service) (w : World) :
    (Client.createService x w).2.trace = w.trace ++ [⟨.createService x, (Client.createService x w).1⟩]
    ∧ (Client.createService x w).2.faults = w.faults.tail
    ∧ (Client.createService x w).2.random = w.random
    ∧ (Client.createService x w).2.store.mysqls = w.store.mysqls
    ∧ (Client.createService x w).2.store.students = w.store.students
    ∧ (Client.createService x w).2.store.pods = w.store.pods
    ∧ (Client.createService x w).2.store.deployments = w.store.deployments := by
  refine ⟨(World.call_frame _ _ _).1, (World.call_frame _ _ _).2.1, (World.call_frame _ _ _).2.2,
    ?_, ?_, ?_, ?_⟩
  all_goals exact World.call_store _ _ _ (fun s => _ = _) rfl rfl

@[simp] theorem Client.updateService_frame (x : Service) (w : World) :
    (Client.updateService x w).2.trace = w.trace ++ [⟨.updateService x, (Client.updateService x w).1⟩]
    ∧ (Client.updateService x w).2.faults = w.faults.tail
    ∧ (Client.updateService x w).2.random = w.random
    ∧ (Client.updateService x w).2.store.mysqls = w.store.mysqls
    ∧ (Client.updateService x w).2.store.students = w.store.students
    ∧ (Client.updateService x w).2.store.pods = w.store.pods
    ∧ (Client.updateService x w).2.store.deployments = w.store.deployments := by
  refine ⟨(World.call_frame _ _ _).1, (World.call_frame _ _ _).2.1, (World.call_frame _ _ _).2.2,
    ?_, ?_, ?_, ?_⟩
  all_goals exact World.call_store _ _ _ (fun s => _ = _) rfl rfl

@[simp] theorem Client.createDeployment_frame (x : Deployment) (w : World) :
    (Client.createDeployment x w).2.trace = w.trace ++ [⟨.createDeployment x, (Client.createDeployment x w).1⟩]
    ∧ (Client.createDeployment x w).2.faults = w.faults.tail
    ∧ (Client.createDeployment x w).2.random = w.random
    ∧ (Client.createDeployment x w).2.store.mysqls = w.store.mysqls
    ∧ (Client.createDeployment x w).2.store.students = w.store.students
    ∧ (Client.createDeployment x w).2.store.pods = w.store.pods
    ∧ (Client.createDeployment x w).2.store.services = w.store.services := by
  refine ⟨(World.call_frame _ _ _).1, (World.call_frame _ _ _).2.1, (World.call_frame _ _ _).2.2,
    ?_, ?_, ?_, ?_⟩
  all_goals exact World.call_store _ _ _ (fun s => _ = _) rfl rfl

@[simp] theorem Client.updateDeployment_frame (x : Deployment) (w : World) :
    (Client.updateDeployment x w).2.trace = w.trace ++ [⟨.updateDeployment x, (Client.updateDeployment x w).1⟩]
    ∧ (Client.updateDeployment x w).2.faults = w.faults.tail
    ∧ (Client.updateDeployment x w).2.random = w.random
    ∧ (Client.updateDeployment x w).2.store.mysqls = w.store.mysqls
    ∧ (Client.updateDeployment x w).2.store.students = w.store.students
    ∧ (Client.updateDeployment x w).2.store.pods = w.store.pods
    ∧ (Client.updateDeployment x w).2.store.services = w.store.services := by
  refine ⟨(World.call_frame _ _ _).1, (World.call_frame _ _ _).2.1, (World.call_frame _ _ _).2.2,
    ?_, ?_, ?_, ?_⟩
  all_goals exact World.call_store _ _ _ (fun s => _ = _) rfl rfl

@[simp] theorem Client.updateStudent_frame (x : Student) (w : World) :
    (Client.updateStudent x w).2.trace = w.trace ++ [⟨.updateStudent x, (Client.updateStudent x w).1⟩]
    ∧ (Client.updateStudent x w).2.faults = w.faults.tail
    ∧ (Client.updateStudent x w).2.random = w.random
    ∧ (Client.updateStudent x w).2.store.mysqls = w.store.mysqls
    ∧ (Client.updateStudent x w).2.store.pods = w.store.pods
    ∧ (Client.updateStudent x w).2.store.services = w.store.services
    ∧ (Client.updateStudent x w).2.store.deployments = w.store.deployments := by
  refine ⟨(World.call_frame _ _ _).1, (World.call_frame _ _ _).2.1, (World.call_frame _ _ _).2.2,
    ?_, ?_, ?_, ?_⟩
  all_goals exact World.call_store _ _ _ (fun s => _ = _) rfl (by split <;> (try split) <;> rfl)

@[simp] theorem Client.statusUpdateStudent_frame (x : Student) (w : World) :
    (Client.statusUpdateStudent x w).2.trace = w.trace ++ [⟨.statusUpdateStudent x, (Client.statusUpdateStudent x w).1⟩]
    ∧ (Client.statusUpdateStudent x w).2.faults = w.faults.tail
    ∧ (Client.statusUpdateStudent x w).2.random = w.random
    ∧ (Client.statusUpdateStudent x w).2.store.mysqls = w.store.mysqls
    ∧ (Client.statusUpdateStudent x w).2.store.pods = w.store.pods
    ∧ (Client.statusUpdateStudent x w).2.store.services = w.store.services
    ∧ (Client.statusUpdateStudent x w).2.store.deployments = w.store.deployments := by
  refine ⟨(World.call_frame _ _ _).1, (World.call_frame _ _ _).2.1, (World.call_frame _ _ _).2.2,
    ?_, ?_, ?_, ?_⟩
  all_goals exact World.call_store _ _ _ (fun s => _ = _) rfl (by split <;> rfl)

@[simp] theorem Client.statusUpdateMySQL_frame (x : MySQL) (w : World) :
    (Client.statusUpdateMySQL x w).2.trace = w.trace ++ [⟨.statusUpdateMySQL x, (Client.statusUpdateMySQL x w).1⟩]
    ∧ (Client.statusUpdateMySQL x w).2.faults = w.faults.tail
    ∧ (Client.statusUpdateMySQL x w).2.random = w.random
    ∧ (Client.statusUpdateMySQL x w).2.store.students = w.store.students
    ∧ (Client.statusUpdateMySQL x w).2.store.pods = w.store.pods
    ∧ (Client.statusUpdateMySQL x w).2.store.services = w.store.services
    ∧ (Client.statusUpdateMySQL x w).2.store.deployments = w.store.deployments := by
  refine ⟨(World.call_frame _ _ _).1, (World.call_frame _ _ _).2.1, (World.call_frame _ _ _).2.2,
    ?_, ?_, ?_, ?_⟩
  all_goals exact World.call_store _ _ _ (fun s => _ = _) rfl (by split <;> rfl)

/-! ## Lemmas on the store -/

theorem lookup_key {α : Type} (meta : α → ObjectMeta) (k : NamespacedName) (xs : List α) (x : α)
    (h : lookup meta k xs = some x) : keyOf (meta x) = k := by
  unfold lookup at h
  have := List.find?_some h
  simpa using this

theorem lookup_replace {α : Type} (meta : α → ObjectMeta) (x old : α) (xs : List α)
    (h : lookup meta (keyOf (meta x)) xs = some old) :
    lookup meta (keyOf (meta x)) (replace meta x xs) = some x := by
  induction xs with
  | nil => simp [lookup] at h
  | cons y ys ih =>
    by_cases hy : keyOf (meta y) = keyOf (meta x)
    · simp only [lookup, replace, List.map_cons, if_pos hy, List.find?_cons, decide_True]
    · have h2 : lookup meta (keyOf (meta x)) ys = some old := by
        simpa [lookup, List.find?_cons, hy] using h
      have h3 := ih h2
      simp only [lookup, replace] at h3
      simp only [lookup, replace, List.map_cons, List.find?_cons, hy, if_false, decide_False]
      exact h3

theorem lookup_append_new {α : Type} (meta : α → ObjectMeta) (x : α) (xs : List α)
    (h : lookup meta (keyOf (meta x)) xs = none) :
    lookup meta (keyOf (meta x)) (xs ++ [x]) = some x := by
  unfold lookup at *
  simp [List.find?_append, h]

theorem lookup_remove {α : Type} (meta : α → ObjectMeta) (k : NamespacedName) (xs : List α) :
    lookup meta k (remove meta k xs) = none := by
  unfold lookup remove
  simp [List.find?_eq_none]

theorem replace_self {α : Type} (meta : α → ObjectMeta) (x : α) (xs : List α)
    (h : ∀ y ∈ xs, keyOf (meta y) = keyOf (meta x) → y = x) : replace meta x xs = xs := by
  unfold replace
  conv_rhs => rw [← List.map_id xs]
  apply List.map_congr_left
  intro y hy
  by_cases hk : keyOf (meta y) = keyOf (meta x)
  · simp [hk, h y hy hk]
  · simp [hk]

theorem podClient_lawful : podClient.Lawful where
  get_frame k w := ⟨.getPod k, rfl, by simp [podClient]⟩
  create_frame x w := ⟨.createPod x, rfl, by simp [podClient]⟩
  update_frame x w := ⟨.updatePod x, rfl, by simp [podClient]⟩

theorem serviceClient_lawful : serviceClient.Lawful where
  get_frame k w := ⟨.getService k, rfl, by simp [serviceClient]⟩
  create_frame x w := ⟨.createService x, rfl, by simp [serviceClient]⟩
  update_frame x w := ⟨.updateService x, rfl, by simp [serviceClient]⟩

theorem deploymentClient_lawful : deploymentClient.Lawful where
  get_frame k w := ⟨.getDeployment k, rfl, by simp [deploymentClient]⟩
  create_frame x w := ⟨.createDeployment x, rfl, by simp [deploymentClient]⟩
  update_frame x w := ⟨.updateDeployment x, rfl, by simp [deploymentClient]⟩

theorem FailStop.nil (fatal : Event → Bool) (r : Option Err) : FailStop fatal [] r := by
  intro pre ev post h
  simp at h

theorem FailStop.single (fatal : Event → Bool) (ev : Event) (r : Option Err)
    (h : fatal ev = true → r = ev.err) : FailStop fatal [ev] r := by
  intro pre e post heq hf
  rcases pre with _ | ⟨p, ps⟩
  · simp at heq
    obtain ⟨h1, h2⟩ := heq
    subst h1
    exact ⟨h2, h hf⟩
  · simp at heq

theorem FailStop.append (fatal : Event → Bool) (xs ys : List Event) (r : Option Err)
    (hx : ∀ ev ∈ xs, fatal ev = false) (hy : FailStop fatal ys r) : FailStop fatal (xs ++ ys) r := by
  intro pre ev post heq hf
  rcases List.append_eq_append_iff.mp heq with ⟨as, h1, h2⟩ | ⟨bs, h1, h2⟩
  · -- pre = xs ++ as, ys = as ++ ev :: post
    exact hy as ev post h2 hf
  · -- xs = pre ++ bs, ev :: post = bs ++ ys
    rcases bs with _ | ⟨b, bs⟩
    · simp at h2
      exact hy [] ev post h2.symm hf
    · simp at h2
      obtain ⟨hb, -⟩ := h2
      subst hb
      have := hx ev (by rw [h1]; simp)
      rw [this] at hf
      cases hf

theorem FailStop.ok_of_none (fatal : Event → Bool) (evs : List Event)
    (hfatal : ∀ ev, fatal ev = true → ev.err ≠ none)
    (h : FailStop fatal evs none) : ∀ ev ∈ evs, fatal ev = false := by
  intro ev hev
  obtain ⟨pre, post, rfl⟩ := List.append_of_mem hev
  by_contra hc
  have hf : fatal ev = true := by simpa using hc
  exact hfatal ev hf (h pre ev post rfl hf).2.symm

theorem Event.failed_err (ev : Event) (h : ev.failed = true) : ev.err ≠ none := by
  unfold Event.failed at h
  split at h
  · cases h
  · simp [*]

theorem Event.failedMySQL_le (ev : Event) (h : ev.failedMySQL = true) : ev.failed = true := by
  unfold Event.failedMySQL at h
  simp at h
  exact h.1.1

/-- Summary of one upsert: the events it logs, their sorts, and what it leaves alone. -/
theorem CreateOrUpdate_summary {α β : Type} [DecidableEq α] (c : ChildClient α) (hc : c.Lawful)
    (obj : α) (b : β) (f : α → β → World → (α × β × Option Err) × World) (hq : Quiet f)
    (w : World) :
    ∃ evs, (CreateOrUpdate c obj b f w).2.trace = w.trace ++ evs
      ∧ (CreateOrUpdate c obj b f w).2.store.mysqls = w.store.mysqls
      ∧ (CreateOrUpdate c obj b f w).2.store.students = w.store.students
      ∧ (∀ ev ∈ evs, ev.op.isUpsertCall = true)
      ∧ FailStop Event.failed evs (CreateOrUpdate c obj b f w).1.err
      ∧ ((CreateOrUpdate c obj b f w).1.err = none → ∀ ev ∈ evs, ev.failed = false) := by
  obtain ⟨gop, hg1, hg2, -, -, hg5⟩ := hc.get_frame (keyOf (c.meta obj)) w
  suffices h : ∃ evs, (CreateOrUpdate c obj b f w).2.trace = w.trace ++ evs
      ∧ (CreateOrUpdate c obj b f w).2.store.mysqls = w.store.mysqls
      ∧ (CreateOrUpdate c obj b f w).2.store.students = w.store.students
      ∧ (∀ ev ∈ evs, ev.op.isUpsertCall = true)
      ∧ FailStop Event.failed evs (CreateOrUpdate c obj b f w).1.err by
    obtain ⟨evs, h1, h2, h3, h4, h5⟩ := h
    refine ⟨evs, h1, h2, h3, h4, h5, ?_⟩
    intro hn
    rw [hn] at h5
    exact FailStop.ok_of_none _ _ Event.failed_err h5
  unfold CreateOrUpdate
  simp only
  split
  · rename_i e hge
    split
    · rename_i hnf
      subst hnf
      obtain ⟨hm1, hm2, hm3⟩ := hq obj b (c.get (keyOf (c.meta obj)) w).2
      split
      · rename_i e1 hme
        refine ⟨[⟨gop, some .notFound⟩], ?_, ?_, ?_, ?_, ?_⟩
        · simp [hm1, hg2, hge, errOf]
        · simp [hm3, hg5]
        · simp [hm3, hg5]
        · simp [Op.isUpsertCall, hg1]
        · apply FailStop.single
          simp [Event.failed, hg1]
      · rename_i hme
        obtain ⟨cop, hc1, hc2, -, -, hc5, hc6⟩ :=
          hc.create_frame (f obj b (c.get (keyOf (c.meta obj)) w).2).1.1
            (f obj b (c.get (keyOf (c.meta obj)) w).2).2
        have hev : ∀ ev ∈ [(⟨gop, some .notFound⟩ : Event)], ev.failed = false := by
          simp [Event.failed, hg1]
        split
        · rename_i e2 hce
          refine ⟨[⟨gop, some .notFound⟩] ++ [⟨cop, some e2⟩], ?_, ?_, ?_, ?_, ?_⟩
          · simp [hc2, hm1, hg2, hge, hce, errOf]
          · simp [hc5, hm3, hg5]
          · simp [hc6, hm3, hg5]
          · simp [Op.isUpsertCall, hg1, hc1]
          · exact FailStop.append _ _ _ _ hev (FailStop.single _ _ _ (fun _ => rfl))
        · rename_i hce
          refine ⟨[⟨gop, some .notFound⟩] ++ [⟨cop, none⟩], ?_, ?_, ?_, ?_, ?_⟩
          · simp [hc2, hm1, hg2, hge, hce, errOf]
          · simp [hc5, hm3, hg5]
          · simp [hc6, hm3, hg5]
          · simp [Op.isUpsertCall, hg1, hc1]
          · exact FailStop.append _ _ _ _ hev (FailStop.single _ _ _ (by simp [Event.failed]))
    · rename_i hnf
      refine ⟨[⟨gop, some e⟩], ?_, ?_, ?_, ?_, ?_⟩
      · simp [hg2, hge, errOf]
      · simp [hg5]
      · simp [hg5]
      · simp [Op.isUpsertCall, hg1]
      · exact FailStop.single _ _ _ (fun _ => rfl)
  · rename_i existing hge
    obtain ⟨hm1, hm2, hm3⟩ := hq existing b (c.get (keyOf (c.meta obj)) w).2
    have hev : ∀ ev ∈ [(⟨gop, none⟩ : Event)], ev.failed = false := by
      simp [Event.failed]
    split
    · rename_i e1 hme
      refine ⟨[⟨gop, none⟩], ?_, ?_, ?_, ?_, ?_⟩
      · simp [hm1, hg2, hge, errOf]
      · simp [hm3, hg5]
      · simp [hm3, hg5]
      · simp [Op.isUpsertCall, hg1]
      · exact FailStop.single _ _ _ (by simp [Event.failed])
    · rename_i hme
      split
      · refine ⟨[⟨gop, none⟩], ?_, ?_, ?_, ?_, ?_⟩
        · simp [hm1, hg2, hge, errOf]
        · simp [hm3, hg5]
        · simp [hm3, hg5]
        · simp [Op.isUpsertCall, hg1]
        · exact FailStop.single _ _ _ (by simp [Event.failed])
      · obtain ⟨uop, hu1, hu2, -, -, hu5, hu6⟩ :=
          hc.update_frame (f existing b (c.get (keyOf (c.meta obj)) w).2).1.1
            (f existing b (c.get (keyOf (c.meta obj)) w).2).2
        split
        · rename_i e2 hue
          refine ⟨[⟨gop, none⟩] ++ [⟨uop, some e2⟩], ?_, ?_, ?_, ?_, ?_⟩
          · simp [hu2, hm1, hg2, hge, hue, errOf]
          · simp [hu5, hm3, hg5]
          · simp [hu6, hm3, hg5]
          · simp [Op.isUpsertCall, hg1, hu1]
          · exact FailStop.append _ _ _ _ hev (FailStop.single _ _ _ (fun _ => rfl))
        · rename_i hue
          refine ⟨[⟨gop, none⟩] ++ [⟨uop, none⟩], ?_, ?_, ?_, ?_, ?_⟩
          · simp [hu2, hm1, hg2, hge, hue, errOf]
          · simp [hu5, hm3, hg5]
          · simp [hu6, hm3, hg5]
          · simp [Op.isUpsertCall, hg1, hu1]
          · exact FailStop.append _ _ _ _ hev (FailStop.single _ _ _ (by simp [Event.failed]))

theorem quiet_pure {α : Type} (g : α → α × Option Err) :
    Quiet (fun (d : α) (b : Unit) (x : World) => (((g d).1, b, (g d).2), x)) := by
  intro x b w
  simp

theorem uuidNew_frame (w : World) :
    (uuidNew w).2.trace = w.trace ∧ (uuidNew w).2.faults = w.faults ∧ (uuidNew w).2.store = w.store := by
  unfold uuidNew
  split <;> simp

theorem mysqlPassword_frame (db : MySQL) (current : String) (w : World) :
    (mysqlPassword db current w).2.trace = w.trace
    ∧ (mysqlPassword db current w).2.faults = w.faults
    ∧ (mysqlPassword db current w).2.store = w.store := by
  have hu := uuidNew_frame w
  unfold mysqlPassword
  split
  · simp
  · split
    · exact hu
    · simp

theorem quiet_mysqlPodMutate (sch : Scheme) (db : MySQL) : Quiet (mysqlPodMutate sch db) := by
  intro x b w
  unfold mysqlPodMutate
  simp only
  split <;> exact mysqlPassword_frame _ _ _

/-! ## The branches of the Student pass -/

theorem StudentReconciler.Reconcile_deleting (sch : Scheme) (req : NamespacedName) (w : World)
    (student : Student)
    (hget : (Client.getStudent req { w with trace := [] }).1 = .ok student)
    (hdel : student.DeletionTimestamp ≠ none) :
    StudentReconciler.Reconcile sch req w
      = (({}, (Client.updateStudent
            { student with Finalizers := RemoveFinalizer student.toObjectMeta studentFinalizer }
            (Client.getStudent req { w with trace := [] }).2).1),
          (Client.updateStudent
            { student with Finalizers := RemoveFinalizer student.toObjectMeta studentFinalizer }
            (Client.getStudent req { w with trace := [] }).2).2) := by
  unfold StudentReconciler.Reconcile
  simp [hget, hdel]

theorem StudentReconciler.Reconcile_waiting (sch : Scheme) (req : NamespacedName) (w : World)
    (student : Student)
    (hget : (Client.getStudent req { w with trace := [] }).1 = .ok student)
    (hlive : student.DeletionTimestamp = none)
    (hnick : len student.Spec.Nickname = 0) :
    StudentReconciler.Reconcile sch req w
      = (({ Requeue := true }, none), (Client.getStudent req { w with trace := [] }).2) := by
  unfold StudentReconciler.Reconcile
  simp [hget, hlive, hnick]

theorem StudentReconciler.Reconcile_adding (sch : Scheme) (req : NamespacedName) (w : World)
    (student : Student)
    (hget : (Client.getStudent req { w with trace := [] }).1 = .ok student)
    (hlive : student.DeletionTimestamp = none)
    (hnick : len student.Spec.Nickname ≠ 0)
    (hno : ContainsFinalizer student.toObjectMeta studentFinalizer = false) :
    StudentReconciler.Reconcile sch req w
      = (({}, (Client.updateStudent
            { student with Finalizers := AddFinalizer student.toObjectMeta studentFinalizer }
            (Client.getStudent req { w with trace := [] }).2).1),
          (Client.updateStudent
            { student with Finalizers := AddFinalizer student.toObjectMeta studentFinalizer }
            (Client.getStudent req { w with trace := [] }).2).2) := by
  unfold StudentReconciler.Reconcile
  simp [hget, hlive, hnick, hno]

theorem StudentReconciler.Reconcile_failed (sch : Scheme) (req : NamespacedName) (w : World)
    (e : Err)
    (hget : (Client.getStudent req { w with trace := [] }).1 = .error e) :
    StudentReconciler.Reconcile sch req w
      = (({}, if e = .notFound then none else some e),
          (Client.getStudent req { w with trace := [] }).2) := by
  unfold StudentReconciler.Reconcile
  simp only [hget]
  split <;> rfl

theorem StudentReconciler.Reconcile_syncing (sch : Scheme) (req : NamespacedName) (w : World)
    (student : Student)
    (hget : (Client.getStudent req { w with trace := [] }).1 = .ok student)
    (hlive : student.DeletionTimestamp = none)
    (hnick : len student.Spec.Nickname ≠ 0)
    (hfin : ContainsFinalizer student.toObjectMeta studentFinalizer = true) :
    StudentReconciler.Reconcile sch req w
      = (let d := CreateOrUpdate deploymentClient (studentDeployment student) ()
          (fun d b x => (((studentDeploymentMutate sch student d).1, b,
            (studentDeploymentMutate sch student d).2), x))
          (Client.getStudent req { w with trace := [] }).2
        match d.1.err with
        | some e => (({}, some e), d.2)
        | none =>
          let s := CreateOrUpdate serviceClient (studentService student) ()
            (fun s b x => (((studentServiceMutate sch student d.1.obj s).1, b,
              (studentServiceMutate sch student d.1.obj s).2), x)) d.2
          match s.1.err with
          | some e => (({}, some e), s.2)
          | none =>
            let u := Client.statusUpdateStudent
              (if d.1.obj.Status.UnavailableReplicas > 0 then student.setInitialized false
               else (student.setInitialized true).setAcceptance "Accepted") s.2
            (({}, u.1), u.2)) := by
  unfold StudentReconciler.Reconcile StudentReconciler.sync
  simp only [hget, hlive, hnick, hfin]
  simp only [ne_eq, not_true_eq_false, if_false, Bool.true_eq_false]
  split
  · rfl
  · split
    · rfl
    · split
      · split <;> simp_all
      · split <;> simp_all

theorem lookup_replace_ne {α : Type} (meta : α → ObjectMeta) (x : α) (xs : List α)
    (k : NamespacedName) (hk : keyOf (meta x) ≠ k) :
    lookup meta k (replace meta x xs) = lookup meta k xs := by
  induction xs with
  | nil => rfl
  | cons y ys ih =>
    simp only [lookup, replace] at ih
    by_cases hy : keyOf (meta y) = keyOf (meta x)
    · have hyk : keyOf (meta y) ≠ k := by rw [hy]; exact hk
      simp only [lookup, replace, List.map_cons, List.find?_cons, hy, if_true, hk, hyk, decide_False]
      exact ih
    · by_cases hyk : keyOf (meta y) = k
      · subst hyk
        simp [lookup, replace, hy]
      · simp only [lookup, replace, List.map_cons, List.find?_cons, hy, if_false, hyk, decide_False]
        exact ih

theorem Client.statusUpdateStudent_meta (x : Student) (w : World) (k : NamespacedName) :
    (lookup Student.toObjectMeta k (Client.statusUpdateStudent x w).2.store.students).map
        Student.toObjectMeta
      = (lookup Student.toObjectMeta k w.store.students).map Student.toObjectMeta := by
  unfold Client.statusUpdateStudent World.call
  split
  · rfl
  · simp only
    split
    · rename_i old hold
      have hko := lookup_key _ _ _ _ hold
      simp only
      by_cases hk : keyOf x.toObjectMeta = k
      · subst hk
        have h1 := lookup_replace Student.toObjectMeta { old with Status := x.Status } old
          w.store.students (by simpa [hko] using hold)
        have h2 : keyOf ({ old with Status := x.Status } : Student).toObjectMeta
            = keyOf x.toObjectMeta := hko
        rw [h2] at h1
        rw [h1, hold]
        rfl
      · rw [lookup_replace_ne]
        intro h
        exact hk (hko ▸ h)
    · rfl

theorem StudentReconciler.syncing_facts (sch : Scheme) (req : NamespacedName) (w : World)
    (student : Student)
    (hget : (Client.getStudent req { w with trace := [] }).1 = .ok student)
    (hlive : student.DeletionTimestamp = none)
    (hnick : len student.Spec.Nickname ≠ 0)
    (hfin : ContainsFinalizer student.toObjectMeta studentFinalizer = true) :
    (∀ ev ∈ (StudentReconciler.Reconcile sch req w).2.trace,
        ev.op.isUpsertCall = true ∨ ev.op.isStatusWrite = true)
      ∧ FailStop Event.failed (StudentReconciler.Reconcile sch req w).2.trace
          (StudentReconciler.Reconcile sch req w).1.2
      ∧ (∀ k, (lookup Student.toObjectMeta k
            (StudentReconciler.Reconcile sch req w).2.store.students).map Student.toObjectMeta
          = (lookup Student.toObjectMeta k w.store.students).map Student.toObjectMeta) := by
  rw [StudentReconciler.Reconcile_syncing sch req w student hget hlive hnick hfin]
  obtain ⟨hg1, -, -, hg4⟩ := Client.getStudent_frame req { w with trace := [] }
  rw [hget] at hg1
  simp only [errOf, List.nil_append] at hg1
  simp only at hg4
  generalize (Client.getStudent req { w with trace := [] }).2 = W1 at *
  have hgok : ∀ ev ∈ W1.trace, ev.failed = false := by
    rw [hg1]; simp [Event.failed]
  have hgop : ∀ ev ∈ W1.trace, ev.op.isUpsertCall = true := by
    rw [hg1]; simp [Op.isUpsertCall, Op.isGet]
  obtain ⟨evd, hd1, -, hd3, hd4, hd5, hd6⟩ := CreateOrUpdate_summary deploymentClient
    deploymentClient_lawful (studentDeployment student) ()
    (fun d b x => (((studentDeploymentMutate sch student d).1, b,
      (studentDeploymentMutate sch student d).2), x)) (quiet_pure _) W1
  generalize CreateOrUpdate deploymentClient (studentDeployment student) ()
    (fun d b x => (((studentDeploymentMutate sch student d).1, b,
      (studentDeploymentMutate sch student d).2), x)) W1 = D at *
  simp only
  split
  · rename_i e hde
    refine ⟨?_, ?_, ?_⟩
    · intro ev hev
      rw [hd1] at hev
      rcases List.mem_append.mp hev with h | h
      · exact Or.inl (hgop ev h)
      · exact Or.inl (hd4 ev h)
    · rw [hd1]
      exact FailStop.append _ _ _ _ hgok (by simpa [hde] using hd5)
    · intro k; rw [hd3, hg4]
  · rename_i hde
    have hdok := hd6 hde
    obtain ⟨evs, hs1, -, hs3, hs4, hs5, hs6⟩ := CreateOrUpdate_summary serviceClient
      serviceClient_lawful (studentService student) ()
      (fun s b x => (((studentServiceMutate sch student D.1.obj s).1, b,
        (studentServiceMutate sch student D.1.obj s).2), x)) (quiet_pure _) D.2
    generalize CreateOrUpdate serviceClient (studentService student) ()
      (fun s b x => (((studentServiceMutate sch student D.1.obj s).1, b,
        (studentServiceMutate sch student D.1.obj s).2), x)) D.2 = S at *
    split
    · rename_i e hse
      refine ⟨?_, ?_, ?_⟩
      · intro ev hev
        rw [hs1, hd1] at hev
        rcases List.mem_append.mp hev with h | h
        · rcases List.mem_append.mp h with h | h
          · exact Or.inl (hgop ev h)
          · exact Or.inl (hd4 ev h)
        · exact Or.inl (hs4 ev h)
      · rw [hs1, hd1]
        apply FailStop.append
        · intro ev hev
          rcases List.mem_append.mp hev with h | h
          · exact hgok ev h
          · exact hdok ev h
        · simpa [hse] using hs5
      · intro k; rw [hs3, hd3, hg4]
    · rename_i hse
      have hsok := hs6 hse
      refine ⟨?_, ?_, ?_⟩
      · intro ev hev
        simp only [Client.statusUpdateStudent_frame, hs1, hd1] at hev
        rcases List.mem_append.mp hev with h | h
        · rcases List.mem_append.mp h with h | h
          · rcases List.mem_append.mp h with h | h
            · exact Or.inl (hgop ev h)
            · exact Or.inl (hd4 ev h)
          · exact Or.inl (hs4 ev h)
        · simp at h
          subst h
          exact Or.inr rfl
      · simp only [Client.statusUpdateStudent_frame, hs1, hd1]
        apply FailStop.append
        · intro ev hev
          rcases List.mem_append.mp hev with h | h
          · rcases List.mem_append.mp h with h | h
            · exact hgok ev h
            · exact hdok ev h
          · exact hsok ev h
        · exact FailStop.single _ _ _ (fun _ => rfl)
      · intro k
        rw [Client.statusUpdateStudent_meta, hs3, hd3, hg4]

theorem lookup_remove_ne {α : Type} (meta : α → ObjectMeta) (k k2 : NamespacedName)
    (xs : List α) (hk : k ≠ k2) :
    lookup meta k2 (remove meta k xs) = lookup meta k2 xs := by
  unfold lookup remove
  induction xs with
  | nil => rfl
  | cons y ys ih =>
    by_cases hy : keyOf (meta y) = k
    · have hyk : ¬ keyOf (meta y) = k2 := by rw [hy]; exact hk
      have h1 : decide (keyOf (meta y) ≠ k) = false := by simp [hy]
      have h2 : decide (keyOf (meta y) = k2) = false := by simp [hyk]
      rw [List.filter_cons, List.find?_cons]
      simp only [h1, h2, Bool.false_eq_true, if_false]
      exact ih
    · have h1 : decide (keyOf (meta y) ≠ k) = true := by simp [hy]
      rw [List.filter_cons]
      simp only [h1, if_true]
      rw [List.find?_cons, List.find?_cons, ih]

theorem Client.updateStudent_persists (x old : Student) (w : World)
    (hold : lookup Student.toObjectMeta (keyOf x.toObjectMeta) w.store.students = some old)
    (hkeep : ¬ (old.DeletionTimestamp ≠ none ∧ x.Finalizers = []))
    (hok : (Client.updateStudent x w).1 = none) :
    lookup Student.toObjectMeta (keyOf x.toObjectMeta) (Client.updateStudent x w).2.store.students
      = some { x with Status := old.Status } := by
  unfold Client.updateStudent World.call at *
  split at hok
  · simp [errOf] at hok
  · simp only [hold, if_neg hkeep]
    exact lookup_replace Student.toObjectMeta { x with Status := old.Status } old _ hold

theorem Client.updateStudent_removes (x old : Student) (w : World)
    (hold : lookup Student.toObjectMeta (keyOf x.toObjectMeta) w.store.students = some old)
    (hgone : old.DeletionTimestamp ≠ none ∧ x.Finalizers = [])
    (hok : (Client.updateStudent x w).1 = none) :
    lookup Student.toObjectMeta (keyOf x.toObjectMeta) (Client.updateStudent x w).2.store.students
      = none := by
  unfold Client.updateStudent World.call at *
  split at hok
  · simp [errOf] at hok
  · simp only [hold, if_pos hgone]
    exact lookup_remove Student.toObjectMeta _ _

theorem Client.getStudent_ok (k : NamespacedName) (w : World) (x : Student)
    (h : (Client.getStudent k w).1 = .ok x) :
    lookup Student.toObjectMeta k w.store.students = some x := by
  unfold Client.getStudent World.call at h
  split at h
  · simp at h
  · simp only [found] at h
    split at h
    · simp at h; simp [*]
    · simp at h

theorem Op.upsert_not_recordUpdate (op : Op) (h : op.isUpsertCall = true ∨ op.isStatusWrite = true) :
    op.isRecordUpdate = false := by
  cases op <;> simp_all [Op.isUpsertCall, Op.isGet, Op.isChildCreate, Op.isChildUpdate,
    Op.isStatusWrite, Op.isRecordUpdate]

theorem Client.updateStudent_status (x : Student) (w : World) (k : NamespacedName) :
    lookup Student.toObjectMeta k (Client.updateStudent x w).2.store.students = none
    ∨ (lookup Student.toObjectMeta k (Client.updateStudent x w).2.store.students).map
        (fun s => s.Status)
      = (lookup Student.toObjectMeta k w.store.students).map (fun s => s.Status) := by
  unfold Client.updateStudent World.call
  split
  · exact Or.inr rfl
  · simp only
    split
    · rename_i old hold
      split
      · by_cases hk : keyOf x.toObjectMeta = k
        · subst hk
          exact Or.inl (lookup_remove Student.toObjectMeta _ _)
        · right
          simp only
          rw [lookup_remove_ne _ _ _ _ hk]
      right
      simp only
      by_cases hk : keyOf x.toObjectMeta = k
      · subst hk
        have h1 := lookup_replace Student.toObjectMeta { x with Status := old.Status } old
          w.store.students hold
        have h2 : keyOf ({ x with Status := old.Status } : Student).toObjectMeta
            = keyOf x.toObjectMeta := rfl
        rw [h2] at h1
        rw [h1, hold]
        rfl
      · rw [lookup_replace_ne]
        exact hk
    · exact Or.inr rfl

/-! ## The Pod mutate function -/

theorem mysqlPodMutate_password (sch : Scheme) (db : MySQL) (pod : Pod) (b : String) (w : World) :
    (mysqlPodMutate sch db pod b w).1.2.1
        = (mysqlPassword db (firstValue (firstEnv pod.Spec.Containers)) w).1
    ∧ firstValue (firstEnv (mysqlPodMutate sch db pod b w).1.1.Spec.Containers)
        = (mysqlPassword db (firstValue (firstEnv pod.Spec.Containers)) w).1
    ∧ (mysqlPodMutate sch db pod b w).2
        = (mysqlPassword db (firstValue (firstEnv pod.Spec.Containers)) w).2 := by
  have hv : ∀ cs : List Container,
      firstValue (firstEnv (setFirst (fun c => { c with
          Env := setFirst (fun e => { e with Name := "MYSQL_ROOT_PASSWORD" }) c.Env })
        (setFirst (fun c => { c with Env := ensureFirst ({} : EnvVar) c.Env })
          (setFirst (fun c => { c with Name := "db", Image := "docker.io/mysql:" ++ db.Spec.Version })
            (ensureFirst ({} : Container) cs)))))
        = firstValue (firstEnv cs) := by
    intro cs
    rcases cs with _ | ⟨c, cs⟩
    · rfl
    · rcases hc : c.Env with _ | ⟨e, es⟩ <;> simp [ensureFirst, setFirst, firstEnv, firstValue, hc]
  have hs : ∀ (cs : List Container) (v : String),
      firstValue (firstEnv (setFirst (fun c => { c with
          Env := setFirst (fun e => { e with Value := v }) c.Env })
        (setFirst (fun c => { c with
            Env := setFirst (fun e => { e with Name := "MYSQL_ROOT_PASSWORD" }) c.Env })
          (setFirst (fun c => { c with Env := ensureFirst ({} : EnvVar) c.Env })
            (setFirst (fun c => { c with Name := "db", Image := "docker.io/mysql:" ++ db.Spec.Version })
              (ensureFirst ({} : Container) cs)))))) = v := by
    intro cs v
    rcases cs with _ | ⟨c, cs⟩
    · rfl
    · rcases hc : c.Env with _ | ⟨e, es⟩ <;> simp [ensureFirst, setFirst, firstEnv, firstValue, hc]
  unfold mysqlPodMutate
  simp only [hv]
  split <;> simp only [hs, and_self]

theorem len_eq_zero (s : String) : len s = 0 ↔ s = "" := by
  unfold len
  constructor
  · intro h
    rcases s with ⟨cs⟩
    rcases cs with _ | ⟨c, cs⟩
    · rfl
    · simp [String.utf8ByteSize, String.utf8ByteSize.go] at h
      have := Char.utf8Size_pos c
      omega
  · intro h
    subst h
    rfl

theorem CreateOrUpdate_grows {α β : Type} [DecidableEq α] (c : ChildClient α) (hc : c.Lawful)
    (obj : α) (b : β) (f : α → β → World → (α × β × Option Err) × World) (hq : Quiet f)
    (w : World) : w.trace.length < (CreateOrUpdate c obj b f w).2.trace.length := by
  obtain ⟨gop, -, hg2, -, -, -⟩ := hc.get_frame (keyOf (c.meta obj)) w
  have hgl : w.trace.length < (c.get (keyOf (c.meta obj)) w).2.trace.length := by
    rw [hg2]; simp
  unfold CreateOrUpdate
  simp only
  split
  · split
    · obtain ⟨hm1, -, -⟩ := hq obj b (c.get (keyOf (c.meta obj)) w).2
      split
      · rw [hm1]; exact hgl
      · obtain ⟨cop, -, hc2, -⟩ := hc.create_frame (f obj b (c.get (keyOf (c.meta obj)) w).2).1.1
          (f obj b (c.get (keyOf (c.meta obj)) w).2).2
        split <;> (simp only [hc2, hm1, List.length_append]; omega)
    · exact hgl
  · rename_i existing _
    obtain ⟨hm1, -, -⟩ := hq existing b (c.get (keyOf (c.meta obj)) w).2
    split
    · rw [hm1]; exact hgl
    · split
      · rw [hm1]; exact hgl
      · obtain ⟨uop, -, hu2, -⟩ := hc.update_frame
          (f existing b (c.get (keyOf (c.meta obj)) w).2).1.1
          (f existing b (c.get (keyOf (c.meta obj)) w).2).2
        split <;> (simp only [hu2, hm1, List.length_append]; omega)

/-- On success the caller sees what the mutate function produced. -/
theorem CreateOrUpdate_output {α β : Type} [DecidableEq α] (c : ChildClient α)
    (obj : α) (b : β) (f : α → β → World → (α × β × Option Err) × World) (w : World)
    (hok : (CreateOrUpdate c obj b f w).1.err = none) :
    ∃ x v, (CreateOrUpdate c obj b f w).1.obj = (f x b v).1.1
      ∧ (CreateOrUpdate c obj b f w).1.captured = (f x b v).1.2.1 := by
  unfold CreateOrUpdate at hok ⊢
  simp only at hok ⊢
  split
  · rename_i e hge
    simp only [hge] at hok
    split
    · rename_i hnf
      simp only [hnf, if_true] at hok
      split
      · rename_i e1 hme
        simp [hme] at hok
      · split <;> exact ⟨_, _, rfl, rfl⟩
    · rename_i hnf
      simp [hnf] at hok
  · rename_i existing hge
    split
    · rename_i e1 hme
      simp [hge, hme] at hok
    · split
      · exact ⟨_, _, rfl, rfl⟩
      · split <;> exact ⟨_, _, rfl, rfl⟩

/-! ## The MySQL pass -/

theorem FailStop.of_ok (fatal : Event → Bool) (evs : List Event) (r : Option Err)
    (h : ∀ ev ∈ evs, fatal ev = false) : FailStop fatal evs r := by
  intro pre ev post heq hf
  have := h ev (by rw [heq]; simp)
  rw [this] at hf
  cases hf

theorem FailStop.mono (fatal fatal2 : Event → Bool) (evs : List Event) (r : Option Err)
    (hle : ∀ ev, fatal2 ev = true → fatal ev = true)
    (h : FailStop fatal evs r) : FailStop fatal2 evs r := by
  intro pre ev post heq hf
  exact h pre ev post heq (hle ev hf)

theorem Event.failedMySQL_false_of_failed (ev : Event) (h : ev.failed = false) :
    ev.failedMySQL = false := by
  simp [Event.failedMySQL, h]

theorem Event.failedMySQL_status (op : Op) (e : Option Err) (h : op.isStatusWrite = true) :
    (⟨op, e⟩ : Event).failedMySQL = false := by
  simp [Event.failedMySQL, h]

theorem MySQLReconciler.createPod_summary (sch : Scheme) (db : MySQL) (pod : Pod) (w : World) :
    ∃ evs, (MySQLReconciler.createPod sch db pod w).2.trace = w.trace ++ evs
      ∧ evs ≠ []
      ∧ (MySQLReconciler.createPod sch db pod w).2.store.mysqls = w.store.mysqls
      ∧ (MySQLReconciler.createPod sch db pod w).2.store.students = w.store.students
      ∧ (∀ ev ∈ evs, ev.op.isUpsertCall = true ∨ ev.op.isChildDelete = true)
      ∧ FailStop Event.failedMySQL evs (MySQLReconciler.createPod sch db pod w).1.err
      ∧ ((MySQLReconciler.createPod sch db pod w).1.err = none →
          ∀ ev ∈ evs, ev.failedMySQL = false) := by
  have base : ∀ v : World, ∃ evs,
      (CreateOrUpdate podClient pod "" (mysqlPodMutate sch db) v).2.trace = v.trace ++ evs
      ∧ evs ≠ []
      ∧ (CreateOrUpdate podClient pod "" (mysqlPodMutate sch db) v).2.store.mysqls = v.store.mysqls
      ∧ (CreateOrUpdate podClient pod "" (mysqlPodMutate sch db) v).2.store.students
          = v.store.students
      ∧ (∀ ev ∈ evs, ev.op.isUpsertCall = true ∨ ev.op.isChildDelete = true)
      ∧ FailStop Event.failedMySQL evs
          (CreateOrUpdate podClient pod "" (mysqlPodMutate sch db) v).1.err
      ∧ ((CreateOrUpdate podClient pod "" (mysqlPodMutate sch db) v).1.err = none →
          ∀ ev ∈ evs, ev.failedMySQL = false) := by
    intro v
    obtain ⟨evs, h1, h2, h3, h4, h5, h6⟩ := CreateOrUpdate_summary podClient podClient_lawful pod ""
      (mysqlPodMutate sch db) (quiet_mysqlPodMutate sch db) v
    have hg := CreateOrUpdate_grows podClient podClient_lawful pod ""
      (mysqlPodMutate sch db) (quiet_mysqlPodMutate sch db) v
    refine ⟨evs, h1, ?_, h2, h3, fun ev hev => Or.inl (h4 ev hev),
      FailStop.mono _ _ _ _ Event.failedMySQL_le h5,
      fun hok ev hev => Event.failedMySQL_false_of_failed _ (h6 hok ev hev)⟩
    intro hnil
    rw [h1, hnil] at hg
    simp at hg
  unfold MySQLReconciler.createPod
  split
  · obtain ⟨hd1, -, -, hd4, hd5, -, -⟩ := Client.deletePod_frame pod w
    obtain ⟨evs, h1, h2, h3, h4, h5, h6, h7⟩ := base (Client.deletePod pod w).2
    simp only
    split
    · rename_i e hde
      split
      · rename_i hne
        refine ⟨[⟨.deletePod pod, some e⟩], ?_, by simp, ?_, ?_, ?_, ?_, ?_⟩
        · simp [hd1, hde]
        · simp [hd4]
        · simp [hd5]
        · simp [Op.isChildDelete]
        · exact FailStop.single _ _ _ (fun _ => rfl)
        · intro h; simp at h
      · rename_i hne
        have hnf : e = .notFound := by simpa using hne
        subst hnf
        have hdel : ∀ ev ∈ [(⟨.deletePod pod, some .notFound⟩ : Event)], ev.failedMySQL = false := by
          simp [Event.failedMySQL, Op.isChildDelete]
        refine ⟨[⟨.deletePod pod, some .notFound⟩] ++ evs, ?_, by simp, ?_, ?_, ?_, ?_, ?_⟩
        · rw [h1, hd1, hde]; simp
        · rw [h3, hd4]
        · rw [h4, hd5]
        · intro ev hev
          rcases List.mem_append.mp hev with h | h
          · simp at h; subst h; exact Or.inr rfl
          · exact h5 ev h
        · exact FailStop.append _ _ _ _ hdel h6
        · intro hok ev hev
          rcases List.mem_append.mp hev with h | h
          · exact hdel ev h
          · exact h7 hok ev h
    · rename_i hde
      have hdel : ∀ ev ∈ [(⟨.deletePod pod, none⟩ : Event)], ev.failedMySQL = false := by
        simp [Event.failedMySQL, Event.failed]
      refine ⟨[⟨.deletePod pod, none⟩] ++ evs, ?_, by simp, ?_, ?_, ?_, ?_, ?_⟩
      · rw [h1, hd1, hde]; simp
      · rw [h3, hd4]
      · rw [h4, hd5]
      · intro ev hev
        rcases List.mem_append.mp hev with h | h
        · simp at h; subst h; exact Or.inr rfl
        · exact h5 ev h
      · exact FailStop.append _ _ _ _ hdel h6
      · intro hok ev hev
        rcases List.mem_append.mp hev with h | h
        · exact hdel ev h
        · exact h7 hok ev h
  · exact base w

theorem MySQLReconciler.Reconcile_unread (sch : Scheme) (req : NamespacedName) (w : World)
    (e : Err)
    (hget : (Client.getMySQL req { w with trace := [] }).1 = .error e) :
    MySQLReconciler.Reconcile sch req w
      = (({}, if e = .notFound then none else some e),
          (Client.getMySQL req { w with trace := [] }).2) := by
  unfold MySQLReconciler.Reconcile
  simp only [hget]
  split <;> rfl

theorem MySQLReconciler.Reconcile_found (sch : Scheme) (req : NamespacedName) (w : World)
    (db : MySQL)
    (hget : (Client.getMySQL req { w with trace := [] }).1 = .ok db) :
    MySQLReconciler.Reconcile sch req w
      = (let p := MySQLReconciler.createPod sch db (mysqlPod db)
          (Client.getMySQL req { w with trace := [] }).2
        match p.1.err with
        | some e => (({}, some e), p.2)
        | none =>
          let db1 := db.setInitialized true
          let u1 := Client.statusUpdateMySQL db1 p.2
          let s := CreateOrUpdate serviceClient (mysqlService db1) ()
            (fun s b x => (((mysqlServiceMutate sch db1 s).1, b, (mysqlServiceMutate sch db1 s).2), x))
            u1.2
          match s.1.err with
          | some e => (({}, some e), s.2)
          | none =>
            if len s.1.obj.Spec.ClusterIP = 0 then (({}, none), s.2)
            else
              let db2 := db1.setAddress s.1.obj.Spec.ClusterIP
              let u2 := Client.statusUpdateMySQL db2 s.2
              let db3 := db2.setRootPassword p.1.captured
              let u3 := Client.statusUpdateMySQL db3 u2.2
              let db4 := db3.setReady (decide (p.1.obj.Status.Phase = "Running"))
              let u4 := Client.statusUpdateMySQL db4 u3.2
              (({}, none), u4.2)) := by
  unfold MySQLReconciler.Reconcile MySQLReconciler.sync
  simp only [hget]
  rfl

theorem StudentReconciler.student_failStop (sch : Scheme) (req : NamespacedName) (w : World) :
    FailStop Event.failed (StudentReconciler.Reconcile sch req w).2.trace
      (StudentReconciler.Reconcile sch req w).1.2 := by
  obtain ⟨hg1, -, -, -⟩ := Client.getStudent_frame req { w with trace := [] }
  simp only [List.nil_append] at hg1
  rcases hget : (Client.getStudent req { w with trace := [] }).1 with e | student
  · rw [StudentReconciler.Reconcile_failed sch req w e hget]
    rw [hget] at hg1
    simp only [hg1, errOf]
    apply FailStop.single
    intro hf
    have : e ≠ .notFound := by
      intro h
      simp [Event.failed, Op.isGet, h] at hf
    simp [this]
  · rw [hget] at hg1
    have hgok : ∀ ev ∈ [(⟨.getStudent req, none⟩ : Event)], ev.failed = false := by
      simp [Event.failed]
    by_cases hdel : student.DeletionTimestamp = none
    · by_cases hnick : len student.Spec.Nickname = 0
      · rw [StudentReconciler.Reconcile_waiting sch req w student hget hdel hnick]
        simp only [hg1, errOf]
        exact FailStop.of_ok _ _ _ hgok
      · by_cases hfin : ContainsFinalizer student.toObjectMeta studentFinalizer = true
        · exact (StudentReconciler.syncing_facts sch req w student hget hdel hnick hfin).2.1
        · rw [StudentReconciler.Reconcile_adding sch req w student hget hdel hnick
            (by simpa using hfin)]
          simp only [Client.updateStudent_frame, hg1, errOf]
          exact FailStop.append _ _ _ _ hgok (FailStop.single _ _ _ (fun _ => rfl))
    · rw [StudentReconciler.Reconcile_deleting sch req w student hget hdel]
      simp only [Client.updateStudent_frame, hg1, errOf]
      exact FailStop.append _ _ _ _ hgok (FailStop.single _ _ _ (fun _ => rfl))

theorem MySQLReconciler.mysql_failStop (sch : Scheme) (req : NamespacedName) (w : World) :
    FailStop Event.failedMySQL (MySQLReconciler.Reconcile sch req w).2.trace
      (MySQLReconciler.Reconcile sch req w).1.2 := by
  obtain ⟨hg1, -, -, -⟩ := Client.getMySQL_frame req { w with trace := [] }
  simp only [List.nil_append] at hg1
  rcases hget : (Client.getMySQL req { w with trace := [] }).1 with e | db
  · rw [MySQLReconciler.Reconcile_unread sch req w e hget]
    rw [hget] at hg1
    simp only [hg1, errOf]
    apply FailStop.single
    intro hf
    have : e ≠ .notFound := by
      intro h
      simp [Event.failedMySQL, Event.failed, Op.isGet, h] at hf
    simp [this]
  · rw [hget] at hg1
    simp only [errOf] at hg1
    rw [MySQLReconciler.Reconcile_found sch req w db hget]
    generalize (Client.getMySQL req { w with trace := [] }).2 = W1 at *
    have hgok : ∀ ev ∈ W1.trace, ev.failedMySQL = false := by
      rw [hg1]; simp [Event.failedMySQL, Event.failed]
    obtain ⟨evp, hp1, -, -, -, -, hp5, hp6⟩ :=
      MySQLReconciler.createPod_summary sch db (mysqlPod db) W1
    generalize MySQLReconciler.createPod sch db (mysqlPod db) W1 = P at *
    simp only
    split
    · rename_i e hpe
      rw [hp1]
      exact FailStop.append _ _ _ _ hgok (by simpa [hpe] using hp5)
    · rename_i hpe
      have hpok := hp6 hpe
      obtain ⟨hu1, -⟩ := Client.statusUpdateMySQL_frame
        (db.setInitialized true) P.2
      generalize Client.statusUpdateMySQL
        (db.setInitialized true) P.2 = U1 at *
      have hU1 : ∀ ev ∈ U1.2.trace, ev.failedMySQL = false := by
        intro ev hev
        rw [hu1, hp1] at hev
        rcases List.mem_append.mp hev with h | h
        · rcases List.mem_append.mp h with h | h
          · exact hgok ev h
          · exact hpok ev h
        · simp at h; subst h
          exact Event.failedMySQL_status _ _ rfl
      obtain ⟨evs, hs1, -, -, -, hs5, hs6⟩ := CreateOrUpdate_summary serviceClient
        serviceClient_lawful (mysqlService (db.setInitialized true)) ()
        (fun s b x => (((mysqlServiceMutate sch
            (db.setInitialized true) s).1, b,
          (mysqlServiceMutate sch
            (db.setInitialized true) s).2), x))
        (quiet_pure _) U1.2
      generalize CreateOrUpdate serviceClient
        (mysqlService (db.setInitialized true)) ()
        (fun s b x => (((mysqlServiceMutate sch
            (db.setInitialized true) s).1, b,
          (mysqlServiceMutate sch
            (db.setInitialized true) s).2), x)) U1.2 = S at *
      split
      · rename_i e hse
        rw [hs1]
        exact FailStop.append _ _ _ _ hU1
          (FailStop.mono _ _ _ _ Event.failedMySQL_le (by simpa [hse] using hs5))
      · rename_i hse
        have hS : ∀ ev ∈ S.2.trace, ev.failedMySQL = false := by
          intro ev hev
          rw [hs1] at hev
          rcases List.mem_append.mp hev with h | h
          · exact hU1 ev h
          · exact Event.failedMySQL_false_of_failed _ (hs6 hse ev h)
        split
        · exact FailStop.of_ok _ _ _ hS
        · apply FailStop.of_ok
          intro ev hev
          simp only [Client.statusUpdateMySQL_frame] at hev
          rcases List.mem_append.mp hev with h | h
          · rcases List.mem_append.mp h with h | h
            · rcases List.mem_append.mp h with h | h
              · exact hS ev h
              · simp at h; subst h; exact Event.failedMySQL_status _ _ rfl
            · simp at h; subst h; exact Event.failedMySQL_status _ _ rfl
          · simp at h; subst h; exact Event.failedMySQL_status _ _ rfl

theorem Client.statusUpdateStudent_persists (x : Student) (w : World)
    (hok : (Client.statusUpdateStudent x w).1 = none) :
    (lookup Student.toObjectMeta (keyOf x.toObjectMeta)
        (Client.statusUpdateStudent x w).2.store.students).map (fun s => s.Status)
      = some x.Status := by
  unfold Client.statusUpdateStudent World.call at *
  split at hok
  · simp [errOf] at hok
  · simp only at hok ⊢
    split at hok
    · rename_i old hold
      simp only [hold]
      have hko := lookup_key _ _ _ _ hold
      have h1 := lookup_replace Student.toObjectMeta { old with Status := x.Status } old
        w.store.students (by simpa [hko] using hold)
      have h2 : keyOf ({ old with Status := x.Status } : Student).toObjectMeta
          = keyOf x.toObjectMeta := hko
      rw [h2] at h1
      rw [h1]
      rfl
    · simp [errOf] at hok

theorem Client.statusUpdateMySQL_persists (x : MySQL) (w : World)
    (hok : (Client.statusUpdateMySQL x w).1 = none) :
    (lookup MySQL.toObjectMeta (keyOf x.toObjectMeta)
        (Client.statusUpdateMySQL x w).2.store.mysqls).map (fun s => s.Status)
      = some x.Status := by
  unfold Client.statusUpdateMySQL World.call at *
  split at hok
  · simp [errOf] at hok
  · simp only at hok ⊢
    split at hok
    · rename_i old hold
      simp only [hold]
      have hko := lookup_key _ _ _ _ hold
      have h1 := lookup_replace MySQL.toObjectMeta { old with Status := x.Status } old
        w.store.mysqls (by simpa [hko] using hold)
      have h2 : keyOf ({ old with Status := x.Status } : MySQL).toObjectMeta
          = keyOf x.toObjectMeta := hko
      rw [h2] at h1
      rw [h1]
      rfl
    · simp [errOf] at hok

theorem Client.getMySQL_ok (k : NamespacedName) (w : World) (x : MySQL)
    (h : (Client.getMySQL k w).1 = .ok x) :
    lookup MySQL.toObjectMeta k w.store.mysqls = some x := by
  unfold Client.getMySQL World.call at h
  split at h
  · simp at h
  · simp only [found] at h
    split at h
    · simp at h; simp [*]
    · simp at h

theorem podClient_logs : podClient.Logs Op.getPod Op.createPod Op.updatePod where
  get_log k w := by simp [podClient]
  create_log x w := by simp [podClient]
  update_log x w := by simp [podClient]

theorem serviceClient_logs : serviceClient.Logs Op.getService Op.createService Op.updateService where
  get_log k w := by simp [serviceClient]
  create_log x w := by simp [serviceClient]
  update_log x w := by simp [serviceClient]

theorem deploymentClient_logs :
    deploymentClient.Logs Op.getDeployment Op.createDeployment Op.updateDeployment where
  get_log k w := by simp [deploymentClient]
  create_log x w := by simp [deploymentClient]
  update_log x w := by simp [deploymentClient]

/-- The calls of one upsert: a read, then at most one create or update of an
object that the mutate function produced. -/
theorem CreateOrUpdate_events {α β : Type} [DecidableEq α] (c : ChildClient α)
    (getOp : NamespacedName → Op) (createOp updateOp : α → Op)
    (hc : c.Logs getOp createOp updateOp)
    (obj : α) (b : β) (f : α → β → World → (α × β × Option Err) × World) (hq : Quiet f)
    (w : World) :
    ∃ evs, (CreateOrUpdate c obj b f w).2.trace = w.trace ++ evs
      ∧ ∀ ev ∈ evs, (∃ k, ev.op = getOp k)
          ∨ (∃ x v, ev.op = createOp (f x b v).1.1)
          ∨ (∃ x v, ev.op = updateOp (f x b v).1.1) := by
  have hg := hc.get_log (keyOf (c.meta obj)) w
  unfold CreateOrUpdate
  simp only
  split
  · split
    · obtain ⟨hm1, -, -⟩ := hq obj b (c.get (keyOf (c.meta obj)) w).2
      split
      · exact ⟨[_], by rw [hm1, hg], by simp⟩
      · have hcr := hc.create_log (f obj b (c.get (keyOf (c.meta obj)) w).2).1.1
          (f obj b (c.get (keyOf (c.meta obj)) w).2).2
        split
        · refine ⟨[_, _], by rw [hcr, hm1, hg, List.append_assoc]; rfl, ?_⟩
          intro ev hev
          simp at hev
          rcases hev with h | h
          · subst h; exact Or.inl ⟨_, rfl⟩
          · subst h; exact Or.inr (Or.inl ⟨_, _, rfl⟩)
        · refine ⟨[_, _], by rw [hcr, hm1, hg, List.append_assoc]; rfl, ?_⟩
          intro ev hev
          simp at hev
          rcases hev with h | h
          · subst h; exact Or.inl ⟨_, rfl⟩
          · subst h; exact Or.inr (Or.inl ⟨_, _, rfl⟩)
    · exact ⟨[_], hg, by simp⟩
  · rename_i existing _
    obtain ⟨hm1, -, -⟩ := hq existing b (c.get (keyOf (c.meta obj)) w).2
    split
    · exact ⟨[_], by rw [hm1, hg], by simp⟩
    · split
      · exact ⟨[_], by rw [hm1, hg], by simp⟩
      · have hup := hc.update_log (f existing b (c.get (keyOf (c.meta obj)) w).2).1.1
          (f existing b (c.get (keyOf (c.meta obj)) w).2).2
        split
        · refine ⟨[_, _], by rw [hup, hm1, hg, List.append_assoc]; rfl, ?_⟩
          intro ev hev
          simp at hev
          rcases hev with h | h
          · subst h; exact Or.inl ⟨_, rfl⟩
          · subst h; exact Or.inr (Or.inr ⟨_, _, rfl⟩)
        · refine ⟨[_, _], by rw [hup, hm1, hg, List.append_assoc]; rfl, ?_⟩
          intro ev hev
          simp at hev
          rcases hev with h | h
          · subst h; exact Or.inl ⟨_, rfl⟩
          · subst h; exact Or.inr (Or.inr ⟨_, _, rfl⟩)

/-! ## Rotation of the root password -/

theorem last_mem_of_append {α : Type} (xs ys : List α) (x : α) (hys : ys ≠ [])
    (h : (xs ++ ys).getLast? = some x) : x ∈ ys := by
  rw [List.getLast?_append_of_ne_nil xs hys] at h
  exact List.mem_of_getLast?_eq_some h

theorem mysqlPodMutate_explicit (sch : Scheme) (db : MySQL) (pod : Pod) (b : String) (w : World)
    (hs : len db.Spec.Authentication.RootPassword > 0) :
    (mysqlPodMutate sch db pod b w).1.2.1 = db.Spec.Authentication.RootPassword
    ∧ firstValue (firstEnv (mysqlPodMutate sch db pod b w).1.1.Spec.Containers)
        = db.Spec.Authentication.RootPassword := by
  obtain ⟨h1, h2, -⟩ := mysqlPodMutate_password sch db pod b w
  rw [h1, h2]
  simp [mysqlPassword, hs]

theorem MySQLReconciler.createPod_captured (sch : Scheme) (db : MySQL) (pod : Pod) (w : World)
    (hs : len db.Spec.Authentication.RootPassword > 0)
    (hok : (MySQLReconciler.createPod sch db pod w).1.err = none) :
    (MySQLReconciler.createPod sch db pod w).1.captured = db.Spec.Authentication.RootPassword := by
  have key : ∀ v : World, (CreateOrUpdate podClient pod "" (mysqlPodMutate sch db) v).1.err = none →
      (CreateOrUpdate podClient pod "" (mysqlPodMutate sch db) v).1.captured
        = db.Spec.Authentication.RootPassword := by
    intro v hv
    obtain ⟨x, v1, -, hcap⟩ := CreateOrUpdate_output podClient pod "" (mysqlPodMutate sch db) v hv
    rw [hcap]
    exact (mysqlPodMutate_explicit sch db x "" v1 hs).1
  unfold MySQLReconciler.createPod at hok ⊢
  by_cases hc : len db.Spec.Authentication.RootPassword > 0
      ∧ db.Spec.Authentication.RootPassword ≠ db.Status.RootPassword
  · rw [if_pos hc] at hok ⊢
    simp only at hok ⊢
    rcases hde : (Client.deletePod pod w).1 with _ | e
    · simp only [hde] at hok ⊢
      exact key _ hok
    · simp only [hde] at hok ⊢
      by_cases hne : e = .notFound
      · simp only [hne, ne_eq, not_true_eq_false, if_false] at hok ⊢
        exact key _ hok
      · simp [hne] at hok
  · rw [if_neg hc] at hok ⊢
    exact key _ hok

theorem CreateOrUpdate_pod_carries (sch : Scheme) (db : MySQL) (pod : Pod) (v : World)
    (hs : len db.Spec.Authentication.RootPassword > 0) :
    ∃ evs, (CreateOrUpdate podClient pod "" (mysqlPodMutate sch db) v).2.trace = v.trace ++ evs
      ∧ ∀ ev ∈ evs, ev.carries db.Spec.Authentication.RootPassword := by
  obtain ⟨evs, h1, h2⟩ := CreateOrUpdate_events podClient _ _ _ podClient_logs pod ""
    (mysqlPodMutate sch db) (quiet_mysqlPodMutate sch db) v
  refine ⟨evs, h1, ?_⟩
  intro ev hev
  rcases h2 ev hev with ⟨k, hk⟩ | ⟨x, v1, hx⟩ | ⟨x, v1, hx⟩
  · refine ⟨by rw [hk]; rfl, ?_⟩
    intro p hp
    rw [hk] at hp
    simp at hp
  · refine ⟨by rw [hx]; rfl, ?_⟩
    intro p hp
    rw [hx] at hp
    simp at hp
    rw [← hp]
    exact (mysqlPodMutate_explicit sch db x "" v1 hs).2
  · refine ⟨by rw [hx]; rfl, ?_⟩
    intro p hp
    rw [hx] at hp
    simp at hp
    rw [← hp]
    exact (mysqlPodMutate_explicit sch db x "" v1 hs).2

theorem CreateOrUpdate_service_carries {β : Type} (svc : Service) (b : β)
    (f : Service → β → World → (Service × β × Option Err) × World) (hq : Quiet f)
    (v : World) (s : String) :
    ∃ evs, (CreateOrUpdate serviceClient svc b f v).2.trace = v.trace ++ evs
      ∧ ∀ ev ∈ evs, ev.carries s := by
  obtain ⟨evs, h1, h2⟩ := CreateOrUpdate_events serviceClient _ _ _ serviceClient_logs svc b f hq v
  refine ⟨evs, h1, ?_⟩
  intro ev hev
  rcases h2 ev hev with ⟨k, hk⟩ | ⟨x, v1, hx⟩ | ⟨x, v1, hx⟩
  · refine ⟨by rw [hk]; rfl, ?_⟩
    intro p hp
    rw [hk] at hp
    simp at hp
  · refine ⟨by rw [hx]; rfl, ?_⟩
    intro p hp
    rw [hx] at hp
    simp at hp
  · refine ⟨by rw [hx]; rfl, ?_⟩
    intro p hp
    rw [hx] at hp
    simp at hp

theorem Event.carries_status (m : MySQL) (e : Option Err) (s : String) :
    (⟨.statusUpdateMySQL m, e⟩ : Event).carries s := by
  refine ⟨rfl, ?_⟩
  intro p hp
  simp at hp

theorem MySQLReconciler.createPod_rotation (sch : Scheme) (db : MySQL) (pod : Pod) (w : World)
    (hs : len db.Spec.Authentication.RootPassword > 0)
    (hst : db.Spec.Authentication.RootPassword ≠ db.Status.RootPassword) :
    ∃ e rest, (MySQLReconciler.createPod sch db pod w).2.trace
        = w.trace ++ ⟨.deletePod pod, e⟩ :: rest
      ∧ ∀ ev ∈ rest, ev.carries db.Spec.Authentication.RootPassword := by
  obtain ⟨hd1, -⟩ := Client.deletePod_frame pod w
  obtain ⟨evs, h1, h2⟩ := CreateOrUpdate_pod_carries sch db pod (Client.deletePod pod w).2 hs
  unfold MySQLReconciler.createPod
  simp only [hs, hst, ne_eq, not_false_eq_true, and_self, if_true]
  split
  · split
    · exact ⟨(Client.deletePod pod w).1, [], by rw [hd1], by simp⟩
    · exact ⟨(Client.deletePod pod w).1, evs, by simp [h1, hd1], h2⟩
  · exact ⟨(Client.deletePod pod w).1, evs, by simp [h1, hd1], h2⟩

/-! ## Upserts in a world without failures -/

theorem podClient_faithful : podClient.Faithful (fun s => s.pods) where
  get_ok k w hw := by
    simp [podClient, Client.getPod, World.call, hw]
  create_ok x w hw hlk := by
    simp only [podClient] at hlk ⊢
    simp [Client.createPod, World.call, hw, insertNew, hlk, errOf]
  update_ok x w old hw hlk := by
    simp only [podClient] at hlk ⊢
    simp [Client.updatePod, World.call, hw, overwrite, hlk, errOf]

theorem serviceClient_faithful : serviceClient.Faithful (fun s => s.services) where
  get_ok k w hw := by
    simp [serviceClient, Client.getService, World.call, hw]
  create_ok x w hw hlk := by
    simp only [serviceClient] at hlk ⊢
    simp [Client.createService, World.call, hw, insertNew, hlk, errOf]
  update_ok x w old hw hlk := by
    simp only [serviceClient] at hlk ⊢
    simp [Client.updateService, World.call, hw, overwrite, hlk, errOf]

theorem deploymentClient_faithful : deploymentClient.Faithful (fun s => s.deployments) where
  get_ok k w hw := by
    simp [deploymentClient, Client.getDeployment, World.call, hw]
  create_ok x w hw hlk := by
    simp only [deploymentClient] at hlk ⊢
    simp [Client.createDeployment, World.call, hw, insertNew, hlk, errOf]
  update_ok x w old hw hlk := by
    simp only [deploymentClient] at hlk ⊢
    simp [Client.updateDeployment, World.call, hw, overwrite, hlk, errOf]

/-! ## The mutate functions are idempotent -/

theorem referSameObject_self (a : OwnerReference) : referSameObject a a = true := by
  simp [referSameObject]

theorem upsertOwnerRef_idem (ref : OwnerReference) (refs : List OwnerReference) :
    upsertOwnerRef ref (upsertOwnerRef ref refs) = upsertOwnerRef ref refs := by
  induction refs with
  | nil => simp [upsertOwnerRef, referSameObject_self]
  | cons r rs ih =>
    by_cases h : referSameObject r ref = true
    · simp [upsertOwnerRef, h, referSameObject_self]
    · simp [upsertOwnerRef, h, ih]

theorem controller_after_upsert (ref : OwnerReference) (href : ref.Controller = true)
    (refs : List OwnerReference)
    (hfirst : ∀ c, GetControllerOf refs = some c → referSameObject c ref = true) :
    ∃ c, GetControllerOf (upsertOwnerRef ref refs) = some c ∧ referSameObject c ref = true := by
  induction refs with
  | nil => exact ⟨ref, by simp [upsertOwnerRef, GetControllerOf, href], referSameObject_self _⟩
  | cons r rs ih =>
    by_cases h : referSameObject r ref = true
    · exact ⟨ref, by simp [upsertOwnerRef, h, GetControllerOf, href], referSameObject_self _⟩
    · have hr : r.Controller = false := by
        by_contra hc
        have hc2 : r.Controller = true := by simpa using hc
        exact h (hfirst r (by simp [GetControllerOf, hc2]))
      have hfirst2 : ∀ c, GetControllerOf rs = some c → referSameObject c ref = true := by
        intro c hc
        apply hfirst
        simpa [GetControllerOf, hr] using hc
      obtain ⟨c, h1, h2⟩ := ih hfirst2
      refine ⟨c, ?_, h2⟩
      simp only [upsertOwnerRef, h, GetControllerOf] at h1 ⊢
      simpa [hr] using h1

theorem SetControllerReference_idem (sch : Scheme) (kind : String) (owner : ObjectMeta)
    (refs out : List OwnerReference)
    (h : SetControllerReference sch kind owner refs = .ok out) :
    SetControllerReference sch kind owner out = .ok out := by
  unfold SetControllerReference at h ⊢
  simp only at h ⊢
  have hout : out = upsertOwnerRef
      { Group := sch.Group, Version := sch.Version, Kind := kind, Name := owner.Name,
        UID := owner.UID, BlockOwnerDeletion := true, Controller := true } refs := by
    split at h
    · split at h
      · simpa using h.symm
      · simp at h
    · simpa using h.symm
  have hfirst : ∀ c, GetControllerOf refs = some c → referSameObject c
      { Group := sch.Group, Version := sch.Version, Kind := kind, Name := owner.Name,
        UID := owner.UID, BlockOwnerDeletion := true, Controller := true } = true := by
    intro c hc
    rw [hc] at h
    simp only at h
    by_contra hn
    simp [hn] at h
  obtain ⟨c, hc1, hc2⟩ := controller_after_upsert _ rfl refs hfirst
  rw [hout, hc1]
  simp only [hc2, if_true]
  rw [upsertOwnerRef_idem]

theorem studentDeploymentMutate_idem (sch : Scheme) (hD : ∀ d, sch.Default d = d)
    (student : Student) (d : Deployment)
    (h : (studentDeploymentMutate sch student d).2 = none) :
    studentDeploymentMutate sch student (studentDeploymentMutate sch student d).1
      = ((studentDeploymentMutate sch student d).1, none) := by
  unfold studentDeploymentMutate at h ⊢
  simp only [hD] at h ⊢
  split at h
  · simp at h
  · rename_i refs href
    simp only [href]
    have h2 := SetControllerReference_idem _ _ _ _ _ href
    simp only [h2]

theorem studentDeploymentMutate_key (sch : Scheme) (hD : ∀ d, sch.Default d = d)
    (student : Student) (d : Deployment) :
    keyOf (studentDeploymentMutate sch student d).1.toObjectMeta = keyOf d.toObjectMeta
    ∧ (studentDeploymentMutate sch student d).1.Status = d.Status := by
  unfold studentDeploymentMutate
  simp only [hD]
  split <;> simp [keyOf]

theorem studentServiceMutate_idem (sch : Scheme) (student : Student) (dep : Deployment)
    (s : Service) (h : (studentServiceMutate sch student dep s).2 = none) :
    studentServiceMutate sch student dep (studentServiceMutate sch student dep s).1
      = ((studentServiceMutate sch student dep s).1, none) := by
  unfold studentServiceMutate at h ⊢
  simp only at h ⊢
  split at h
  · simp at h
  · rename_i refs href
    simp only [href]
    have h2 := SetControllerReference_idem _ _ _ _ _ href
    simp only [h2]

theorem studentServiceMutate_key (sch : Scheme) (student : Student) (dep : Deployment)
    (s : Service) :
    keyOf (studentServiceMutate sch student dep s).1.toObjectMeta = keyOf s.toObjectMeta := by
  unfold studentServiceMutate
  simp only
  split <;> simp [keyOf]

theorem mysqlServiceMutate_idem (sch : Scheme) (db : MySQL) (s : Service)
    (h : (mysqlServiceMutate sch db s).2 = none) :
    mysqlServiceMutate sch db (mysqlServiceMutate sch db s).1
      = ((mysqlServiceMutate sch db s).1, none) := by
  unfold mysqlServiceMutate at h ⊢
  simp only at h ⊢
  split at h
  · simp at h
  · rename_i refs href
    simp only [href]
    have h2 := SetControllerReference_idem _ _ _ _ _ href
    simp only [h2]

theorem mysqlServiceMutate_key (sch : Scheme) (db : MySQL) (s : Service) :
    keyOf (mysqlServiceMutate sch db s).1.toObjectMeta = keyOf s.toObjectMeta
    ∧ (mysqlServiceMutate sch db s).1.Spec.ClusterIP = s.Spec.ClusterIP := by
  unfold mysqlServiceMutate
  simp only
  split <;> simp [keyOf]

theorem uuidString_len (n : Nat) : len (uuidString n) > 0 := by
  apply Nat.pos_of_ne_zero
  intro h
  have := congrArg String.data ((len_eq_zero _).mp h)
  simp [uuidString, hexByte] at this

theorem uuidNew_len (w : World) : len (uuidNew w).1 > 0 := by
  unfold uuidNew
  split <;> exact uuidString_len _

theorem mysqlPassword_len (db : MySQL) (current : String) (w : World) :
    len (mysqlPassword db current w).1 > 0 := by
  unfold mysqlPassword
  split
  · assumption
  · split
    · exact uuidNew_len w
    · rename_i h
      exact Nat.pos_of_ne_zero h

theorem mysqlPassword_fix (db : MySQL) (current : String) (w v : World) :
    mysqlPassword db (mysqlPassword db current w).1 v = ((mysqlPassword db current w).1, v) := by
  have hpos := mysqlPassword_len db current w
  by_cases hs : len db.Spec.Authentication.RootPassword > 0
  · simp [mysqlPassword, hs]
  · have hne : len (mysqlPassword db current w).1 ≠ 0 := Nat.pos_iff_ne_zero.mp hpos
    generalize (mysqlPassword db current w).1 = pw at *
    unfold mysqlPassword
    simp [hs, hne]

theorem mysqlPodMutate_err (sch : Scheme) (db : MySQL) (pod : Pod) (b b2 : String) (w v : World) :
    (mysqlPodMutate sch db pod b w).1.2.2 = (mysqlPodMutate sch db pod b2 v).1.2.2 := by
  unfold mysqlPodMutate
  simp only
  split <;> rfl

theorem mysqlPodMutate_key (sch : Scheme) (db : MySQL) (pod : Pod) (b : String) (w : World) :
    keyOf (mysqlPodMutate sch db pod b w).1.1.toObjectMeta = keyOf pod.toObjectMeta
    ∧ (mysqlPodMutate sch db pod b w).1.1.Status = pod.Status := by
  unfold mysqlPodMutate
  simp only
  split <;> simp [keyOf]

theorem mysqlPodMutate_idem (sch : Scheme) (db : MySQL) (pod : Pod) (b b2 : String) (w v : World)
    (h : (mysqlPodMutate sch db pod b w).1.2.2 = none) :
    mysqlPodMutate sch db (mysqlPodMutate sch db pod b w).1.1 b2 v
      = (((mysqlPodMutate sch db pod b w).1.1, (mysqlPodMutate sch db pod b w).1.2.1, none), v) := by
  have hfix := mysqlPassword_fix db (firstValue (firstEnv pod.Spec.Containers)) w v
  obtain ⟨hp1, hp2, -⟩ := mysqlPodMutate_password sch db pod b w
  obtain ⟨hq1, hq2, hq3⟩ := mysqlPodMutate_password sch db (mysqlPodMutate sch db pod b w).1.1 b2 v
  rw [hp2, hfix] at hq1 hq2 hq3
  simp only at hq1 hq2 hq3
  -- the object part
  have hobj : (mysqlPodMutate sch db (mysqlPodMutate sch db pod b w).1.1 b2 v).1.1
      = (mysqlPodMutate sch db pod b w).1.1
      ∧ (mysqlPodMutate sch db (mysqlPodMutate sch db pod b w).1.1 b2 v).1.2.2 = none := by
    have hv : ∀ cs : List Container,
        firstValue (firstEnv (setFirst (fun c => { c with
            Env := setFirst (fun e => { e with Name := "MYSQL_ROOT_PASSWORD" }) c.Env })
          (setFirst (fun c => { c with Env := ensureFirst ({} : EnvVar) c.Env })
            (setFirst (fun c => { c with Name := "db", Image := "docker.io/mysql:" ++ db.Spec.Version })
              (ensureFirst ({} : Container) cs)))))
          = firstValue (firstEnv cs) := by
      intro cs
      rcases cs with _ | ⟨c, cs⟩
      · rfl
      · rcases hc : c.Env with _ | ⟨e, es⟩ <;> simp [ensureFirst, setFirst, firstEnv, firstValue, hc]
    have hcs : ∀ (cs : List Container) (pw : String),
        setFirst (fun c => { c with Env := setFirst (fun e => { e with Value := pw }) c.Env })
          (setFirst (fun c => { c with
              Env := setFirst (fun e => { e with Name := "MYSQL_ROOT_PASSWORD" }) c.Env })
            (setFirst (fun c => { c with Env := ensureFirst ({} : EnvVar) c.Env })
              (setFirst (fun c => { c with Name := "db", Image := "docker.io/mysql:" ++ db.Spec.Version })
                (ensureFirst ({} : Container)
                  (setFirst (fun c => { c with Env := setFirst (fun e => { e with Value := pw }) c.Env })
                    (setFirst (fun c => { c with
                        Env := setFirst (fun e => { e with Name := "MYSQL_ROOT_PASSWORD" }) c.Env })
                      (setFirst (fun c => { c with Env := ensureFirst ({} : EnvVar) c.Env })
                        (setFirst (fun c => { c with Name := "db", Image := "docker.io/mysql:" ++ db.Spec.Version })
                          (ensureFirst ({} : Container) cs)))))))))
        = setFirst (fun c => { c with Env := setFirst (fun e => { e with Value := pw }) c.Env })
            (setFirst (fun c => { c with
                Env := setFirst (fun e => { e with Name := "MYSQL_ROOT_PASSWORD" }) c.Env })
              (setFirst (fun c => { c with Env := ensureFirst ({} : EnvVar) c.Env })
                (setFirst (fun c => { c with Name := "db", Image := "docker.io/mysql:" ++ db.Spec.Version })
                  (ensureFirst ({} : Container) cs)))) := by
      intro cs pw
      rcases cs with _ | ⟨c, cs⟩
      · simp [ensureFirst, setFirst]
      · rcases hc : c.Env with _ | ⟨e, es⟩ <;> simp [ensureFirst, setFirst, hc]
    have hpw : (mysqlPassword db (firstValue (firstEnv (mysqlPodMutate sch db pod b w).1.1.Spec.Containers)) v)
        = ((mysqlPassword db (firstValue (firstEnv pod.Spec.Containers)) w).1, v) := by
      rw [hp2, hfix]
    unfold mysqlPodMutate at h hpw ⊢
    simp only [hv] at h hpw ⊢
    split at h
    · simp at h
    · rename_i refs href
      simp only [href] at hpw ⊢
      try simp only [hv] at hpw
      have h2 := SetControllerReference_idem _ _ _ _ _ href
      simp only [hv, hpw, hcs, h2, and_self]
  refine Prod.ext (Prod.ext hobj.1 (Prod.ext ?_ hobj.2)) hq3
  rw [hq1, hp1]

/-- One upsert in a world without scheduled failures, for a mutate function
that keeps the key. With `y` the stored object (or the fresh one when none is
stored) and `m` what the mutate function makes of it: the result is `m`; the
world is left as the mutate function left it when the mutate function fails
or changes nothing; on success the store holds the mutated object. -/
theorem CreateOrUpdate_nofault {α β : Type} [DecidableEq α] (c : ChildClient α)
    (view : Store → List α) (hl : c.Lawful) (hfa : c.Faithful view)
    (obj : α) (b : β) (f : α → β → World → (α × β × Option Err) × World) (hq : Quiet f)
    (hk : ∀ y b v, keyOf (c.meta (f y b v).1.1) = keyOf (c.meta y))
    (w : World) (hw : w.faults = [])
    (y : α) (hy : y = (lookup c.meta (keyOf (c.meta obj)) (view w.store)).getD obj)
    (m : (α × β × Option Err) × World) (hm : m = f y b (c.get (keyOf (c.meta obj)) w).2) :
    (CreateOrUpdate c obj b f w).1.obj = m.1.1
    ∧ (CreateOrUpdate c obj b f w).1.captured = m.1.2.1
    ∧ (CreateOrUpdate c obj b f w).1.err = m.1.2.2
    ∧ (CreateOrUpdate c obj b f w).2.faults = []
    ∧ (CreateOrUpdate c obj b f w).2.random = m.2.random
    ∧ (m.1.2.2 ≠ none → (CreateOrUpdate c obj b f w).2 = m.2)
    ∧ (lookup c.meta (keyOf (c.meta obj)) (view w.store) = some m.1.1 →
        (CreateOrUpdate c obj b f w).2 = m.2)
    ∧ (m.1.2.2 = none →
        lookup c.meta (keyOf (c.meta obj)) (view (CreateOrUpdate c obj b f w).2.store)
          = some m.1.1) := by
  have hget := hfa.get_ok (keyOf (c.meta obj)) w hw
  obtain ⟨gop, -, -, hg3, -, hg5⟩ := hl.get_frame (keyOf (c.meta obj)) w
  have hgf : (c.get (keyOf (c.meta obj)) w).2.faults = [] := by rw [hg3, hw]; rfl
  obtain ⟨-, hm2, hm3⟩ := hq y b (c.get (keyOf (c.meta obj)) w).2
  rw [← hm] at hm2 hm3
  have hmf : m.2.faults = [] := by rw [hm2, hgf]
  have hmv : view m.2.store = view w.store := by rw [hm3, hg5]
  have hkk0 := hk y b (c.get (keyOf (c.meta obj)) w).2
  rw [← hm] at hkk0
  rcases hlk : lookup c.meta (keyOf (c.meta obj)) (view w.store) with _ | ex
  · -- absent
    rw [hlk] at hget hy
    simp only [found] at hget
    simp only [Option.getD_none] at hy
    subst hy
    rcases hme : m.1.2.2 with _ | e
    · obtain ⟨hc1, hc2⟩ := hfa.create_ok m.1.1 m.2 hmf (by rw [hkk0, hmv]; exact hlk)
      obtain ⟨cop, -, -, hc3, hc4, -⟩ := hl.create_frame m.1.1 m.2
      have heq : CreateOrUpdate c y b f w
          = (⟨m.1.1, m.1.2.1, .created, none⟩, (c.create m.1.1 m.2).2) := by
        unfold CreateOrUpdate
        simp only [hget, if_true, ← hm, hme, hc1]
      rw [heq]
      refine ⟨rfl, rfl, rfl, by rw [hc3, hmf]; rfl, hc4, fun h => absurd rfl h, ?_, ?_⟩
      · intro h; cases h
      · intro _
        have := lookup_append_new c.meta m.1.1 (view m.2.store) (by rw [hkk0, hmv]; exact hlk)
        rw [hkk0] at this
        simp only [hc2]
        exact this
    · have heq : CreateOrUpdate c y b f w = (⟨m.1.1, m.1.2.1, .none, some e⟩, m.2) := by
        unfold CreateOrUpdate
        simp only [hget, if_true, ← hm, hme]
      rw [heq]
      refine ⟨rfl, rfl, rfl, hmf, rfl, fun _ => rfl, fun _ => rfl, ?_⟩
      intro h; cases h
  · -- present
    rw [hlk] at hget hy
    simp only [found] at hget
    simp only [Option.getD_some] at hy
    subst hy
    have hkex := lookup_key _ _ _ _ hlk
    have hkk := hkk0.trans hkex
    rcases hme : m.1.2.2 with _ | e
    · by_cases heq0 : y = m.1.1
      · have heq : CreateOrUpdate c obj b f w = (⟨m.1.1, m.1.2.1, .none, none⟩, m.2) := by
          unfold CreateOrUpdate
          simp only [hget, ← hm, hme]
          rw [if_pos heq0]
        rw [heq]
        refine ⟨rfl, rfl, rfl, hmf, rfl, fun _ => rfl, fun _ => rfl, ?_⟩
        intro _
        simp only [hmv]
        rw [← heq0]
        exact hlk
      · obtain ⟨hu1, hu2⟩ := hfa.update_ok m.1.1 m.2 y hmf (by rw [hkk, hmv]; exact hlk)
        obtain ⟨uop, -, -, hu3, hu4, -⟩ := hl.update_frame m.1.1 m.2
        have heq : CreateOrUpdate c obj b f w
            = (⟨m.1.1, m.1.2.1, .updated, none⟩, (c.update m.1.1 m.2).2) := by
          unfold CreateOrUpdate
          simp only [hget, ← hm, hme, heq0, if_false, hu1]
        rw [heq]
        refine ⟨rfl, rfl, rfl, by rw [hu3, hmf]; rfl, hu4, fun h => absurd rfl h, ?_, ?_⟩
        · intro h
          exact absurd (Option.some.inj h) heq0
        · intro _
          have := lookup_replace c.meta m.1.1 y (view m.2.store) (by rw [hkk, hmv]; exact hlk)
          rw [hkk] at this
          simp only [hu2]
          exact this
    · have heq : CreateOrUpdate c obj b f w = (⟨m.1.1, m.1.2.1, .none, some e⟩, m.2) := by
        unfold CreateOrUpdate
        simp only [hget, ← hm, hme]
      rw [heq]
      refine ⟨rfl, rfl, rfl, hmf, rfl, fun _ => rfl, fun _ => rfl, ?_⟩
      intro h; cases h

theorem CreateOrUpdate_preserves {α β : Type} [DecidableEq α] (c : ChildClient α) (hl : c.Lawful)
    (Q : Store → Prop)
    (hcreate : ∀ x w, Q w.store → Q (c.create x w).2.store)
    (hupdate : ∀ x w, Q w.store → Q (c.update x w).2.store)
    (obj : α) (b : β) (f : α → β → World → (α × β × Option Err) × World) (hq : Quiet f)
    (w : World) (h : Q w.store) : Q (CreateOrUpdate c obj b f w).2.store := by
  obtain ⟨gop, -, -, -, -, hg5⟩ := hl.get_frame (keyOf (c.meta obj)) w
  have hm : ∀ y, Q (f y b (c.get (keyOf (c.meta obj)) w).2).2.store := by
    intro y
    rw [(hq y b _).2.2, hg5]
    exact h
  unfold CreateOrUpdate
  simp only
  split
  · split
    · split
      · exact hm _
      · split
        · exact hcreate _ _ (hm _)
        · exact hcreate _ _ (hm _)
    · rw [hg5]; exact h
  · split
    · exact hm _
    · split
      · exact hm _
      · split
        · exact hupdate _ _ (hm _)
        · exact hupdate _ _ (hm _)

theorem mem_of_lookup {α : Type} (meta : α → ObjectMeta) (k : NamespacedName) (xs : List α) (x : α)
    (h : lookup meta k xs = some x) : x ∈ xs := by
  unfold lookup at h
  exact List.mem_of_find?_eq_some h

theorem replace_allSame {α : Type} (meta : α → ObjectMeta) (x : α) (xs : List α) :
    ∀ z ∈ replace meta x xs, keyOf (meta z) = keyOf (meta x) → z = x := by
  intro z hz hk
  unfold replace at hz
  obtain ⟨y, -, hy⟩ := List.mem_map.mp hz
  by_cases hyk : keyOf (meta y) = keyOf (meta x)
  · simpa [hyk] using hy.symm
  · simp only [hyk, if_false] at hy
    subst hy
    exact absurd hk hyk

theorem store_eta_mysqls (s : Store) : { s with mysqls := s.mysqls } = s := rfl

theorem Client.statusUpdateMySQL_nofault (x old : MySQL) (w : World) (hw : w.faults = [])
    (hold : lookup MySQL.toObjectMeta (keyOf x.toObjectMeta) w.store.mysqls = some old)
    (hmeta : x.toObjectMeta = old.toObjectMeta) (hspec : x.Spec = old.Spec) :
    (Client.statusUpdateMySQL x w).1 = none
    ∧ lookup MySQL.toObjectMeta (keyOf x.toObjectMeta)
        (Client.statusUpdateMySQL x w).2.store.mysqls = some x
    ∧ (∀ z ∈ (Client.statusUpdateMySQL x w).2.store.mysqls,
        keyOf z.toObjectMeta = keyOf x.toObjectMeta → z = x)
    ∧ (Client.statusUpdateMySQL x w).2.faults = [] := by
  have hx : ({ old with Status := x.Status } : MySQL) = x := by
    cases x; cases old; simp_all
  have hf := (Client.statusUpdateMySQL_frame x w).2.1
  unfold Client.statusUpdateMySQL World.call at *
  simp only [hw, hold, hx, errOf]
  refine ⟨trivial, ?_, ?_, ?_⟩
  · exact lookup_replace MySQL.toObjectMeta x old _ hold
  · exact replace_allSame MySQL.toObjectMeta x _
  · simp

theorem Client.statusUpdateMySQL_noop (x z0 : MySQL) (w : World)
    (hall : ∀ z ∈ w.store.mysqls, keyOf z.toObjectMeta = keyOf x.toObjectMeta → z = z0)
    (hz0 : ({ z0 with Status := x.Status } : MySQL) = z0) :
    (Client.statusUpdateMySQL x w).2.store = w.store := by
  unfold Client.statusUpdateMySQL World.call
  split
  · rfl
  · simp only
    split
    · rename_i old hold
      have hold2 := hall old (mem_of_lookup _ _ _ _ hold) (lookup_key _ _ _ _ hold)
      subst hold2
      simp only [hz0]
      have hk : keyOf old.toObjectMeta = keyOf x.toObjectMeta := lookup_key _ _ _ _ hold
      rw [replace_self MySQL.toObjectMeta old w.store.mysqls
        (fun y hy hyk => hall y hy (hyk.trans hk))]
    · rfl

theorem Client.statusUpdateStudent_nofault (x old : Student) (w : World) (hw : w.faults = [])
    (hold : lookup Student.toObjectMeta (keyOf x.toObjectMeta) w.store.students = some old)
    (hmeta : x.toObjectMeta = old.toObjectMeta) (hspec : x.Spec = old.Spec) :
    (Client.statusUpdateStudent x w).1 = none
    ∧ lookup Student.toObjectMeta (keyOf x.toObjectMeta)
        (Client.statusUpdateStudent x w).2.store.students = some x
    ∧ (∀ z ∈ (Client.statusUpdateStudent x w).2.store.students,
        keyOf z.toObjectMeta = keyOf x.toObjectMeta → z = x)
    ∧ (Client.statusUpdateStudent x w).2.faults = [] := by
  have hx : ({ old with Status := x.Status } : Student) = x := by
    cases x; cases old; simp_all
  unfold Client.statusUpdateStudent World.call at *
  simp only [hw, hold, hx, errOf]
  refine ⟨trivial, ?_, ?_, ?_⟩
  · exact lookup_replace Student.toObjectMeta x old _ hold
  · exact replace_allSame Student.toObjectMeta x _
  · simp

theorem Client.statusUpdateStudent_noop (x z0 : Student) (w : World)
    (hall : ∀ z ∈ w.store.students, keyOf z.toObjectMeta = keyOf x.toObjectMeta → z = z0)
    (hz0 : ({ z0 with Status := x.Status } : Student) = z0) :
    (Client.statusUpdateStudent x w).2.store = w.store := by
  unfold Client.statusUpdateStudent World.call
  split
  · rfl
  · simp only
    split
    · rename_i old hold
      have hold2 := hall old (mem_of_lookup _ _ _ _ hold) (lookup_key _ _ _ _ hold)
      subst hold2
      simp only [hz0]
      have hk : keyOf old.toObjectMeta = keyOf x.toObjectMeta := lookup_key _ _ _ _ hold
      rw [replace_self Student.toObjectMeta old w.store.students
        (fun y hy hyk => hall y hy (hyk.trans hk))]
    · rfl

theorem Client.updateStudent_gone (x old : Student) (w : World) (hw : w.faults = [])
    (hold : lookup Student.toObjectMeta (keyOf x.toObjectMeta) w.store.students = some old)
    (hgone : old.DeletionTimestamp ≠ none ∧ x.Finalizers = []) :
    lookup Student.toObjectMeta (keyOf x.toObjectMeta)
        (Client.updateStudent x w).2.store.students = none
    ∧ (Client.updateStudent x w).2.faults = [] := by
  unfold Client.updateStudent World.call at *
  simp only [hw, hold, if_pos hgone]
  refine ⟨?_, ?_⟩
  · exact lookup_remove Student.toObjectMeta _ _
  · simp

theorem Client.updateStudent_nofault (x old : Student) (w : World) (hw : w.faults = [])
    (hold : lookup Student.toObjectMeta (keyOf x.toObjectMeta) w.store.students = some old)
    (hkeep : ¬ (old.DeletionTimestamp ≠ none ∧ x.Finalizers = []))
    (hstatus : x.Status = old.Status) :
    lookup Student.toObjectMeta (keyOf x.toObjectMeta)
        (Client.updateStudent x w).2.store.students = some x
    ∧ (∀ z ∈ (Client.updateStudent x w).2.store.students,
        keyOf z.toObjectMeta = keyOf x.toObjectMeta → z = x)
    ∧ (Client.updateStudent x w).2.faults = [] := by
  have hx : ({ x with Status := old.Status } : Student) = x := by
    cases x; cases old; simp_all
  unfold Client.updateStudent World.call at *
  simp only [hw, hold, hx, if_neg hkeep]
  refine ⟨?_, ?_, ?_⟩
  · exact lookup_replace Student.toObjectMeta x old _ hold
  · exact replace_allSame Student.toObjectMeta x _
  · simp

theorem Client.updateStudent_noop (x : Student) (w : World)
    (hall : ∀ z ∈ w.store.students, keyOf z.toObjectMeta = keyOf x.toObjectMeta → z = x)
    (hkeep : ¬ (x.DeletionTimestamp ≠ none ∧ x.Finalizers = [])) :
    (Client.updateStudent x w).2.store = w.store := by
  unfold Client.updateStudent World.call
  split
  · rfl
  · simp only
    split
    · rename_i old hold
      have hold2 := hall old (mem_of_lookup _ _ _ _ hold) (lookup_key _ _ _ _ hold)
      subst hold2
      have hx : ({ old with Status := old.Status } : Student) = old := rfl
      simp only [hx, if_neg hkeep]
      rw [replace_self Student.toObjectMeta old w.store.students (fun y hy hyk => hall y hy hyk)]
    · rfl

/-! ## A second Student pass -/

theorem Op.isGet_not_childWrite (op : Op) (h : op.isGet = true) : op.isChildWrite = false := by
  cases op <;> simp_all [Op.isGet, Op.isChildWrite]

theorem StudentReconciler.sync_eq (sch : Scheme) (student : Student) (w : World) :
    StudentReconciler.sync sch student w
      = (let d := CreateOrUpdate deploymentClient (studentDeployment student) ()
          (fun d b x => (((studentDeploymentMutate sch student d).1, b,
            (studentDeploymentMutate sch student d).2), x)) w
        match d.1.err with
        | some e => (({}, some e), d.2)
        | none =>
          let s := CreateOrUpdate serviceClient (studentService student) ()
            (fun s b x => (((studentServiceMutate sch student d.1.obj s).1, b,
              (studentServiceMutate sch student d.1.obj s).2), x)) d.2
          match s.1.err with
          | some e => (({}, some e), s.2)
          | none =>
            let u := Client.statusUpdateStudent (studentTarget student d.1.obj) s.2
            (({}, u.1), u.2)) := by
  unfold StudentReconciler.sync studentTarget
  simp only
  split
  · rfl
  · split
    · rfl
    · split
      · split <;> simp_all
      · split <;> simp_all

theorem StudentReconciler.stable_noop (sch : Scheme) (hD : ∀ d, sch.Default d = d)
    (student : Student) (w : World)
    (hw : w.faults = []) (hst : StudentReconciler.Stable sch student w.store) :
    (StudentReconciler.sync sch student w).2.store = w.store
    ∧ ∀ ev ∈ (StudentReconciler.sync sch student w).2.trace,
        ev ∈ w.trace ∨ ev.op.isChildWrite = false := by
  obtain ⟨d0, hd0, hmode⟩ := hst
  rw [StudentReconciler.sync_eq]
  obtain ⟨hD1, -, hD3, hD4, -, hD6, hD7, -⟩ := CreateOrUpdate_nofault deploymentClient
    (fun s => s.deployments) deploymentClient_lawful deploymentClient_faithful
    (studentDeployment student) ()
    (fun d b x => (((studentDeploymentMutate sch student d).1, b,
      (studentDeploymentMutate sch student d).2), x)) (quiet_pure _)
    (fun y b v => (studentDeploymentMutate_key sch hD student y).1)
    w hw d0 hd0 _ rfl
  obtain ⟨hgD1, -, -, hgD4⟩ := Client.getDeployment_frame
    (keyOf (studentDeployment student).toObjectMeta) w
  generalize CreateOrUpdate deploymentClient (studentDeployment student) ()
    (fun d b x => (((studentDeploymentMutate sch student d).1, b,
      (studentDeploymentMutate sch student d).2), x)) w = D at *
  simp only [deploymentClient] at hD1 hD3 hD4 hD6 hD7
  have hget_trace : ∀ ev ∈ (Client.getDeployment
      (keyOf (studentDeployment student).toObjectMeta) w).2.trace,
      ev ∈ w.trace ∨ ev.op.isChildWrite = false := by
    intro ev hev
    rw [hgD1] at hev
    rcases List.mem_append.mp hev with h | h
    · exact Or.inl h
    · simp at h; subst h; exact Or.inr rfl
  rcases hmode with hfail | ⟨hlk, hfix, s0, hs0, hmode2⟩
  · -- the mutate function of the Deployment fails
    obtain ⟨e, he⟩ := Option.ne_none_iff_exists'.mp hfail
    have := hD6 hfail
    simp only [hD3, he, this]
    exact ⟨hgD4, hget_trace⟩
  · have hDw := hD7 (by rw [hfix]; exact hlk)
    rw [hfix] at hD1 hD3
    simp only at hD1 hD3
    simp only [hD3, hD1]
    have hDf : D.2.faults = [] := hD4
    have hDs : D.2.store = w.store := by rw [hDw]; exact hgD4
    obtain ⟨hS1, -, hS3, hS4, -, hS6, hS7, -⟩ := CreateOrUpdate_nofault serviceClient
      (fun s => s.services) serviceClient_lawful serviceClient_faithful
      (studentService student) ()
      (fun s b x => (((studentServiceMutate sch student d0 s).1, b,
        (studentServiceMutate sch student d0 s).2), x)) (quiet_pure _)
      (fun y b v => studentServiceMutate_key sch student d0 y)
      D.2 hDf s0 (by rw [hDs]; exact hs0) _ rfl
    obtain ⟨hgS1, -, -, hgS4⟩ := Client.getService_frame
      (keyOf (studentService student).toObjectMeta) D.2
    have hgetS_trace : ∀ ev ∈ (Client.getService
        (keyOf (studentService student).toObjectMeta) D.2).2.trace,
        ev ∈ w.trace ∨ ev.op.isChildWrite = false := by
      intro ev hev
      rw [hgS1] at hev
      rcases List.mem_append.mp hev with h | h
      · rw [hDw] at h; exact hget_trace ev h
      · simp at h; subst h; exact Or.inr rfl
    generalize CreateOrUpdate serviceClient (studentService student) ()
      (fun s b x => (((studentServiceMutate sch student d0 s).1, b,
        (studentServiceMutate sch student d0 s).2), x)) D.2 = S at *
    simp only [serviceClient] at hS1 hS3 hS4 hS6 hS7
    rcases hmode2 with hfail2 | ⟨hlk2, hfix2, hall, htarget⟩
    · obtain ⟨e, he⟩ := Option.ne_none_iff_exists'.mp hfail2
      have := hS6 hfail2
      simp only [hS3, he, this]
      exact ⟨by rw [hgS4, hDs], hgetS_trace⟩
    · have hSw := hS7 (by rw [hfix2, hDs]; exact hlk2)
      rw [hfix2] at hS1 hS3
      simp only at hS1 hS3
      simp only [hS3, htarget]
      have hSs : S.2.store = w.store := by rw [hSw, hgS4, hDs]
      refine ⟨?_, ?_⟩
      · rw [Client.statusUpdateStudent_noop student student S.2 (by rw [hSs]; exact hall) rfl]
        exact hSs
      · intro ev hev
        simp only [Client.statusUpdateStudent_frame] at hev
        rcases List.mem_append.mp hev with h | h
        · rw [hSw] at h; exact hgetS_trace ev h
        · simp at h; subst h; exact Or.inr rfl

theorem studentDeploymentMutate_congr (sch : Scheme) (a b : Student)
    (h : a.toObjectMeta = b.toObjectMeta) :
    studentDeploymentMutate sch a = studentDeploymentMutate sch b := by
  funext d
  unfold studentDeploymentMutate
  simp only [h]

theorem studentServiceMutate_congr (sch : Scheme) (a b : Student)
    (h : a.toObjectMeta = b.toObjectMeta) :
    studentServiceMutate sch a = studentServiceMutate sch b := by
  funext d s
  unfold studentServiceMutate
  simp only [h]

theorem studentDeployment_congr (a b : Student) (h : a.toObjectMeta = b.toObjectMeta) :
    studentDeployment a = studentDeployment b := by
  unfold studentDeployment studentChildName
  simp only [h]

theorem studentService_congr (a b : Student) (h : a.toObjectMeta = b.toObjectMeta) :
    studentService a = studentService b := by
  unfold studentService studentChildName
  simp only [h]

theorem studentTarget_meta (student : Student) (d : Deployment) :
    (studentTarget student d).toObjectMeta = student.toObjectMeta
    ∧ (studentTarget student d).Spec = student.Spec
    ∧ studentTarget (studentTarget student d) d = studentTarget student d := by
  unfold studentTarget
  split <;> simp [Student.setInitialized, Student.setAcceptance, *]

theorem CreateOrUpdate_deployment_frame {β : Type} (obj : Deployment) (b : β)
    (f : Deployment → β → World → (Deployment × β × Option Err) × World) (hq : Quiet f)
    (w : World) :
    (CreateOrUpdate deploymentClient obj b f w).2.store.services = w.store.services
    ∧ (CreateOrUpdate deploymentClient obj b f w).2.store.students = w.store.students := by
  refine ⟨?_, ?_⟩
  · exact CreateOrUpdate_preserves deploymentClient deploymentClient_lawful
      (fun s => s.services = w.store.services)
      (fun x v h => by simpa [deploymentClient] using h)
      (fun x v h => by simpa [deploymentClient] using h) obj b f hq w rfl
  · exact CreateOrUpdate_preserves deploymentClient deploymentClient_lawful
      (fun s => s.students = w.store.students)
      (fun x v h => by simpa [deploymentClient] using h)
      (fun x v h => by simpa [deploymentClient] using h) obj b f hq w rfl

theorem CreateOrUpdate_service_frame {β : Type} (obj : Service) (b : β)
    (f : Service → β → World → (Service × β × Option Err) × World) (hq : Quiet f)
    (w : World) :
    (CreateOrUpdate serviceClient obj b f w).2.store.deployments = w.store.deployments
    ∧ (CreateOrUpdate serviceClient obj b f w).2.store.students = w.store.students
    ∧ (CreateOrUpdate serviceClient obj b f w).2.store.pods = w.store.pods
    ∧ (CreateOrUpdate serviceClient obj b f w).2.store.mysqls = w.store.mysqls := by
  refine ⟨?_, ?_, ?_, ?_⟩
  · exact CreateOrUpdate_preserves serviceClient serviceClient_lawful
      (fun s => s.deployments = w.store.deployments)
      (fun x v h => by simpa [serviceClient] using h)
      (fun x v h => by simpa [serviceClient] using h) obj b f hq w rfl
  · exact CreateOrUpdate_preserves serviceClient serviceClient_lawful
      (fun s => s.students = w.store.students)
      (fun x v h => by simpa [serviceClient] using h)
      (fun x v h => by simpa [serviceClient] using h) obj b f hq w rfl
  · exact CreateOrUpdate_preserves serviceClient serviceClient_lawful
      (fun s => s.pods = w.store.pods)
      (fun x v h => by simpa [serviceClient] using h)
      (fun x v h => by simpa [serviceClient] using h) obj b f hq w rfl
  · exact CreateOrUpdate_preserves serviceClient serviceClient_lawful
      (fun s => s.mysqls = w.store.mysqls)
      (fun x v h => by simpa [serviceClient] using h)
      (fun x v h => by simpa [serviceClient] using h) obj b f hq w rfl

theorem CreateOrUpdate_pod_frame {β : Type} (obj : Pod) (b : β)
    (f : Pod → β → World → (Pod × β × Option Err) × World) (hq : Quiet f)
    (w : World) :
    (CreateOrUpdate podClient obj b f w).2.store.services = w.store.services
    ∧ (CreateOrUpdate podClient obj b f w).2.store.mysqls = w.store.mysqls := by
  refine ⟨?_, ?_⟩
  · exact CreateOrUpdate_preserves podClient podClient_lawful
      (fun s => s.services = w.store.services)
      (fun x v h => by simpa [podClient] using h)
      (fun x v h => by simpa [podClient] using h) obj b f hq w rfl
  · exact CreateOrUpdate_preserves podClient podClient_lawful
      (fun s => s.mysqls = w.store.mysqls)
      (fun x v h => by simpa [podClient] using h)
      (fun x v h => by simpa [podClient] using h) obj b f hq w rfl

theorem StudentReconciler.sync_stable (sch : Scheme) (hD : ∀ d, sch.Default d = d)
    (student : Student) (w : World) (hw : w.faults = [])
    (hlk : lookup Student.toObjectMeta (keyOf student.toObjectMeta) w.store.students
      = some student) :
    (StudentReconciler.sync sch student w).2.faults = []
    ∧ ∃ student2, lookup Student.toObjectMeta (keyOf student.toObjectMeta)
          (StudentReconciler.sync sch student w).2.store.students = some student2
        ∧ student2.toObjectMeta = student.toObjectMeta
        ∧ student2.Spec = student.Spec
        ∧ StudentReconciler.Stable sch student2 (StudentReconciler.sync sch student w).2.store := by
  rw [StudentReconciler.sync_eq]
  obtain ⟨hD1, -, hD3, hD4, -, hD6, -, hD8⟩ := CreateOrUpdate_nofault deploymentClient
    (fun s => s.deployments) deploymentClient_lawful deploymentClient_faithful
    (studentDeployment student) ()
    (fun d b x => (((studentDeploymentMutate sch student d).1, b,
      (studentDeploymentMutate sch student d).2), x)) (quiet_pure _)
    (fun y b v => (studentDeploymentMutate_key sch hD student y).1)
    w hw _ rfl _ rfl
  obtain ⟨hDfr1, hDfr2⟩ := CreateOrUpdate_deployment_frame (studentDeployment student) ()
    (fun d b x => (((studentDeploymentMutate sch student d).1, b,
      (studentDeploymentMutate sch student d).2), x)) (quiet_pure _) w
  obtain ⟨-, -, -, hgD4⟩ := Client.getDeployment_frame
    (keyOf (studentDeployment student).toObjectMeta) w
  generalize CreateOrUpdate deploymentClient (studentDeployment student) ()
    (fun d b x => (((studentDeploymentMutate sch student d).1, b,
      (studentDeploymentMutate sch student d).2), x)) w = D at *
  simp only [deploymentClient] at hD1 hD3 hD4 hD6 hD8
  generalize hy : (lookup Deployment.toObjectMeta (keyOf (studentDeployment student).toObjectMeta)
    w.store.deployments).getD (studentDeployment student) = y at *
  rcases hme : (studentDeploymentMutate sch student y).2 with _ | e
  · -- the Deployment is upserted
    rw [hme] at hD3
    have hlkD := hD8 hme
    have hfixD := studentDeploymentMutate_idem sch hD student y hme
    rw [← hD1] at hlkD hfixD
    simp only [hD3]
    obtain ⟨hS1, -, hS3, hS4, -, hS6, -, hS8⟩ := CreateOrUpdate_nofault serviceClient
      (fun s => s.services) serviceClient_lawful serviceClient_faithful
      (studentService student) ()
      (fun s b x => (((studentServiceMutate sch student D.1.obj s).1, b,
        (studentServiceMutate sch student D.1.obj s).2), x)) (quiet_pure _)
      (fun y b v => studentServiceMutate_key sch student D.1.obj y)
      D.2 hD4 _ rfl _ rfl
    obtain ⟨hSfr1, hSfr2, -, -⟩ := CreateOrUpdate_service_frame (studentService student) ()
      (fun s b x => (((studentServiceMutate sch student D.1.obj s).1, b,
        (studentServiceMutate sch student D.1.obj s).2), x)) (quiet_pure _) D.2
    obtain ⟨-, -, -, hgS4⟩ := Client.getService_frame
      (keyOf (studentService student).toObjectMeta) D.2
    generalize CreateOrUpdate serviceClient (studentService student) ()
      (fun s b x => (((studentServiceMutate sch student D.1.obj s).1, b,
        (studentServiceMutate sch student D.1.obj s).2), x)) D.2 = S at *
    simp only [serviceClient] at hS1 hS3 hS4 hS6 hS8
    generalize hys : (lookup Service.toObjectMeta (keyOf (studentService student).toObjectMeta)
      D.2.store.services).getD (studentService student) = ys at *
    rcases hmes : (studentServiceMutate sch student D.1.obj ys).2 with _ | e
    · -- the Service is upserted, the status is written
      rw [hmes] at hS3
      have hlkS := hS8 hmes
      have hfixS := studentServiceMutate_idem sch student D.1.obj ys hmes
      rw [← hS1] at hlkS hfixS
      simp only [hS3]
      obtain ⟨ht1, ht2, ht3⟩ := studentTarget_meta student D.1.obj
      have hkt : keyOf (studentTarget student D.1.obj).toObjectMeta = keyOf student.toObjectMeta := by
        rw [ht1]
      obtain ⟨-, hU2, hU3, hU4⟩ := Client.statusUpdateStudent_nofault
        (studentTarget student D.1.obj) student S.2 hS4
        (by rw [hkt, hSfr2, hDfr2]; exact hlk) ht1 ht2
      obtain ⟨-, -, -, -, -, hUs, hUd⟩ := Client.statusUpdateStudent_frame
        (studentTarget student D.1.obj) S.2
      refine ⟨hU4, studentTarget student D.1.obj, by rw [← hkt]; exact hU2, ht1, ht2, ?_⟩
      refine ⟨D.1.obj, ?_, Or.inr ⟨?_, ?_, S.1.obj, ?_, Or.inr ⟨?_, ?_, ?_, ht3⟩⟩⟩
      · rw [studentDeployment_congr _ _ ht1, hUd, hSfr1, hlkD]; rfl
      · rw [studentDeployment_congr _ _ ht1, hUd, hSfr1, hlkD]
      · rw [studentDeploymentMutate_congr _ _ _ ht1]; exact hfixD
      · rw [studentService_congr _ _ ht1, hUs, hlkS]; rfl
      · rw [studentService_congr _ _ ht1, hUs, hlkS]
      · rw [studentServiceMutate_congr _ _ _ ht1]; exact hfixS
      · exact hU3
    · -- the mutate function of the Service fails
      rw [hmes] at hS3
      have hSw := hS6 (by rw [hmes]; simp)
      simp only [hS3]
      have hSs : S.2.store = D.2.store := by rw [hSw]; exact hgS4
      refine ⟨hS4, student, by rw [hSs, hDfr2]; exact hlk, rfl, rfl, ?_⟩
      refine ⟨D.1.obj, ?_, Or.inr ⟨?_, hfixD, ys, ?_, Or.inl ?_⟩⟩
      · rw [hSs, hlkD]; rfl
      · rw [hSs, hlkD]
      · rw [hSs, hys]
      · rw [hmes]; simp
  · -- the mutate function of the Deployment fails
    rw [hme] at hD3
    have hDw := hD6 (by rw [hme]; simp)
    simp only [hD3]
    have hDs : D.2.store = w.store := by rw [hDw]; exact hgD4
    refine ⟨hD4, student, by rw [hDs]; exact hlk, rfl, rfl, ?_⟩
    refine ⟨y, by rw [hDs, hy], Or.inl ?_⟩
    rw [hme]; simp

theorem Client.getStudent_nofault (k : NamespacedName) (w : World) (hw : w.faults = []) :
    (Client.getStudent k w).1 = found (lookup Student.toObjectMeta k w.store.students)
    ∧ (Client.getStudent k w).2.faults = [] := by
  simp [Client.getStudent, World.call, hw]

theorem Client.getMySQL_nofault (k : NamespacedName) (w : World) (hw : w.faults = []) :
    (Client.getMySQL k w).1 = found (lookup MySQL.toObjectMeta k w.store.mysqls)
    ∧ (Client.getMySQL k w).2.faults = [] := by
  simp [Client.getMySQL, World.call, hw]

theorem StudentReconciler.Reconcile_sync (sch : Scheme) (req : NamespacedName) (w : World)
    (student : Student)
    (hget : (Client.getStudent req { w with trace := [] }).1 = .ok student)
    (hlive : student.DeletionTimestamp = none)
    (hnick : len student.Spec.Nickname ≠ 0)
    (hfin : ContainsFinalizer student.toObjectMeta studentFinalizer = true) :
    StudentReconciler.Reconcile sch req w
      = StudentReconciler.sync sch student (Client.getStudent req { w with trace := [] }).2 := by
  unfold StudentReconciler.Reconcile
  simp [hget, hlive, hnick, hfin]

theorem RemoveFinalizer_idem (m : ObjectMeta) (t : String) :
    RemoveFinalizer { m with Finalizers := RemoveFinalizer m t } t = RemoveFinalizer m t := by
  simp [RemoveFinalizer, List.filter_filter]

/-- The second of two Student passes in a row, without store failures, on a
record that is not waiting for its finalizer. -/
theorem StudentReconciler.second_pass (sch : Scheme) (hD : ∀ d, sch.Default d = d)
    (req : NamespacedName) (w : World) (hw : w.faults = [])
    (hfin : ∀ student, lookup Student.toObjectMeta req w.store.students = some student →
      student.DeletionTimestamp = none → len student.Spec.Nickname ≠ 0 →
      ContainsFinalizer student.toObjectMeta studentFinalizer = true) :
    (StudentReconciler.Reconcile sch req (StudentReconciler.Reconcile sch req w).2).2.store
        = (StudentReconciler.Reconcile sch req w).2.store
    ∧ ∀ ev ∈ (StudentReconciler.Reconcile sch req (StudentReconciler.Reconcile sch req w).2).2.trace,
        ev.op.isChildWrite = false := by
  obtain ⟨hg1, hg2⟩ := Client.getStudent_nofault req { w with trace := [] } hw
  obtain ⟨hgt, -, -, hgs⟩ := Client.getStudent_frame req { w with trace := [] }
  simp only at hg1 hgs
  -- what a pass does from a world `v` whose get finds nothing
  have step_none : ∀ v : World, v.faults = [] →
      lookup Student.toObjectMeta req v.store.students = none →
      (StudentReconciler.Reconcile sch req v).2.store = v.store
      ∧ (StudentReconciler.Reconcile sch req v).2.faults = []
      ∧ ∀ ev ∈ (StudentReconciler.Reconcile sch req v).2.trace, ev.op.isChildWrite = false := by
    intro v hv hl
    obtain ⟨h1, h2⟩ := Client.getStudent_nofault req { v with trace := [] } hv
    obtain ⟨ht, -, -, hs⟩ := Client.getStudent_frame req { v with trace := [] }
    simp only at h1
    rw [hl] at h1
    rw [StudentReconciler.Reconcile_failed sch req v .notFound h1]
    refine ⟨hs, h2, ?_⟩
    intro ev hev
    simp only [ht, List.nil_append, List.mem_singleton] at hev
    subst hev
    rfl
  rcases hlk : lookup Student.toObjectMeta req w.store.students with _ | student
  · obtain ⟨a1, a2, -⟩ := step_none w hw hlk
    obtain ⟨b1, -, b3⟩ := step_none (StudentReconciler.Reconcile sch req w).2 a2 (by rw [a1]; exact hlk)
    exact ⟨b1, b3⟩
  · have hkey := lookup_key _ _ _ _ hlk
    rw [hlk] at hg1
    simp only [found] at hg1
    by_cases hdel : student.DeletionTimestamp = none
    · by_cases hnick : len student.Spec.Nickname = 0
      · -- waiting for the nickname
        have step : ∀ v : World, v.faults = [] →
            lookup Student.toObjectMeta req v.store.students = some student →
            (StudentReconciler.Reconcile sch req v).2.store = v.store
            ∧ (StudentReconciler.Reconcile sch req v).2.faults = []
            ∧ ∀ ev ∈ (StudentReconciler.Reconcile sch req v).2.trace, ev.op.isChildWrite = false := by
          intro v hv hl
          obtain ⟨h1, h2⟩ := Client.getStudent_nofault req { v with trace := [] } hv
          obtain ⟨ht, -, -, hs⟩ := Client.getStudent_frame req { v with trace := [] }
          simp only at h1
          rw [hl] at h1
          rw [StudentReconciler.Reconcile_waiting sch req v student h1 hdel hnick]
          refine ⟨hs, h2, ?_⟩
          intro ev hev
          simp only [ht, List.nil_append, List.mem_singleton] at hev
          subst hev
          rfl
        obtain ⟨a1, a2, -⟩ := step w hw hlk
        obtain ⟨b1, -, b3⟩ := step (StudentReconciler.Reconcile sch req w).2 a2 (by rw [a1]; exact hlk)
        exact ⟨b1, b3⟩
      · -- the two upserts and the status
        have hf := hfin student hlk hdel hnick
        rw [StudentReconciler.Reconcile_sync sch req w student hg1 hdel hnick hf]
        obtain ⟨c1, student2, c2, c3, c4, c5⟩ := StudentReconciler.sync_stable sch hD student
          (Client.getStudent req { w with trace := [] }).2 hg2 (by rw [hgs, hkey]; exact hlk)
        rw [hkey] at c2
        generalize StudentReconciler.sync sch student
          (Client.getStudent req { w with trace := [] }).2 = R at *
        obtain ⟨h1, h2⟩ := Client.getStudent_nofault req { R.2 with trace := [] } c1
        obtain ⟨ht, -, -, hs⟩ := Client.getStudent_frame req { R.2 with trace := [] }
        simp only at h1 hs
        rw [c2] at h1
        simp only [found] at h1
        have hdel2 : student2.DeletionTimestamp = none := by
          have := congrArg ObjectMeta.DeletionTimestamp c3
          exact this.trans hdel
        have hnick2 : len student2.Spec.Nickname ≠ 0 := by rw [c4]; exact hnick
        have hf2 : ContainsFinalizer student2.toObjectMeta studentFinalizer = true := by
          rw [c3]; exact hf
        rw [StudentReconciler.Reconcile_sync sch req R.2 student2 h1 hdel2 hnick2 hf2]
        obtain ⟨d1, d2⟩ := StudentReconciler.stable_noop sch hD student2
          (Client.getStudent req { R.2 with trace := [] }).2 h2 (by rw [hs]; exact c5)
        refine ⟨d1.trans hs, ?_⟩
        intro ev hev
        rcases d2 ev hev with h | h
        · simp only [ht, List.nil_append, List.mem_singleton] at h
          subst h
          rfl
        · exact h
    · -- under deletion
      have hx1 : ({ student with
          Finalizers := RemoveFinalizer student.toObjectMeta studentFinalizer } : Student).DeletionTimestamp
          ≠ none := hdel
      rw [StudentReconciler.Reconcile_deleting sch req w student hg1 hdel]
      have hk1 : keyOf ({ student with
          Finalizers := RemoveFinalizer student.toObjectMeta studentFinalizer } : Student).toObjectMeta
          = req := hkey
      have hold : lookup Student.toObjectMeta (keyOf ({ student with
          Finalizers := RemoveFinalizer student.toObjectMeta studentFinalizer } : Student).toObjectMeta)
          (Client.getStudent req { w with trace := [] }).2.store.students = some student := by
        rw [hgs, hk1]; exact hlk
      by_cases hlast : RemoveFinalizer student.toObjectMeta studentFinalizer = []
      · -- the last finalizer goes: the store removes the record
        obtain ⟨u1, u3⟩ := Client.updateStudent_gone
          { student with Finalizers := RemoveFinalizer student.toObjectMeta studentFinalizer } student
          (Client.getStudent req { w with trace := [] }).2 hg2 hold ⟨hdel, hlast⟩
        rw [hk1] at u1
        generalize Client.updateStudent
          { student with Finalizers := RemoveFinalizer student.toObjectMeta studentFinalizer }
          (Client.getStudent req { w with trace := [] }).2 = U at *
        simp only
        obtain ⟨h1, h2⟩ := Client.getStudent_nofault req { U.2 with trace := [] } u3
        obtain ⟨ht, -, -, hs⟩ := Client.getStudent_frame req { U.2 with trace := [] }
        simp only at h1 hs
        rw [u1] at h1
        simp only [found] at h1
        rw [StudentReconciler.Reconcile_failed sch req U.2 .notFound h1]
        refine ⟨hs, ?_⟩
        intro ev hev
        simp only [ht, List.nil_append, List.mem_singleton] at hev
        subst hev
        rfl
      · -- another finalizer is left: the record stays
        obtain ⟨u1, u2, u3⟩ := Client.updateStudent_nofault
          { student with Finalizers := RemoveFinalizer student.toObjectMeta studentFinalizer } student
          (Client.getStudent req { w with trace := [] }).2 hg2 hold (fun h => hlast h.2) rfl
        rw [hk1] at u1
        generalize Client.updateStudent
          { student with Finalizers := RemoveFinalizer student.toObjectMeta studentFinalizer }
          (Client.getStudent req { w with trace := [] }).2 = U at *
        simp only
        obtain ⟨h1, h2⟩ := Client.getStudent_nofault req { U.2 with trace := [] } u3
        obtain ⟨ht, -, -, hs⟩ := Client.getStudent_frame req { U.2 with trace := [] }
        simp only at h1 hs
        rw [u1] at h1
        simp only [found] at h1
        rw [StudentReconciler.Reconcile_deleting sch req U.2 _ h1 hx1]
        have hidem : ({ ({ student with
              Finalizers := RemoveFinalizer student.toObjectMeta studentFinalizer } : Student) with
            Finalizers := RemoveFinalizer ({ student with
              Finalizers := RemoveFinalizer student.toObjectMeta studentFinalizer } : Student).toObjectMeta
                studentFinalizer } : Student)
            = { student with Finalizers := RemoveFinalizer student.toObjectMeta studentFinalizer } := by
          have := RemoveFinalizer_idem student.toObjectMeta studentFinalizer
          simp only [this]
        rw [hidem]
        refine ⟨?_, ?_⟩
        · rw [Client.updateStudent_noop _ _ (by rw [hs]; exact u2) (fun h => hlast h.2)]
          exact hs
        · intro ev hev
          simp only [Client.updateStudent_frame, ht, List.nil_append] at hev
          simp at hev
          rcases hev with h | h <;> (subst h; rfl)

/-! ## A second MySQL pass -/

theorem MySQLReconciler.mysql_sync_eq (sch : Scheme) (db : MySQL) (w : World) :
    MySQLReconciler.sync sch db w
      = (let p := MySQLReconciler.createPod sch db (mysqlPod db) w
        match p.1.err with
        | some e => (({}, some e), p.2)
        | none =>
          let u1 := Client.statusUpdateMySQL (db.setInitialized true) p.2
          let s := CreateOrUpdate serviceClient (mysqlService (db.setInitialized true)) ()
            (fun s b x => (((mysqlServiceMutate sch (db.setInitialized true) s).1, b,
              (mysqlServiceMutate sch (db.setInitialized true) s).2), x)) u1.2
          match s.1.err with
          | some e => (({}, some e), s.2)
          | none =>
            if len s.1.obj.Spec.ClusterIP = 0 then (({}, none), s.2)
            else
              let u2 := Client.statusUpdateMySQL
                ((db.setInitialized true).setAddress s.1.obj.Spec.ClusterIP) s.2
              let u3 := Client.statusUpdateMySQL
                (((db.setInitialized true).setAddress s.1.obj.Spec.ClusterIP).setRootPassword
                  p.1.captured) u2.2
              let u4 := Client.statusUpdateMySQL
                ((((db.setInitialized true).setAddress s.1.obj.Spec.ClusterIP).setRootPassword
                  p.1.captured).setReady (decide (p.1.obj.Status.Phase = "Running"))) u3.2
              (({}, none), u4.2)) := by
  rfl

theorem MySQL.setters_id (db : MySQL) (ip pw : String) (r : Bool)
    (h1 : db.Status.Initialized = true) :
    db.setInitialized true = db
    ∧ (db.Status.Address = ip → db.setAddress ip = db)
    ∧ (db.Status.RootPassword = pw → db.setRootPassword pw = db)
    ∧ (db.Status.Ready = r → db.setReady r = db) := by
  rcases db with ⟨m, sp, ⟨a, b, c, d⟩⟩
  simp only at h1
  subst h1
  refine ⟨rfl, ?_, ?_, ?_⟩ <;>
    (intro h; simp only at h; subst h; rfl)

theorem Client.statusUpdateMySQL_idle (db : MySQL) (W : World) (hW : W.faults = [])
    (hall : ∀ z ∈ W.store.mysqls, keyOf z.toObjectMeta = keyOf db.toObjectMeta → z = db) :
    (Client.statusUpdateMySQL db W).2.store = W.store
    ∧ (Client.statusUpdateMySQL db W).2.faults = []
    ∧ ∀ ev ∈ (Client.statusUpdateMySQL db W).2.trace,
        ev ∈ W.trace ∨ ev.op.isChildWrite = false := by
  obtain ⟨ht, hf, -⟩ := Client.statusUpdateMySQL_frame db W
  refine ⟨Client.statusUpdateMySQL_noop db db W hall rfl, by rw [hf, hW]; rfl, ?_⟩
  intro ev hev
  rw [ht] at hev
  rcases List.mem_append.mp hev with h | h
  · exact Or.inl h
  · simp at h; subst h; exact Or.inr rfl

theorem MySQLReconciler.createPod_steady (sch : Scheme) (db : MySQL) (pod : Pod) (w : World)
    (hrot : ¬ (len db.Spec.Authentication.RootPassword > 0
      ∧ db.Spec.Authentication.RootPassword ≠ db.Status.RootPassword)) :
    MySQLReconciler.createPod sch db pod w
      = CreateOrUpdate podClient pod "" (mysqlPodMutate sch db) w := by
  unfold MySQLReconciler.createPod
  rw [if_neg hrot]

theorem MySQLReconciler.mysql_stable_noop (sch : Scheme) (db : MySQL) (w : World)
    (hw : w.faults = []) (hst : MySQLReconciler.Stable sch db w.store) :
    (MySQLReconciler.sync sch db w).2.store = w.store
    ∧ ∀ ev ∈ (MySQLReconciler.sync sch db w).2.trace,
        ev ∈ w.trace ∨ ev.op.isChildWrite = false := by
  obtain ⟨hrot, p0, hp0, hmode⟩ := hst
  rw [MySQLReconciler.mysql_sync_eq, MySQLReconciler.createPod_steady sch db _ w hrot]
  obtain ⟨hP1, hP2, hP3, hP4, -, hP6, hP7, -⟩ := CreateOrUpdate_nofault podClient
    (fun s => s.pods) podClient_lawful podClient_faithful
    (mysqlPod db) "" (mysqlPodMutate sch db) (quiet_mysqlPodMutate sch db)
    (fun y b v => (mysqlPodMutate_key sch db y b v).1)
    w hw p0 hp0 _ rfl
  obtain ⟨hgP1, -, -, hgP4⟩ := Client.getPod_frame (keyOf (mysqlPod db).toObjectMeta) w
  obtain ⟨hq1, -, hq3⟩ := quiet_mysqlPodMutate sch db p0 ""
    (Client.getPod (keyOf (mysqlPod db).toObjectMeta) w).2
  generalize CreateOrUpdate podClient (mysqlPod db) "" (mysqlPodMutate sch db) w = P at *
  simp only [podClient] at hP1 hP2 hP3 hP4 hP6 hP7
  have hget_trace : ∀ ev ∈ (Client.getPod (keyOf (mysqlPod db).toObjectMeta) w).2.trace,
      ev ∈ w.trace ∨ ev.op.isChildWrite = false := by
    intro ev hev
    rw [hgP1] at hev
    rcases List.mem_append.mp hev with h | h
    · exact Or.inl h
    · simp at h; subst h; exact Or.inr rfl
  rcases hmode with hfail | ⟨hlk, pw, hfix, hall, hinit, s0, hs0, hmode2⟩
  · -- the mutate function of the Pod fails
    rw [mysqlPodMutate_err sch db p0 "" ""  {}
      (Client.getPod (keyOf (mysqlPod db).toObjectMeta) w).2] at hfail
    obtain ⟨e, he⟩ := Option.ne_none_iff_exists'.mp hfail
    have hPw := hP6 hfail
    simp only [hP3, he]
    rw [hPw]
    exact ⟨by rw [hq3, hgP4], fun ev hev => hget_trace ev (by rw [← hq1]; exact hev)⟩
  · have hPw := hP7 (by rw [hfix]; exact hlk)
    rw [hfix] at hP1 hP2 hP3 hPw
    simp only at hP1 hP2 hP3 hPw
    obtain ⟨hid1, -, -, -⟩ := MySQL.setters_id db "" "" false hinit
    simp only [hP3, hP1, hP2, hid1]
    have hPs : P.2.store = w.store := by rw [hPw]; exact hgP4
    obtain ⟨hU1s, hU1f, hU1t⟩ := Client.statusUpdateMySQL_idle db P.2 hP4
      (by rw [hPs]; exact hall)
    have hU1T : ∀ ev ∈ (Client.statusUpdateMySQL db P.2).2.trace,
        ev ∈ w.trace ∨ ev.op.isChildWrite = false := by
      intro ev hev
      rcases hU1t ev hev with h | h
      · rw [hPw] at h; exact hget_trace ev h
      · exact Or.inr h
    generalize Client.statusUpdateMySQL db P.2 = U1 at *
    obtain ⟨hS1, -, hS3, hS4, -, hS6, hS7, -⟩ := CreateOrUpdate_nofault serviceClient
      (fun s => s.services) serviceClient_lawful serviceClient_faithful
      (mysqlService db) ()
      (fun s b x => (((mysqlServiceMutate sch db s).1, b,
        (mysqlServiceMutate sch db s).2), x)) (quiet_pure _)
      (fun y b v => (mysqlServiceMutate_key sch db y).1)
      U1.2 hU1f s0 (by rw [hU1s, hPs]; exact hs0) _ rfl
    obtain ⟨hgS1, -, -, hgS4⟩ := Client.getService_frame
      (keyOf (mysqlService db).toObjectMeta) U1.2
    have hgetS_trace : ∀ ev ∈ (Client.getService
        (keyOf (mysqlService db).toObjectMeta) U1.2).2.trace,
        ev ∈ w.trace ∨ ev.op.isChildWrite = false := by
      intro ev hev
      rw [hgS1] at hev
      rcases List.mem_append.mp hev with h | h
      · exact hU1T ev h
      · simp at h; subst h; exact Or.inr rfl
    generalize CreateOrUpdate serviceClient (mysqlService db) ()
      (fun s b x => (((mysqlServiceMutate sch db s).1, b,
        (mysqlServiceMutate sch db s).2), x)) U1.2 = S at *
    simp only [serviceClient] at hS1 hS3 hS4 hS6 hS7
    rcases hmode2 with hfail2 | ⟨hlk2, hfix2, hgate⟩
    · obtain ⟨e, he⟩ := Option.ne_none_iff_exists'.mp hfail2
      have := hS6 hfail2
      simp only [hS3, he, this]
      exact ⟨by rw [hgS4, hU1s, hPs], hgetS_trace⟩
    · have hSw := hS7 (by rw [hfix2, hU1s, hPs]; exact hlk2)
      rw [hfix2] at hS1 hS3
      simp only at hS1 hS3
      simp only [hS3, hS1]
      have hSs : S.2.store = w.store := by rw [hSw, hgS4, hU1s, hPs]
      have hST : ∀ ev ∈ S.2.trace, ev ∈ w.trace ∨ ev.op.isChildWrite = false := by
        intro ev hev
        rw [hSw] at hev
        exact hgetS_trace ev hev
      rcases hgate with hz | ⟨ha, hp, hr⟩
      · rw [if_pos hz]
        exact ⟨hSs, hST⟩
      · by_cases hz : len s0.Spec.ClusterIP = 0
        · rw [if_pos hz]
          exact ⟨hSs, hST⟩
        · rw [if_neg hz]
          obtain ⟨-, hid2, hid3, hid4⟩ := MySQL.setters_id db s0.Spec.ClusterIP pw
            (decide (p0.Status.Phase = "Running")) hinit
          simp only [hid2 ha, hid3 hp, hid4 hr]
          obtain ⟨hU2s, hU2f, hU2t⟩ := Client.statusUpdateMySQL_idle db S.2 hS4
            (by rw [hSs]; exact hall)
          generalize Client.statusUpdateMySQL db S.2 = U2 at *
          obtain ⟨hU3s, hU3f, hU3t⟩ := Client.statusUpdateMySQL_idle db U2.2 hU2f
            (by rw [hU2s, hSs]; exact hall)
          generalize Client.statusUpdateMySQL db U2.2 = U3 at *
          obtain ⟨hU4s, hU4f, hU4t⟩ := Client.statusUpdateMySQL_idle db U3.2 hU3f
            (by rw [hU3s, hU2s, hSs]; exact hall)
          generalize Client.statusUpdateMySQL db U3.2 = U4 at *
          refine ⟨by rw [hU4s, hU3s, hU2s, hSs], ?_⟩
          intro ev hev
          rcases hU4t ev hev with h | h
          · rcases hU3t ev h with h | h
            · rcases hU2t ev h with h | h
              · exact hST ev h
              · exact Or.inr h
            · exact Or.inr h
          · exact Or.inr h

theorem Client.deletePod_nofault (p : Pod) (w : World) (hw : w.faults = []) :
    ((Client.deletePod p w).1 = none ∨ (Client.deletePod p w).1 = some .notFound)
    ∧ (Client.deletePod p w).2.faults = [] := by
  unfold Client.deletePod World.call erase
  simp only [hw]
  rcases lookup Pod.toObjectMeta (keyOf p.toObjectMeta) w.store.pods with _ | x
  · exact ⟨Or.inr rfl, rfl⟩
  · exact ⟨Or.inl rfl, rfl⟩

theorem MySQLReconciler.createPod_nofault (sch : Scheme) (db : MySQL) (pod : Pod) (w : World)
    (hw : w.faults = []) :
    ∃ v : World, v.faults = [] ∧ v.store.mysqls = w.store.mysqls
      ∧ v.store.services = w.store.services
      ∧ (¬ (len db.Spec.Authentication.RootPassword > 0
          ∧ db.Spec.Authentication.RootPassword ≠ db.Status.RootPassword) → v = w)
      ∧ MySQLReconciler.createPod sch db pod w
          = CreateOrUpdate podClient pod "" (mysqlPodMutate sch db) v := by
  by_cases hrot : len db.Spec.Authentication.RootPassword > 0
      ∧ db.Spec.Authentication.RootPassword ≠ db.Status.RootPassword
  · obtain ⟨hd, hdf⟩ := Client.deletePod_nofault pod w hw
    obtain ⟨-, -, -, hm, -, hs, -⟩ := Client.deletePod_frame pod w
    refine ⟨(Client.deletePod pod w).2, hdf, hm, hs, fun h => absurd hrot h, ?_⟩
    unfold MySQLReconciler.createPod
    rw [if_pos hrot]
    rcases hd with h | h
    · simp only [h]
    · simp only [h, ne_eq, not_true_eq_false, if_false]
  · exact ⟨w, hw, rfl, rfl, fun _ => rfl, MySQLReconciler.createPod_steady sch db pod w hrot⟩

theorem mysqlPodMutate_congr (sch : Scheme) (a b : MySQL)
    (h : a.toObjectMeta = b.toObjectMeta) (hs : a.Spec = b.Spec) :
    mysqlPodMutate sch a = mysqlPodMutate sch b := by
  funext pod pw w
  unfold mysqlPodMutate mysqlPassword
  simp only [h, hs]

theorem mysqlServiceMutate_congr (sch : Scheme) (a b : MySQL)
    (h : a.toObjectMeta = b.toObjectMeta) :
    mysqlServiceMutate sch a = mysqlServiceMutate sch b := by
  funext s
  unfold mysqlServiceMutate
  simp only [h]

theorem mysqlPod_congr (a b : MySQL) (h : a.toObjectMeta = b.toObjectMeta) :
    mysqlPod a = mysqlPod b := by
  unfold mysqlPod
  simp only [h]

theorem mysqlService_congr (a b : MySQL) (h : a.toObjectMeta = b.toObjectMeta) :
    mysqlService a = mysqlService b := by
  unfold mysqlService
  simp only [h]

theorem MySQLReconciler.mysql_sync_stable (sch : Scheme) (db : MySQL) (w : World)
    (hw : w.faults = [])
    (hlk : lookup MySQL.toObjectMeta (keyOf db.toObjectMeta) w.store.mysqls = some db) :
    (MySQLReconciler.sync sch db w).2.faults = []
    ∧ ∃ db2, lookup MySQL.toObjectMeta (keyOf db.toObjectMeta)
          (MySQLReconciler.sync sch db w).2.store.mysqls = some db2
        ∧ (¬ (len db2.Spec.Authentication.RootPassword > 0
              ∧ db2.Spec.Authentication.RootPassword ≠ db2.Status.RootPassword) →
            MySQLReconciler.Stable sch db2 (MySQLReconciler.sync sch db w).2.store) := by
  obtain ⟨v, hvf, hvm, hvs, hvw, hcp⟩ :=
    MySQLReconciler.createPod_nofault sch db (mysqlPod db) w hw
  rw [MySQLReconciler.mysql_sync_eq, hcp]
  obtain ⟨hP1, hP2, hP3, hP4, -, hP6, -, hP8⟩ := CreateOrUpdate_nofault podClient
    (fun s => s.pods) podClient_lawful podClient_faithful
    (mysqlPod db) "" (mysqlPodMutate sch db) (quiet_mysqlPodMutate sch db)
    (fun y b v => (mysqlPodMutate_key sch db y b v).1)
    v hvf _ rfl _ rfl
  obtain ⟨hPfs, hPfm⟩ := CreateOrUpdate_pod_frame (mysqlPod db) "" (mysqlPodMutate sch db)
    (quiet_mysqlPodMutate sch db) v
  obtain ⟨-, -, -, hgP4⟩ := Client.getPod_frame (keyOf (mysqlPod db).toObjectMeta) v
  generalize CreateOrUpdate podClient (mysqlPod db) "" (mysqlPodMutate sch db) v = P at *
  simp only [podClient] at hP1 hP2 hP3 hP4 hP6 hP8
  generalize hy : (lookup Pod.toObjectMeta (keyOf (mysqlPod db).toObjectMeta)
    v.store.pods).getD (mysqlPod db) = y at *
  have hmq := (quiet_mysqlPodMutate sch db y ""
    (Client.getPod (keyOf (mysqlPod db).toObjectMeta) v).2).2.2
  have hmidem := fun v2 h => mysqlPodMutate_idem sch db y "" ""
    (Client.getPod (keyOf (mysqlPod db).toObjectMeta) v).2 v2 h
  have hmerr := mysqlPodMutate_err sch db y "" ""
    (Client.getPod (keyOf (mysqlPod db).toObjectMeta) v).2 {}
  generalize mysqlPodMutate sch db y ""
    (Client.getPod (keyOf (mysqlPod db).toObjectMeta) v).2 = m at *
  rcases hme : m.1.2.2 with _ | e
  · -- the Pod is upserted
    rw [hme] at hP3
    have hlkP := hP8 hme
    have hfixP := fun v2 => hmidem v2 hme
    rw [← hP1] at hlkP
    simp only [← hP1, ← hP2] at hfixP
    simp only [hP3]
    have h1m : (db.setInitialized true).toObjectMeta = db.toObjectMeta := rfl
    have h1s : (db.setInitialized true).Spec = db.Spec := rfl
    have h1i : (db.setInitialized true).Status.Initialized = true := rfl
    obtain ⟨-, hU2, hU3, hU4⟩ := Client.statusUpdateMySQL_nofault
      (db.setInitialized true) db P.2 hP4 (by rw [hPfm, hvm]; exact hlk) rfl rfl
    obtain ⟨-, -, -, -, hUp, hUs, -⟩ := Client.statusUpdateMySQL_frame
      (db.setInitialized true) P.2
    generalize Client.statusUpdateMySQL (db.setInitialized true) P.2 = U1 at *
    generalize db.setInitialized true = db1 at *
    obtain ⟨hS1, -, hS3, hS4, -, hS6, -, hS8⟩ := CreateOrUpdate_nofault serviceClient
      (fun s => s.services) serviceClient_lawful serviceClient_faithful
      (mysqlService db1) ()
      (fun s b x => (((mysqlServiceMutate sch db1 s).1, b,
        (mysqlServiceMutate sch db1 s).2), x)) (quiet_pure _)
      (fun y b v => (mysqlServiceMutate_key sch db1 y).1)
      U1.2 hU4 _ rfl _ rfl
    obtain ⟨-, -, hSfp, hSfm⟩ := CreateOrUpdate_service_frame (mysqlService db1) ()
      (fun s b x => (((mysqlServiceMutate sch db1 s).1, b,
        (mysqlServiceMutate sch db1 s).2), x)) (quiet_pure _) U1.2
    obtain ⟨-, -, -, hgS4⟩ := Client.getService_frame
      (keyOf (mysqlService db1).toObjectMeta) U1.2
    generalize CreateOrUpdate serviceClient (mysqlService db1) ()
      (fun s b x => (((mysqlServiceMutate sch db1 s).1, b,
        (mysqlServiceMutate sch db1 s).2), x)) U1.2 = S at *
    simp only [serviceClient] at hS1 hS3 hS4 hS6 hS8
    generalize hys : (lookup Service.toObjectMeta (keyOf (mysqlService db1).toObjectMeta)
      U1.2.store.services).getD (mysqlService db1) = ys at *
    have hpod1 : mysqlPod db1 = mysqlPod db := mysqlPod_congr _ _ h1m
    have hmut1 : mysqlPodMutate sch db1 = mysqlPodMutate sch db :=
      mysqlPodMutate_congr sch _ _ h1m h1s
    rcases hmes : (mysqlServiceMutate sch db1 ys).2 with _ | e
    · -- the Service is upserted
      rw [hmes] at hS3
      have hlkS := hS8 hmes
      have hfixS := mysqlServiceMutate_idem sch db1 ys hmes
      rw [← hS1] at hlkS hfixS
      simp only [hS3]
      by_cases hz : len S.1.obj.Spec.ClusterIP = 0
      · -- no cluster IP yet
        rw [if_pos hz]
        refine ⟨hS4, db1, by rw [hSfm, ← h1m]; exact hU2, fun hrot => ?_⟩
        refine ⟨hrot, P.1.obj, ?_, Or.inr ⟨?_, P.1.captured, ?_, ?_, h1i,
          S.1.obj, ?_, Or.inr ⟨hlkS, hfixS, Or.inl hz⟩⟩⟩
        · rw [hpod1, hSfp, hUp, hlkP]; rfl
        · rw [hpod1, hSfp, hUp, hlkP]
        · rw [hmut1]; exact hfixP
        · rw [hSfm]; exact hU3
        · rw [hlkS]; rfl
      · -- the address, the password and the readiness are written
        rw [if_neg hz]
        obtain ⟨-, hV2, -, hV4⟩ := Client.statusUpdateMySQL_nofault
          (db1.setAddress S.1.obj.Spec.ClusterIP) db1 S.2 hS4
          (by rw [hSfm]; exact hU2) rfl rfl
        obtain ⟨-, -, -, -, hVp, hVs, -⟩ := Client.statusUpdateMySQL_frame
          (db1.setAddress S.1.obj.Spec.ClusterIP) S.2
        generalize Client.statusUpdateMySQL (db1.setAddress S.1.obj.Spec.ClusterIP) S.2
          = U2 at *
        obtain ⟨-, hX2, -, hX4⟩ := Client.statusUpdateMySQL_nofault
          ((db1.setAddress S.1.obj.Spec.ClusterIP).setRootPassword P.1.captured)
          (db1.setAddress S.1.obj.Spec.ClusterIP) U2.2 hV4 hV2 rfl rfl
        obtain ⟨-, -, -, -, hXp, hXs, -⟩ := Client.statusUpdateMySQL_frame
          ((db1.setAddress S.1.obj.Spec.ClusterIP).setRootPassword P.1.captured) U2.2
        generalize Client.statusUpdateMySQL
          ((db1.setAddress S.1.obj.Spec.ClusterIP).setRootPassword P.1.captured) U2.2
          = U3 at *
        obtain ⟨-, hY2, hY3, hY4⟩ := Client.statusUpdateMySQL_nofault
          (((db1.setAddress S.1.obj.Spec.ClusterIP).setRootPassword P.1.captured).setReady
            (decide (P.1.obj.Status.Phase = "Running")))
          ((db1.setAddress S.1.obj.Spec.ClusterIP).setRootPassword P.1.captured)
          U3.2 hX4 hX2 rfl rfl
        obtain ⟨-, -, -, -, hYp, hYs, -⟩ := Client.statusUpdateMySQL_frame
          (((db1.setAddress S.1.obj.Spec.ClusterIP).setRootPassword P.1.captured).setReady
            (decide (P.1.obj.Status.Phase = "Running"))) U3.2
        generalize Client.statusUpdateMySQL
          (((db1.setAddress S.1.obj.Spec.ClusterIP).setRootPassword P.1.captured).setReady
            (decide (P.1.obj.Status.Phase = "Running"))) U3.2 = U4 at *
        have h4m : (((db1.setAddress S.1.obj.Spec.ClusterIP).setRootPassword
            P.1.captured).setReady (decide (P.1.obj.Status.Phase = "Running"))).toObjectMeta
            = db1.toObjectMeta := rfl
        have h4s : (((db1.setAddress S.1.obj.Spec.ClusterIP).setRootPassword
            P.1.captured).setReady (decide (P.1.obj.Status.Phase = "Running"))).Spec
            = db1.Spec := rfl
        have h4i : (((db1.setAddress S.1.obj.Spec.ClusterIP).setRootPassword
            P.1.captured).setReady (decide (P.1.obj.Status.Phase = "Running"))).Status.Initialized
            = db1.Status.Initialized := rfl
        have h4a : (((db1.setAddress S.1.obj.Spec.ClusterIP).setRootPassword
            P.1.captured).setReady (decide (P.1.obj.Status.Phase = "Running"))).Status.Address
            = S.1.obj.Spec.ClusterIP := rfl
        have h4p : (((db1.setAddress S.1.obj.Spec.ClusterIP).setRootPassword
            P.1.captured).setReady (decide (P.1.obj.Status.Phase = "Running"))).Status.RootPassword
            = P.1.captured := rfl
        have h4r : (((db1.setAddress S.1.obj.Spec.ClusterIP).setRootPassword
            P.1.captured).setReady (decide (P.1.obj.Status.Phase = "Running"))).Status.Ready
            = decide (P.1.obj.Status.Phase = "Running") := rfl
        generalize ((db1.setAddress S.1.obj.Spec.ClusterIP).setRootPassword
            P.1.captured).setReady (decide (P.1.obj.Status.Phase = "Running")) = db4 at *
        have h4m0 : db4.toObjectMeta = db.toObjectMeta := h4m.trans h1m
        refine ⟨hY4, db4, by rw [← h4m0]; exact hY2, fun hrot => ?_⟩
        refine ⟨hrot, P.1.obj, ?_, Or.inr ⟨?_, P.1.captured, ?_, hY3, by rw [h4i, h1i],
          S.1.obj, ?_, Or.inr ⟨?_, ?_, Or.inr ⟨h4a, h4p, h4r⟩⟩⟩⟩
        · rw [mysqlPod_congr _ _ h4m0, hYp, hXp, hVp, hSfp, hUp, hlkP]; rfl
        · rw [mysqlPod_congr _ _ h4m0, hYp, hXp, hVp, hSfp, hUp, hlkP]
        · rw [mysqlPodMutate_congr sch _ _ h4m0 (h4s.trans h1s)]; exact hfixP
        · rw [mysqlService_congr _ _ h4m, hYs, hXs, hVs, hlkS]; rfl
        · rw [mysqlService_congr _ _ h4m, hYs, hXs, hVs, hlkS]
        · rw [mysqlServiceMutate_congr sch _ _ h4m]; exact hfixS
    · -- the mutate function of the Service fails
      rw [hmes] at hS3
      have hSw := hS6 (by rw [hmes]; simp)
      simp only [hS3]
      have hSs : S.2.store = U1.2.store := by rw [hSw]; exact hgS4
      refine ⟨hS4, db1, by rw [hSs, ← h1m]; exact hU2, fun hrot => ?_⟩
      refine ⟨hrot, P.1.obj, ?_, Or.inr ⟨?_, P.1.captured, ?_, ?_, h1i,
        ys, ?_, Or.inl ?_⟩⟩
      · rw [hpod1, hSs, hUp, hlkP]; rfl
      · rw [hpod1, hSs, hUp, hlkP]
      · rw [hmut1]; exact hfixP
      · rw [hSs]; exact hU3
      · rw [hSs, hys]
      · rw [hmes]; simp
  · -- the mutate function of the Pod fails
    rw [hme] at hP3
    have hPw := hP6 (by rw [hme]; simp)
    simp only [hP3]
    have hPs : P.2.store = v.store := by rw [hPw, hmq, hgP4]
    refine ⟨hP4, db, by rw [hPs, hvm]; exact hlk, fun hrot => ?_⟩
    have hvw2 := hvw hrot
    subst hvw2
    refine ⟨hrot, y, by rw [hPs, hy], Or.inl ?_⟩
    rw [← hmerr, hme]; simp

theorem MySQLReconciler.Reconcile_mysql_sync (sch : Scheme) (req : NamespacedName) (w : World)
    (db : MySQL)
    (hget : (Client.getMySQL req { w with trace := [] }).1 = .ok db) :
    MySQLReconciler.Reconcile sch req w
      = MySQLReconciler.sync sch db (Client.getMySQL req { w with trace := [] }).2 := by
  unfold MySQLReconciler.Reconcile
  simp only [hget]

/-- The second of two MySQL passes in a row, without store failures, when the
first leaves a record whose explicit credential is empty or recorded in its
status. -/
theorem MySQLReconciler.mysql_second_pass (sch : Scheme)
    (req : NamespacedName) (w : World) (hw : w.faults = [])
    (hcred : ∀ db, lookup MySQL.toObjectMeta req (MySQLReconciler.Reconcile sch req w).2.store.mysqls
        = some db →
      db.Spec.Authentication.RootPassword = ""
        ∨ db.Spec.Authentication.RootPassword = db.Status.RootPassword) :
    (MySQLReconciler.Reconcile sch req (MySQLReconciler.Reconcile sch req w).2).2.store
        = (MySQLReconciler.Reconcile sch req w).2.store
    ∧ ∀ ev ∈ (MySQLReconciler.Reconcile sch req (MySQLReconciler.Reconcile sch req w).2).2.trace,
        ev.op.isChildWrite = false := by
  obtain ⟨hg1, hg2⟩ := Client.getMySQL_nofault req { w with trace := [] } hw
  obtain ⟨hgt, -, -, hgs⟩ := Client.getMySQL_frame req { w with trace := [] }
  simp only at hg1 hgs
  rcases hlk : lookup MySQL.toObjectMeta req w.store.mysqls with _ | db
  · -- no record
    have step_none : ∀ v : World, v.faults = [] →
        lookup MySQL.toObjectMeta req v.store.mysqls = none →
        (MySQLReconciler.Reconcile sch req v).2.store = v.store
        ∧ (MySQLReconciler.Reconcile sch req v).2.faults = []
        ∧ ∀ ev ∈ (MySQLReconciler.Reconcile sch req v).2.trace, ev.op.isChildWrite = false := by
      intro v hv hl
      obtain ⟨h1, h2⟩ := Client.getMySQL_nofault req { v with trace := [] } hv
      obtain ⟨ht, -, -, hs⟩ := Client.getMySQL_frame req { v with trace := [] }
      simp only at h1
      rw [hl] at h1
      rw [MySQLReconciler.Reconcile_unread sch req v .notFound h1]
      refine ⟨hs, h2, ?_⟩
      intro ev hev
      simp only [ht, List.nil_append, List.mem_singleton] at hev
      subst hev
      rfl
    obtain ⟨a1, a2, -⟩ := step_none w hw hlk
    obtain ⟨b1, -, b3⟩ := step_none (MySQLReconciler.Reconcile sch req w).2 a2
      (by rw [a1]; exact hlk)
    exact ⟨b1, b3⟩
  · have hkey := lookup_key _ _ _ _ hlk
    rw [hlk] at hg1
    simp only [found] at hg1
    revert hcred
    rw [MySQLReconciler.Reconcile_mysql_sync sch req w db hg1]
    intro hcred
    obtain ⟨c1, db2, c2, c3⟩ := MySQLReconciler.mysql_sync_stable sch db
      (Client.getMySQL req { w with trace := [] }).2 hg2 (by rw [hgs, hkey]; exact hlk)
    rw [hkey] at c2
    generalize MySQLReconciler.sync sch db
      (Client.getMySQL req { w with trace := [] }).2 = R at *
    have hrot : ¬ (len db2.Spec.Authentication.RootPassword > 0
        ∧ db2.Spec.Authentication.RootPassword ≠ db2.Status.RootPassword) := by
      rintro ⟨hlen, hne⟩
      rcases hcred db2 c2 with h | h
      · rw [h] at hlen
        exact absurd hlen (by decide)
      · exact hne h
    have c5 := c3 hrot
    obtain ⟨h1, h2⟩ := Client.getMySQL_nofault req { R.2 with trace := [] } c1
    obtain ⟨ht, -, -, hs⟩ := Client.getMySQL_frame req { R.2 with trace := [] }
    simp only at h1 hs
    rw [c2] at h1
    simp only [found] at h1
    rw [MySQLReconciler.Reconcile_mysql_sync sch req R.2 db2 h1]
    obtain ⟨d1, d2⟩ := MySQLReconciler.mysql_stable_noop sch db2
      (Client.getMySQL req { R.2 with trace := [] }).2 h2 (by rw [hs]; exact c5)
    refine ⟨d1.trans hs, ?_⟩
    intro ev hev
    rcases d2 ev hev with h | h
    · simp only [ht, List.nil_append, List.mem_singleton] at h
      subst h
      rfl
    · exact h

/-! ## What a successful upsert of the Pod leaves in the store -/

theorem Client.getPod_ok (k : NamespacedName) (w : World) (x : Pod)
    (h : (Client.getPod k w).1 = .ok x) :
    lookup Pod.toObjectMeta k w.store.pods = some x := by
  unfold Client.getPod World.call at h
  split at h
  · simp at h
  · simp only [found] at h
    split at h
    · simp at h; simp [*]
    · simp at h

theorem Client.getPod_notFound (k : NamespacedName) (w : World) (e : Err)
    (hl : lookup Pod.toObjectMeta k w.store.pods = none)
    (h : (Client.getPod k w).1 = .error e) (hw : e = .notFound ∨ w.faults = []) :
    e = .notFound := by
  rcases hw with hw | hw
  · exact hw
  · unfold Client.getPod World.call at h
    simp only [hw, hl, found] at h
    cases h
    rfl

theorem Client.createPod_ok (x : Pod) (w : World)
    (h : (Client.createPod x w).1 = none) :
    lookup Pod.toObjectMeta (keyOf x.toObjectMeta) w.store.pods = none
    ∧ lookup Pod.toObjectMeta (keyOf x.toObjectMeta) (Client.createPod x w).2.store.pods
        = some x := by
  unfold Client.createPod World.call insertNew at *
  split at h
  · simp [errOf] at h
  · simp only at h ⊢
    rcases hl : lookup Pod.toObjectMeta (keyOf x.toObjectMeta) w.store.pods with _ | old
    · simp only [hl]
      exact ⟨trivial, lookup_append_new Pod.toObjectMeta x _ hl⟩
    · simp [hl, errOf] at h

theorem Client.updatePod_ok (x : Pod) (w : World)
    (h : (Client.updatePod x w).1 = none) :
    lookup Pod.toObjectMeta (keyOf x.toObjectMeta) (Client.updatePod x w).2.store.pods
      = some x := by
  unfold Client.updatePod World.call overwrite at *
  split at h
  · simp [errOf] at h
  · simp only at h ⊢
    rcases hl : lookup Pod.toObjectMeta (keyOf x.toObjectMeta) w.store.pods with _ | old
    · simp [hl, errOf] at h
    · simp only [hl]
      exact lookup_replace Pod.toObjectMeta x old _ hl

/-- A successful upsert of a Pod, under any failure schedule: the mutate
function ran on the Pod that the store held (on `obj` when it held none), and
the store holds its outcome afterwards. -/
theorem CreateOrUpdate_pod_stored {β : Type} (obj : Pod) (b : β)
    (f : Pod → β → World → (Pod × β × Option Err) × World) (hq : Quiet f)
    (hk : ∀ y b v, keyOf (f y b v).1.1.toObjectMeta = keyOf y.toObjectMeta)
    (w : World) (hok : (CreateOrUpdate podClient obj b f w).1.err = none) :
    (CreateOrUpdate podClient obj b f w).1.obj
        = (f ((lookup Pod.toObjectMeta (keyOf obj.toObjectMeta) w.store.pods).getD obj) b
            (Client.getPod (keyOf obj.toObjectMeta) w).2).1.1
    ∧ (CreateOrUpdate podClient obj b f w).1.captured
        = (f ((lookup Pod.toObjectMeta (keyOf obj.toObjectMeta) w.store.pods).getD obj) b
            (Client.getPod (keyOf obj.toObjectMeta) w).2).1.2.1
    ∧ lookup Pod.toObjectMeta (keyOf obj.toObjectMeta)
        (CreateOrUpdate podClient obj b f w).2.store.pods
        = some (CreateOrUpdate podClient obj b f w).1.obj := by
  obtain ⟨-, -, -, hgs⟩ := Client.getPod_frame (keyOf obj.toObjectMeta) w
  unfold CreateOrUpdate at hok ⊢
  simp only [podClient] at hok ⊢
  rcases hg : (Client.getPod (keyOf obj.toObjectMeta) w).1 with e | existing
  · simp only [hg] at hok ⊢
    by_cases hnf : e = .notFound
    · simp only [hnf, if_true] at hok ⊢
      obtain ⟨-, -, hms⟩ := hq obj b (Client.getPod (keyOf obj.toObjectMeta) w).2
      have hkk := hk obj b (Client.getPod (keyOf obj.toObjectMeta) w).2
      rcases hme : (f obj b (Client.getPod (keyOf obj.toObjectMeta) w).2).1.2.2 with _ | e1
      · simp only [hme] at hok ⊢
        rcases hcr : (Client.createPod (f obj b (Client.getPod (keyOf obj.toObjectMeta) w).2).1.1
            (f obj b (Client.getPod (keyOf obj.toObjectMeta) w).2).2).1 with _ | e2
        · simp only [hcr] at hok ⊢
          obtain ⟨c1, c2⟩ := Client.createPod_ok _ _ hcr
          rw [hkk, hms, hgs] at c1
          rw [hkk] at c2
          rw [c1]
          simp only [Option.getD_none]
          exact ⟨trivial, trivial, c2⟩
        · simp [hcr] at hok
      · simp [hme] at hok
    · simp [hnf] at hok
  · simp only [hg] at hok ⊢
    have hlk := Client.getPod_ok _ _ _ hg
    have hkx := lookup_key _ _ _ _ hlk
    rw [hlk]
    simp only [Option.getD_some]
    obtain ⟨-, -, hms⟩ := hq existing b (Client.getPod (keyOf obj.toObjectMeta) w).2
    have hkk := hk existing b (Client.getPod (keyOf obj.toObjectMeta) w).2
    generalize f existing b (Client.getPod (keyOf obj.toObjectMeta) w).2 = m at *
    rcases hme : m.1.2.2 with _ | e1
    · simp only [hme] at hok ⊢
      by_cases heq : existing = m.1.1
      · rw [if_pos heq]
        refine ⟨rfl, rfl, ?_⟩
        simp only
        rw [hms, hgs, ← heq]
        exact hlk
      · rw [if_neg heq] at hok ⊢
        rcases hup : (Client.updatePod m.1.1 m.2).1 with _ | e2
        · simp only [hup] at hok ⊢
          have c2 := Client.updatePod_ok m.1.1 m.2 hup
          rw [hkk, hkx] at c2
          exact ⟨trivial, trivial, c2⟩
        · simp [hup] at hok
    · simp [hme] at hok

/-- A successful upsert of a Pod that the store does not hold, when the read
is not made to fail otherwise: the calls are the read, which reports
not-found, and the create. -/
theorem CreateOrUpdate_pod_fresh {β : Type} (obj : Pod) (b : β)
    (f : Pod → β → World → (Pod × β × Option Err) × World) (hq : Quiet f)
    (w : World) (hl : lookup Pod.toObjectMeta (keyOf obj.toObjectMeta) w.store.pods = none)
    (hok : (CreateOrUpdate podClient obj b f w).1.err = none) :
    (CreateOrUpdate podClient obj b f w).2.trace
      = w.trace ++ [⟨.getPod (keyOf obj.toObjectMeta), some .notFound⟩,
          ⟨.createPod (CreateOrUpdate podClient obj b f w).1.obj, none⟩] := by
  obtain ⟨hgt, -, -, hgs⟩ := Client.getPod_frame (keyOf obj.toObjectMeta) w
  unfold CreateOrUpdate at hok ⊢
  simp only [podClient] at hok ⊢
  rcases hg : (Client.getPod (keyOf obj.toObjectMeta) w).1 with e | existing
  · simp only [hg] at hok ⊢
    rw [hg] at hgt
    by_cases hnf : e = .notFound
    · simp only [hnf, if_true] at hok ⊢
      subst hnf
      obtain ⟨hmt, -, -⟩ := hq obj b (Client.getPod (keyOf obj.toObjectMeta) w).2
      generalize f obj b (Client.getPod (keyOf obj.toObjectMeta) w).2 = m at *
      rcases hme : m.1.2.2 with _ | e1
      · simp only [hme] at hok ⊢
        obtain ⟨hct, -⟩ := Client.createPod_frame m.1.1 m.2
        rcases hcr : (Client.createPod m.1.1 m.2).1 with _ | e2
        · simp only [hcr] at hok ⊢
          rw [hct, hcr, hmt, hgt]
          simp [errOf]
        · simp [hcr] at hok
      · simp [hme] at hok
    · simp [hnf] at hok
  · have := Client.getPod_ok _ _ _ hg
    rw [hl] at this
    cases this

theorem uuidNew_random (w v : World) (h : w.random = v.random) : (uuidNew w).1 = (uuidNew v).1 := by
  unfold uuidNew
  rw [h]
  split <;> rfl

theorem mysqlPassword_rule (db : MySQL) (current : String) (w : World) :
    (mysqlPassword db current w).1
      = (if db.Spec.Authentication.RootPassword ≠ "" then db.Spec.Authentication.RootPassword
         else if current ≠ "" then current else (uuidNew w).1) := by
  unfold mysqlPassword
  by_cases hs : db.Spec.Authentication.RootPassword = ""
  · by_cases hv : current = ""
    · simp [hs, hv, show len "" = 0 from rfl]
    · have : len current ≠ 0 := fun h => hv ((len_eq_zero _).mp h)
      simp [hs, hv, this, show len "" = 0 from rfl]
  · have h0 : len db.Spec.Authentication.RootPassword > 0 :=
      Nat.pos_of_ne_zero (fun h => hs ((len_eq_zero _).mp h))
    simp [h0, hs]

theorem mysqlPodMutate_fresh (sch : Scheme) (db : MySQL) (pod : Pod) (b : String) (w : World)
    (h : pod.OwnerReferences = []) :
    (mysqlPodMutate sch db pod b w).1.2.2 = none := by
  unfold mysqlPodMutate
  simp [h, SetControllerReference, GetControllerOf]

/-- What `createPod` returns and leaves, under any failure schedule, when it
returns without error. -/
theorem MySQLReconciler.createPod_stored (sch : Scheme) (db : MySQL) (pod : Pod) (w : World)
    (hok : (MySQLReconciler.createPod sch db pod w).1.err = none) :
    (MySQLReconciler.createPod sch db pod w).1.captured
        = (if db.Spec.Authentication.RootPassword ≠ "" then db.Spec.Authentication.RootPassword
           else if firstValue (firstEnv ((lookup Pod.toObjectMeta (keyOf pod.toObjectMeta)
                w.store.pods).getD pod).Spec.Containers) ≠ "" then
             firstValue (firstEnv ((lookup Pod.toObjectMeta (keyOf pod.toObjectMeta)
                w.store.pods).getD pod).Spec.Containers)
           else (uuidNew w).1)
    ∧ lookup Pod.toObjectMeta (keyOf pod.toObjectMeta)
        (MySQLReconciler.createPod sch db pod w).2.store.pods
        = some (MySQLReconciler.createPod sch db pod w).1.obj
    ∧ firstValue (firstEnv (MySQLReconciler.createPod sch db pod w).1.obj.Spec.Containers)
        = (MySQLReconciler.createPod sch db pod w).1.captured := by
  have key : ∀ v : World, v.random = w.random →
      (CreateOrUpdate podClient pod "" (mysqlPodMutate sch db) v).1.err = none →
      (CreateOrUpdate podClient pod "" (mysqlPodMutate sch db) v).1.captured
          = (if db.Spec.Authentication.RootPassword ≠ "" then db.Spec.Authentication.RootPassword
             else if firstValue (firstEnv ((lookup Pod.toObjectMeta (keyOf pod.toObjectMeta)
                  v.store.pods).getD pod).Spec.Containers) ≠ "" then
               firstValue (firstEnv ((lookup Pod.toObjectMeta (keyOf pod.toObjectMeta)
                  v.store.pods).getD pod).Spec.Containers)
             else (uuidNew w).1)
      ∧ lookup Pod.toObjectMeta (keyOf pod.toObjectMeta)
          (CreateOrUpdate podClient pod "" (mysqlPodMutate sch db) v).2.store.pods
          = some (CreateOrUpdate podClient pod "" (mysqlPodMutate sch db) v).1.obj
      ∧ firstValue (firstEnv
          (CreateOrUpdate podClient pod "" (mysqlPodMutate sch db) v).1.obj.Spec.Containers)
          = (CreateOrUpdate podClient pod "" (mysqlPodMutate sch db) v).1.captured := by
    intro v hv hokv
    obtain ⟨h1, h2, h3⟩ := CreateOrUpdate_pod_stored pod "" (mysqlPodMutate sch db)
      (quiet_mysqlPodMutate sch db) (fun y b v => (mysqlPodMutate_key sch db y b v).1) v hokv
    obtain ⟨-, -, hgr, -⟩ := Client.getPod_frame (keyOf pod.toObjectMeta) v
    obtain ⟨k1, k2, -⟩ := mysqlPodMutate_password sch db
      ((lookup Pod.toObjectMeta (keyOf pod.toObjectMeta) v.store.pods).getD pod) ""
      (Client.getPod (keyOf pod.toObjectMeta) v).2
    refine ⟨?_, h3, ?_⟩
    · rw [h2, k1, mysqlPassword_rule,
        uuidNew_random (Client.getPod (keyOf pod.toObjectMeta) v).2 w (hgr.trans hv)]
    · rw [h1, h2, k1, k2]
  by_cases hc : len db.Spec.Authentication.RootPassword > 0
      ∧ db.Spec.Authentication.RootPassword ≠ db.Status.RootPassword
  · have hs : db.Spec.Authentication.RootPassword ≠ "" := by
      intro h
      rw [h] at hc
      exact absurd hc.1 (by decide)
    obtain ⟨-, -, hdr, -⟩ := Client.deletePod_frame pod w
    unfold MySQLReconciler.createPod at hok ⊢
    rw [if_pos hc] at hok ⊢
    simp only at hok ⊢
    have fin : ∀ v : World, v.random = w.random →
        (CreateOrUpdate podClient pod "" (mysqlPodMutate sch db) v).1.err = none →
        (CreateOrUpdate podClient pod "" (mysqlPodMutate sch db) v).1.captured
            = (if db.Spec.Authentication.RootPassword ≠ "" then
                db.Spec.Authentication.RootPassword
               else if firstValue (firstEnv ((lookup Pod.toObjectMeta (keyOf pod.toObjectMeta)
                    w.store.pods).getD pod).Spec.Containers) ≠ "" then
                 firstValue (firstEnv ((lookup Pod.toObjectMeta (keyOf pod.toObjectMeta)
                    w.store.pods).getD pod).Spec.Containers)
               else (uuidNew w).1)
        ∧ lookup Pod.toObjectMeta (keyOf pod.toObjectMeta)
            (CreateOrUpdate podClient pod "" (mysqlPodMutate sch db) v).2.store.pods
            = some (CreateOrUpdate podClient pod "" (mysqlPodMutate sch db) v).1.obj
        ∧ firstValue (firstEnv
            (CreateOrUpdate podClient pod "" (mysqlPodMutate sch db) v).1.obj.Spec.Containers)
            = (CreateOrUpdate podClient pod "" (mysqlPodMutate sch db) v).1.captured := by
      intro v hv hokv
      obtain ⟨a1, a2, a3⟩ := key v hv hokv
      refine ⟨?_, a2, a3⟩
      rw [a1, if_pos hs, if_pos hs]
    rcases hde : (Client.deletePod pod w).1 with _ | e
    · simp only [hde] at hok ⊢
      exact fin _ hdr hok
    · simp only [hde] at hok ⊢
      by_cases hne : e = .notFound
      · simp only [hne, ne_eq, not_true_eq_false, if_false] at hok ⊢
        exact fin _ hdr hok
      · simp [hne] at hok
  · rw [MySQLReconciler.createPod_steady sch db pod w hc] at hok ⊢
    exact key w rfl hok

theorem Client.deletePod_absent (p : Pod) (w : World)
    (h : (Client.deletePod p w).1 = none ∨ w.faults = []) :
    lookup Pod.toObjectMeta (keyOf p.toObjectMeta) (Client.deletePod p w).2.store.pods = none := by
  unfold Client.deletePod World.call erase at *
  rcases hf : w.faults with _ | ⟨_ | e, fs⟩
  · simp only [hf] at h ⊢
    rcases hl : lookup Pod.toObjectMeta (keyOf p.toObjectMeta) w.store.pods with _ | x
    · simpa using hl
    · simp only
      exact lookup_remove Pod.toObjectMeta _ _
  · simp only [hf] at h ⊢
    rcases hl : lookup Pod.toObjectMeta (keyOf p.toObjectMeta) w.store.pods with _ | x
    · simpa using hl
    · simp only
      exact lookup_remove Pod.toObjectMeta _ _
  · simp [hf, errOf] at h

/-- The rotation branch of `createPod` when the delete removes the Pod or
finds none: the upsert runs on a store without the Pod. -/
theorem MySQLReconciler.createPod_rotating (sch : Scheme) (db : MySQL) (pod : Pod) (w : World)
    (hc : len db.Spec.Authentication.RootPassword > 0
      ∧ db.Spec.Authentication.RootPassword ≠ db.Status.RootPassword)
    (h : (Client.deletePod pod w).1 = none ∨ w.faults = []) :
    MySQLReconciler.createPod sch db pod w
        = CreateOrUpdate podClient pod "" (mysqlPodMutate sch db) (Client.deletePod pod w).2
    ∧ lookup Pod.toObjectMeta (keyOf pod.toObjectMeta) (Client.deletePod pod w).2.store.pods
        = none := by
  refine ⟨?_, Client.deletePod_absent pod w h⟩
  unfold MySQLReconciler.createPod
  rw [if_pos hc]
  have hd : (Client.deletePod pod w).1 = none ∨ (Client.deletePod pod w).1 = some .notFound := by
    rcases h with h | h
    · exact Or.inl h
    · exact (Client.deletePod_nofault pod w h).1
  rcases hd with h | h
  · simp only [h]
  · simp only [h, ne_eq, not_true_eq_false, if_false]

/-- The calls of the rotation branch of `createPod` when it returns without
error after a delete that removed the Pod or found none: the delete, the read
that reports not-found, and the create of the Pod that is returned. -/
theorem MySQLReconciler.createPod_recreates (sch : Scheme) (db : MySQL) (pod : Pod) (w : World)
    (hc : len db.Spec.Authentication.RootPassword > 0
      ∧ db.Spec.Authentication.RootPassword ≠ db.Status.RootPassword)
    (h : (Client.deletePod pod w).1 = none ∨ w.faults = [])
    (hok : (MySQLReconciler.createPod sch db pod w).1.err = none) :
    (MySQLReconciler.createPod sch db pod w).2.trace
      = w.trace ++ [⟨.deletePod pod, (Client.deletePod pod w).1⟩,
          ⟨.getPod (keyOf pod.toObjectMeta), some .notFound⟩,
          ⟨.createPod (MySQLReconciler.createPod sch db pod w).1.obj, none⟩] := by
  obtain ⟨h1, h2⟩ := MySQLReconciler.createPod_rotating sch db pod w hc h
  obtain ⟨hdt, -⟩ := Client.deletePod_frame pod w
  rw [h1] at hok ⊢
  rw [CreateOrUpdate_pod_fresh pod "" (mysqlPodMutate sch db) (quiet_mysqlPodMutate sch db)
    _ h2 hok, hdt]
  simp

theorem mysqlPodMutate_owner (sch : Scheme) (db : MySQL) (pod : Pod) (b : String) (w : World)
    (e : Err) (h : (mysqlPodMutate sch db pod b w).1.2.2 = some e) :
    SetControllerReference sch "MySQL" db.toObjectMeta pod.OwnerReferences = .error e := by
  unfold mysqlPodMutate at h
  simp only at h
  split at h
  · rename_i e1 he
    simp only [Option.some.injEq] at h
    subst h
    exact he
  · simp at h

/-- Without store failures `createPod` returns an error only when the Pod it
mutates is controlled by another owner. -/
theorem MySQLReconciler.createPod_total (sch : Scheme) (db : MySQL) (pod : Pod) (w : World)
    (hw : w.faults = []) :
    (MySQLReconciler.createPod sch db pod w).1.err = none
    ∨ ∃ y e, (lookup Pod.toObjectMeta (keyOf pod.toObjectMeta) w.store.pods = some y ∨ y = pod)
        ∧ SetControllerReference sch "MySQL" db.toObjectMeta y.OwnerReferences = .error e := by
  have key : ∀ v : World, v.faults = [] →
      (CreateOrUpdate podClient pod "" (mysqlPodMutate sch db) v).1.err = none
      ∨ ∃ e, SetControllerReference sch "MySQL" db.toObjectMeta
          ((lookup Pod.toObjectMeta (keyOf pod.toObjectMeta) v.store.pods).getD pod).OwnerReferences
            = .error e := by
    intro v hv
    obtain ⟨-, -, h3, -⟩ := CreateOrUpdate_nofault podClient
      (fun s => s.pods) podClient_lawful podClient_faithful
      pod "" (mysqlPodMutate sch db) (quiet_mysqlPodMutate sch db)
      (fun y b v => (mysqlPodMutate_key sch db y b v).1) v hv _ rfl _ rfl
    rw [h3]
    simp only [podClient]
    rcases hme : (mysqlPodMutate sch db
        ((lookup Pod.toObjectMeta (keyOf pod.toObjectMeta) v.store.pods).getD pod) ""
        (Client.getPod (keyOf pod.toObjectMeta) v).2).1.2.2 with _ | e
    · exact Or.inl rfl
    · exact Or.inr ⟨e, mysqlPodMutate_owner sch db _ _ _ e hme⟩
  by_cases hc : len db.Spec.Authentication.RootPassword > 0
      ∧ db.Spec.Authentication.RootPassword ≠ db.Status.RootPassword
  · obtain ⟨h1, h2⟩ := MySQLReconciler.createPod_rotating sch db pod w hc (Or.inr hw)
    rw [h1]
    rcases key _ (Client.deletePod_nofault pod w hw).2 with h | ⟨e, he⟩
    · exact Or.inl h
    · rw [h2] at he
      exact Or.inr ⟨pod, e, Or.inr rfl, he⟩
  · rw [MySQLReconciler.createPod_steady sch db pod w hc]
    rcases key w hw with h | ⟨e, he⟩
    · exact Or.inl h
    · rcases hl : lookup Pod.toObjectMeta (keyOf pod.toObjectMeta) w.store.pods with _ | y
      · rw [hl] at he
        exact Or.inr ⟨pod, e, Or.inr rfl, he⟩
      · rw [hl] at he
        exact Or.inr ⟨y, e, Or.inl rfl, he⟩

/-- Without store failures the rotation branch of `createPod` on the Pod the
pass starts from returns without error. -/
theorem MySQLReconciler.createPod_rotation_ok (sch : Scheme) (db : MySQL) (w : World)
    (hc : len db.Spec.Authentication.RootPassword > 0
      ∧ db.Spec.Authentication.RootPassword ≠ db.Status.RootPassword)
    (hw : w.faults = []) :
    (MySQLReconciler.createPod sch db (mysqlPod db) w).1.err = none := by
  obtain ⟨h1, h2⟩ := MySQLReconciler.createPod_rotating sch db (mysqlPod db) w hc (Or.inr hw)
  rw [h1]
  obtain ⟨-, -, h3, -⟩ := CreateOrUpdate_nofault podClient
    (fun s => s.pods) podClient_lawful podClient_faithful
    (mysqlPod db) "" (mysqlPodMutate sch db) (quiet_mysqlPodMutate sch db)
    (fun y b v => (mysqlPodMutate_key sch db y b v).1) (Client.deletePod (mysqlPod db) w).2
    (Client.deletePod_nofault (mysqlPod db) w hw).2 _ rfl _ rfl
  rw [h3]
  simp only [podClient]
  rw [h2]
  exact mysqlPodMutate_fresh sch db (mysqlPod db) "" _ rfl

/-- What the rest of a MySQL pass adds to what `createPod` leaves: further
calls in the log, no change of the Pods, and no error unless `createPod`
returned one. -/
theorem MySQLReconciler.sync_after_createPod (sch : Scheme) (db : MySQL) (w : World) :
    (∃ later, (MySQLReconciler.sync sch db w).2.trace
        = (MySQLReconciler.createPod sch db (mysqlPod db) w).2.trace ++ later
      ∧ ∀ ev ∈ later, ev.op.isChildDelete = false)
    ∧ (MySQLReconciler.sync sch db w).2.store.pods
        = (MySQLReconciler.createPod sch db (mysqlPod db) w).2.store.pods
    ∧ ((MySQLReconciler.sync sch db w).1.2 = none →
        (MySQLReconciler.createPod sch db (mysqlPod db) w).1.err = none) := by
  rw [MySQLReconciler.mysql_sync_eq]
  generalize MySQLReconciler.createPod sch db (mysqlPod db) w = P
  simp only
  rcases hpe : P.1.err with _ | e
  · simp only
    obtain ⟨hu1, -, -, -, hup, -, -⟩ := Client.statusUpdateMySQL_frame (db.setInitialized true) P.2
    generalize Client.statusUpdateMySQL (db.setInitialized true) P.2 = U1 at *
    obtain ⟨evs, hs1, -, -, hs4, -, -⟩ := CreateOrUpdate_summary serviceClient
      serviceClient_lawful (mysqlService (db.setInitialized true)) ()
      (fun s b x => (((mysqlServiceMutate sch (db.setInitialized true) s).1, b,
        (mysqlServiceMutate sch (db.setInitialized true) s).2), x)) (quiet_pure _) U1.2
    obtain ⟨-, -, hsp, -⟩ := CreateOrUpdate_service_frame (mysqlService (db.setInitialized true)) ()
      (fun s b x => (((mysqlServiceMutate sch (db.setInitialized true) s).1, b,
        (mysqlServiceMutate sch (db.setInitialized true) s).2), x)) (quiet_pure _) U1.2
    generalize CreateOrUpdate serviceClient (mysqlService (db.setInitialized true)) ()
      (fun s b x => (((mysqlServiceMutate sch (db.setInitialized true) s).1, b,
        (mysqlServiceMutate sch (db.setInitialized true) s).2), x)) U1.2 = S at *
    have hnd : ∀ ev ∈ ⟨.statusUpdateMySQL (db.setInitialized true), U1.1⟩ :: evs,
        ev.op.isChildDelete = false := by
      intro ev hev
      rcases List.mem_cons.mp hev with h | h
      · subst h; rfl
      · have := hs4 ev h
        revert this
        cases ev.op <;> simp [Op.isUpsertCall, Op.isGet, Op.isChildCreate, Op.isChildUpdate,
          Op.isChildDelete]
    have hS : S.2.trace = P.2.trace
        ++ ⟨.statusUpdateMySQL (db.setInitialized true), U1.1⟩ :: evs := by
      rw [hs1, hu1]; simp
    have hSp : S.2.store.pods = P.2.store.pods := by rw [hsp, hup]
    rcases hse : S.1.err with _ | e
    · simp only
      by_cases hz : len S.1.obj.Spec.ClusterIP = 0
      · rw [if_pos hz]
        exact ⟨⟨_, hS, hnd⟩, hSp, fun _ => trivial⟩
      · rw [if_neg hz]
        obtain ⟨hv1, -, -, -, hvp, -, -⟩ := Client.statusUpdateMySQL_frame
          ((db.setInitialized true).setAddress S.1.obj.Spec.ClusterIP) S.2
        generalize Client.statusUpdateMySQL
          ((db.setInitialized true).setAddress S.1.obj.Spec.ClusterIP) S.2 = U2 at *
        obtain ⟨hx1, -, -, -, hxp, -, -⟩ := Client.statusUpdateMySQL_frame
          (((db.setInitialized true).setAddress S.1.obj.Spec.ClusterIP).setRootPassword
            P.1.captured) U2.2
        generalize Client.statusUpdateMySQL
          (((db.setInitialized true).setAddress S.1.obj.Spec.ClusterIP).setRootPassword
            P.1.captured) U2.2 = U3 at *
        obtain ⟨hy1, -, -, -, hyp, -, -⟩ := Client.statusUpdateMySQL_frame
          ((((db.setInitialized true).setAddress S.1.obj.Spec.ClusterIP).setRootPassword
            P.1.captured).setReady (decide (P.1.obj.Status.Phase = "Running"))) U3.2
        generalize Client.statusUpdateMySQL
          ((((db.setInitialized true).setAddress S.1.obj.Spec.ClusterIP).setRootPassword
            P.1.captured).setReady (decide (P.1.obj.Status.Phase = "Running"))) U3.2 = U4 at *
        refine ⟨⟨(⟨.statusUpdateMySQL (db.setInitialized true), U1.1⟩ :: evs)
          ++ [⟨.statusUpdateMySQL
                ((db.setInitialized true).setAddress S.1.obj.Spec.ClusterIP), U2.1⟩,
              ⟨.statusUpdateMySQL
                (((db.setInitialized true).setAddress S.1.obj.Spec.ClusterIP).setRootPassword
                  P.1.captured), U3.1⟩,
              ⟨.statusUpdateMySQL
                ((((db.setInitialized true).setAddress S.1.obj.Spec.ClusterIP).setRootPassword
                  P.1.captured).setReady (decide (P.1.obj.Status.Phase = "Running"))), U4.1⟩],
          ?_, ?_⟩, ?_, fun _ => trivial⟩
        · rw [hy1, hx1, hv1, hS]
          simp
        · intro ev hev
          rcases List.mem_append.mp hev with h | h
          · exact hnd ev h
          · simp at h
            rcases h with h | h | h <;> (subst h; rfl)
        · rw [hyp, hxp, hvp, hSp]
    · simp only
      exact ⟨⟨_, hS, hnd⟩, hSp, fun h => by simp at h⟩
  · simp only
    exact ⟨⟨[], by simp, by simp⟩, trivial, fun h => by simp at h⟩

/-- The calls of a MySQL pass after a `createPod` without error: the first
status update, whatever its outcome, is followed by the calls of the Service
upsert; either the pass ends with these, or three more status updates
follow, whatever their outcomes, and the pass returns no error. -/
theorem MySQLReconciler.sync_shape (sch : Scheme) (db : MySQL) (w : World)
    (hok : (MySQLReconciler.createPod sch db (mysqlPod db) w).1.err = none) :
    ∃ m1 e1 evs, evs ≠ [] ∧ (∀ ev ∈ evs, ev.op.isUpsertCall = true)
      ∧ m1.Status.Initialized = true
      ∧ ((MySQLReconciler.sync sch db w).2.trace
            = (MySQLReconciler.createPod sch db (mysqlPod db) w).2.trace
              ++ ⟨.statusUpdateMySQL m1, e1⟩ :: evs
        ∨ ∃ m2 e2 m3 e3 m4 e4,
            (MySQLReconciler.sync sch db w).2.trace
              = (MySQLReconciler.createPod sch db (mysqlPod db) w).2.trace
                ++ ⟨.statusUpdateMySQL m1, e1⟩ :: evs
                ++ [⟨.statusUpdateMySQL m2, e2⟩, ⟨.statusUpdateMySQL m3, e3⟩,
                    ⟨.statusUpdateMySQL m4, e4⟩]
            ∧ (MySQLReconciler.sync sch db w).1.2 = none) := by
  revert hok
  rw [MySQLReconciler.mysql_sync_eq]
  generalize MySQLReconciler.createPod sch db (mysqlPod db) w = P
  intro hok
  simp only [hok]
  obtain ⟨hu1, -⟩ := Client.statusUpdateMySQL_frame (db.setInitialized true) P.2
  generalize Client.statusUpdateMySQL (db.setInitialized true) P.2 = U1 at *
  obtain ⟨evs, hs1, -, -, hs4, -, -⟩ := CreateOrUpdate_summary serviceClient
    serviceClient_lawful (mysqlService (db.setInitialized true)) ()
    (fun s b x => (((mysqlServiceMutate sch (db.setInitialized true) s).1, b,
      (mysqlServiceMutate sch (db.setInitialized true) s).2), x)) (quiet_pure _) U1.2
  have hgr := CreateOrUpdate_grows serviceClient
    serviceClient_lawful (mysqlService (db.setInitialized true)) ()
    (fun s b x => (((mysqlServiceMutate sch (db.setInitialized true) s).1, b,
      (mysqlServiceMutate sch (db.setInitialized true) s).2), x)) (quiet_pure _) U1.2
  have hne : evs ≠ [] := by
    intro h
    rw [hs1, h] at hgr
    simp at hgr
  generalize CreateOrUpdate serviceClient (mysqlService (db.setInitialized true)) ()
    (fun s b x => (((mysqlServiceMutate sch (db.setInitialized true) s).1, b,
      (mysqlServiceMutate sch (db.setInitialized true) s).2), x)) U1.2 = S at *
  have hS : S.2.trace = P.2.trace
      ++ ⟨.statusUpdateMySQL (db.setInitialized true), U1.1⟩ :: evs := by
    rw [hs1, hu1]; simp
  refine ⟨db.setInitialized true, U1.1, evs, hne, hs4, rfl, ?_⟩
  rcases hse : S.1.err with _ | e
  · simp only
    by_cases hz : len S.1.obj.Spec.ClusterIP = 0
    · rw [if_pos hz]
      exact Or.inl hS
    · rw [if_neg hz]
      obtain ⟨hv1, -⟩ := Client.statusUpdateMySQL_frame
        ((db.setInitialized true).setAddress S.1.obj.Spec.ClusterIP) S.2
      generalize Client.statusUpdateMySQL
        ((db.setInitialized true).setAddress S.1.obj.Spec.ClusterIP) S.2 = U2 at *
      obtain ⟨hx1, -⟩ := Client.statusUpdateMySQL_frame
        (((db.setInitialized true).setAddress S.1.obj.Spec.ClusterIP).setRootPassword
          P.1.captured) U2.2
      generalize Client.statusUpdateMySQL
        (((db.setInitialized true).setAddress S.1.obj.Spec.ClusterIP).setRootPassword
          P.1.captured) U2.2 = U3 at *
      obtain ⟨hy1, -⟩ := Client.statusUpdateMySQL_frame
        ((((db.setInitialized true).setAddress S.1.obj.Spec.ClusterIP).setRootPassword
          P.1.captured).setReady (decide (P.1.obj.Status.Phase = "Running"))) U3.2
      generalize Client.statusUpdateMySQL
        ((((db.setInitialized true).setAddress S.1.obj.Spec.ClusterIP).setRootPassword
          P.1.captured).setReady (decide (P.1.obj.Status.Phase = "Running"))) U3.2 = U4 at *
      refine Or.inr ⟨(db.setInitialized true).setAddress S.1.obj.Spec.ClusterIP, U2.1,
        ((db.setInitialized true).setAddress S.1.obj.Spec.ClusterIP).setRootPassword
          P.1.captured, U3.1,
        (((db.setInitialized true).setAddress S.1.obj.Spec.ClusterIP).setRootPassword
          P.1.captured).setReady (decide (P.1.obj.Status.Phase = "Running")), U4.1, ?_, rfl⟩
      rw [hy1, hx1, hv1, hS]
      simp
  · simp only
    exact Or.inl hS

theorem MySQLReconciler.createPod_rotation_next (sch : Scheme) (db : MySQL) (pod : Pod)
    (w : World)
    (hc : len db.Spec.Authentication.RootPassword > 0
      ∧ db.Spec.Authentication.RootPassword ≠ db.Status.RootPassword)
    (e : Option Err) (rest : List Event)
    (ht : (MySQLReconciler.createPod sch db pod w).2.trace = w.trace ++ ⟨.deletePod pod, e⟩ :: rest)
    (he : e = none ∨ e = some .notFound) : rest ≠ [] := by
  obtain ⟨hd1, -⟩ := Client.deletePod_frame pod w
  have hgr := CreateOrUpdate_grows podClient podClient_lawful pod ""
    (mysqlPodMutate sch db) (quiet_mysqlPodMutate sch db) (Client.deletePod pod w).2
  have fin : (MySQLReconciler.createPod sch db pod w)
      = CreateOrUpdate podClient pod "" (mysqlPodMutate sch db) (Client.deletePod pod w).2 →
      rest ≠ [] := by
    intro heq hnil
    rw [heq] at ht
    rw [ht, hd1, hnil] at hgr
    simp at hgr
  unfold MySQLReconciler.createPod at ht fin
  rw [if_pos hc] at ht fin
  simp only at ht fin
  rcases hde : (Client.deletePod pod w).1 with _ | e0
  · simp only [hde] at ht fin
    exact fin trivial
  · simp only [hde] at ht fin
    by_cases hne : e0 = .notFound
    · simp only [hne, ne_eq, not_true_eq_false, if_false] at ht fin
      exact fin trivial
    · simp only [hne, ne_eq, not_false_eq_true, if_true] at ht
      rw [hd1, hde] at ht
      have h2 := List.append_cancel_left ht
      simp only [List.cons.injEq, Event.mk.injEq, true_and] at h2
      rcases he with h | h
      · rw [h] at h2
        simp at h2
      · rw [h] at h2
        simp only [Option.some.injEq] at h2
        exact absurd h2.1 hne

theorem List.split_at_second {α : Type} (P : α → Prop) (g d : α) (M pre post : List α) (ev : α)
    (h : g :: d :: M = pre ++ ev :: post) (hg : ¬ P g) (hM : ∀ x ∈ M, ¬ P x) (hev : P ev) :
    ev = d ∧ post = M := by
  rcases pre with _ | ⟨a, _ | ⟨b, pre⟩⟩
  · simp only [List.nil_append, List.cons.injEq] at h
    exact absurd (h.1 ▸ hev) hg
  · simp only [List.cons_append, List.nil_append, List.cons.injEq] at h
    exact ⟨h.2.1.symm, h.2.2.symm⟩
  · simp only [List.cons_append, List.cons.injEq] at h
    have : ev ∈ M := by rw [h.2.2]; simp
    exact absurd hev (hM ev this)

theorem Op.upsert_not_delete (op : Op) (h : op.isUpsertCall = true) : op.isChildDelete = false := by
  cases op <;> simp_all [Op.isUpsertCall, Op.isGet, Op.isChildCreate, Op.isChildUpdate,
    Op.isChildDelete]

/-- Not-found on the delete of the Pod is tolerated: the delete is followed
by a further call of the pass. -/
theorem MySQLReconciler.delete_tolerated (sch : Scheme) (req : NamespacedName) (w : World)
    (pre post : List Event) (ev : Event)
    (ht : (MySQLReconciler.Reconcile sch req w).2.trace = pre ++ ev :: post)
    (hd : ev.op.isChildDelete = true) (he : ev.err = none ∨ ev.err = some .notFound) :
    post ≠ [] := by
  obtain ⟨hg1, -⟩ := Client.getMySQL_frame req { w with trace := [] }
  simp only [List.nil_append] at hg1
  have hmem : ev ∈ (MySQLReconciler.Reconcile sch req w).2.trace := by
    rw [ht]; simp
  rcases hget : (Client.getMySQL req { w with trace := [] }).1 with e | db
  · rw [MySQLReconciler.Reconcile_unread sch req w e hget] at hmem
    simp only [hg1, List.mem_singleton] at hmem
    subst hmem
    simp [Op.isChildDelete] at hd
  · rw [MySQLReconciler.Reconcile_mysql_sync sch req w db hget] at ht hmem
    obtain ⟨⟨later, hl1, hl2⟩, -, -⟩ := MySQLReconciler.sync_after_createPod sch db
      (Client.getMySQL req { w with trace := [] }).2
    rw [hl1] at ht hmem
    by_cases hc : len db.Spec.Authentication.RootPassword > 0
        ∧ db.Spec.Authentication.RootPassword ≠ db.Status.RootPassword
    · obtain ⟨e, rest, hp1, hp2⟩ := MySQLReconciler.createPod_rotation sch db (mysqlPod db)
        (Client.getMySQL req { w with trace := [] }).2 hc.1 hc.2
      have hnext := MySQLReconciler.createPod_rotation_next sch db (mysqlPod db)
        (Client.getMySQL req { w with trace := [] }).2 hc e rest hp1
      have ht2 : (⟨.getMySQL req,
            errOf (Client.getMySQL req { w with trace := [] }).1⟩ : Event)
          :: ⟨.deletePod (mysqlPod db), e⟩ :: (rest ++ later) = pre ++ ev :: post := by
        rw [← ht, hp1, hg1]
        simp
      obtain ⟨h2, h3⟩ := List.split_at_second (fun x : Event => x.op.isChildDelete = true)
        _ _ _ pre post ev ht2 (by simp [Op.isChildDelete])
        (fun x hx => by
          rcases List.mem_append.mp hx with h | h
          · simp only [(hp2 x h).1, Bool.false_eq_true, not_false_eq_true]
          · simp only [hl2 x h, Bool.false_eq_true, not_false_eq_true]) hd
      rw [h2] at he
      rw [h3]
      intro h
      exact hnext he (List.append_eq_nil.mp h).1
    · rw [MySQLReconciler.createPod_steady sch db _ _ hc] at hmem
      obtain ⟨evs, h1, -, -, h4, -, -⟩ := CreateOrUpdate_summary podClient podClient_lawful
        (mysqlPod db) "" (mysqlPodMutate sch db) (quiet_mysqlPodMutate sch db)
        (Client.getMySQL req { w with trace := [] }).2
      rw [h1, hg1] at hmem
      rcases List.mem_append.mp hmem with h | h
      · rcases List.mem_append.mp h with h | h
        · simp only [List.mem_singleton] at h
          subst h
          simp [Op.isChildDelete] at hd
        · rw [Op.upsert_not_delete _ (h4 ev h)] at hd
          cases hd
      · rw [hl2 ev h] at hd
        cases hd

theorem Op.upsert_not_status (op : Op) (h : op.isUpsertCall = true ∨ op.isChildDelete = true) :
    op.isStatusWrite = false := by
  cases op <;> simp_all [Op.isUpsertCall, Op.isGet, Op.isChildCreate, Op.isChildUpdate,
    Op.isChildDelete, Op.isStatusWrite]

/-- A MySQL pass whose last call is a status update returns no error, whatever
the outcome of that update. -/
theorem MySQLReconciler.status_last_ok (sch : Scheme) (req : NamespacedName) (w : World)
    (pre : List Event) (ev : Event)
    (ht : (MySQLReconciler.Reconcile sch req w).2.trace = pre ++ [ev])
    (hs : ev.op.isStatusWrite = true) :
    (MySQLReconciler.Reconcile sch req w).1.2 = none := by
  obtain ⟨hg1, -⟩ := Client.getMySQL_frame req { w with trace := [] }
  simp only [List.nil_append] at hg1
  have hlast : (MySQLReconciler.Reconcile sch req w).2.trace.getLast? = some ev := by
    rw [ht]; simp
  rcases hget : (Client.getMySQL req { w with trace := [] }).1 with e | db
  · rw [MySQLReconciler.Reconcile_unread sch req w e hget] at hlast
    simp only [hg1, List.getLast?_singleton, Option.some.injEq] at hlast
    subst hlast
    simp [Op.isStatusWrite] at hs
  · rw [MySQLReconciler.Reconcile_mysql_sync sch req w db hget] at hlast ⊢
    obtain ⟨evp, hq1, hq2, -, -, hq5, -, -⟩ := MySQLReconciler.createPod_summary sch db
      (mysqlPod db) (Client.getMySQL req { w with trace := [] }).2
    rcases hpe : (MySQLReconciler.createPod sch db (mysqlPod db)
        (Client.getMySQL req { w with trace := [] }).2).1.err with _ | e
    · obtain ⟨m1, e1, evs, hne, hup, -, hshape⟩ := MySQLReconciler.sync_shape sch db
        (Client.getMySQL req { w with trace := [] }).2 hpe
      rcases hshape with h | ⟨m2, e2, m3, e3, m4, e4, -, hr⟩
      · rw [h] at hlast
        have hmem : ev ∈ evs := by
          have h2 : ((MySQLReconciler.createPod sch db (mysqlPod db)
              (Client.getMySQL req { w with trace := [] }).2).2.trace
                ++ [(⟨.statusUpdateMySQL m1, e1⟩ : Event)] ++ evs).getLast? = some ev := by
            rw [← hlast, List.append_assoc]
            rfl
          exact last_mem_of_append _ _ _ hne h2
        rw [Op.upsert_not_status _ (Or.inl (hup ev hmem))] at hs
        cases hs
      · exact hr
    · have hsync : MySQLReconciler.sync sch db (Client.getMySQL req { w with trace := [] }).2
          = (({}, some e), (MySQLReconciler.createPod sch db (mysqlPod db)
              (Client.getMySQL req { w with trace := [] }).2).2) := by
        rw [MySQLReconciler.mysql_sync_eq]
        simp only [hpe]
      rw [hsync] at hlast
      simp only at hlast
      rw [hq1] at hlast
      have hmem := last_mem_of_append _ _ _ hq2 hlast
      rw [Op.upsert_not_status _ (hq5 ev hmem)] at hs
      cases hs

/-! ## The claims -/

/-- C4. The finalizer protocol of the Student pass, for a pass whose initial
get returns the record `student`. Under deletion the pass issues exactly one
call after the get, an update of the record whose finalizers are those of
`student` without the token `k8s.unito.it/api` (every other one kept), and
returns the result of that update; a live record with a nickname and without
the token gets exactly one update, which appends the token, and nothing else
is written; a live record that carries the token sees no update of the record
and keeps its stored finalizers. A successful update persists the finalizers
it carries; when it leaves the record under deletion without any finalizer,
the store removes the record. -/
theorem student_finalizer_protocol (sch : Scheme) (req : NamespacedName) (w : World)
    (student : Student)
    (hget : (Client.getStudent req { w with trace := [] }).1 = .ok student) :
    (student.DeletionTimestamp ≠ none →
      ∃ s : Student,
        (StudentReconciler.Reconcile sch req w).2.trace
          = [⟨.getStudent req, none⟩, ⟨.updateStudent s, (StudentReconciler.Reconcile sch req w).1.2⟩]
        ∧ studentFinalizer ∉ s.Finalizers
        ∧ (∀ f, f ≠ studentFinalizer → (f ∈ s.Finalizers ↔ f ∈ student.Finalizers))
        ∧ ((StudentReconciler.Reconcile sch req w).1.2 = none →
            (s.Finalizers ≠ [] →
              (lookup Student.toObjectMeta req
                (StudentReconciler.Reconcile sch req w).2.store.students).map
                  (fun x => x.Finalizers) = some s.Finalizers)
            ∧ (s.Finalizers = [] →
              lookup Student.toObjectMeta req
                (StudentReconciler.Reconcile sch req w).2.store.students = none)))
    ∧ (student.DeletionTimestamp = none → len student.Spec.Nickname ≠ 0 →
        studentFinalizer ∉ student.Finalizers →
        ∃ s : Student,
          (StudentReconciler.Reconcile sch req w).2.trace
            = [⟨.getStudent req, none⟩, ⟨.updateStudent s, (StudentReconciler.Reconcile sch req w).1.2⟩]
          ∧ s.Finalizers = student.Finalizers ++ [studentFinalizer]
          ∧ ((StudentReconciler.Reconcile sch req w).1.2 = none →
            (lookup Student.toObjectMeta req (StudentReconciler.Reconcile sch req w).2.store.students).map
              (fun x => x.Finalizers) = some s.Finalizers))
    ∧ (student.DeletionTimestamp = none → studentFinalizer ∈ student.Finalizers →
        (∀ ev ∈ (StudentReconciler.Reconcile sch req w).2.trace, ev.op.isRecordUpdate = false)
        ∧ (lookup Student.toObjectMeta req (StudentReconciler.Reconcile sch req w).2.store.students).map
              (fun x => x.Finalizers) = some student.Finalizers) := by
  have hfr := Client.getStudent_frame req { w with trace := [] }
  have hlk := Client.getStudent_ok _ _ _ hget
  have hkey := lookup_key _ _ _ _ hlk
  obtain ⟨hf1, -, -, hf4⟩ := hfr
  rw [hget] at hf1
  have hlk1 : lookup Student.toObjectMeta req
      (Client.getStudent req { w with trace := [] }).2.store.students = some student := by
    rw [hf4]; exact hlk
  refine ⟨?_, ?_, ?_⟩
  · intro hdel
    rw [StudentReconciler.Reconcile_deleting sch req w student hget hdel]
    refine ⟨{ student with Finalizers := RemoveFinalizer student.toObjectMeta studentFinalizer },
      ?_, ?_, ?_, ?_⟩
    · simp [hget, errOf]
    · simp [RemoveFinalizer]
    · intro f hf
      simp [RemoveFinalizer, hf]
    · intro hok
      have hk2 : keyOf ({ student with
          Finalizers := RemoveFinalizer student.toObjectMeta studentFinalizer } : Student).toObjectMeta
          = req := by
        simpa [keyOf] using hkey
      refine ⟨fun hne => ?_, fun hnil => ?_⟩
      · have := Client.updateStudent_persists
          { student with Finalizers := RemoveFinalizer student.toObjectMeta studentFinalizer } student _
          (by rw [hk2]; exact hlk1) (fun h => hne h.2) hok
        rw [hk2] at this
        simp only [this]
        rfl
      · have := Client.updateStudent_removes
          { student with Finalizers := RemoveFinalizer student.toObjectMeta studentFinalizer } student _
          (by rw [hk2]; exact hlk1) ⟨hdel, hnil⟩ hok
        rw [hk2] at this
        exact this
  · intro hlive hnick hno
    have hc : ContainsFinalizer student.toObjectMeta studentFinalizer = false := by
      simp [ContainsFinalizer]
      intro x hx hxe
      exact hno (hxe ▸ hx)
    rw [StudentReconciler.Reconcile_adding sch req w student hget hlive hnick hc]
    refine ⟨{ student with Finalizers := AddFinalizer student.toObjectMeta studentFinalizer },
      ?_, ?_, ?_⟩
    · simp [hget, errOf]
    · simp [AddFinalizer, hc]
    · intro hok
      have hk2 : keyOf ({ student with
          Finalizers := AddFinalizer student.toObjectMeta studentFinalizer } : Student).toObjectMeta
          = req := by
        simpa [keyOf] using hkey
      have := Client.updateStudent_persists
        { student with Finalizers := AddFinalizer student.toObjectMeta studentFinalizer } student _
        (by rw [hk2]; exact hlk1) (fun h => h.1 hlive) hok
      rw [hk2] at this
      simp only [this]
      rfl
  · intro hlive hhas
    have hc : ContainsFinalizer student.toObjectMeta studentFinalizer = true := by
      simp only [ContainsFinalizer, List.any_eq_true, decide_eq_true_eq]
      exact ⟨_, hhas, rfl⟩
    by_cases hnick : len student.Spec.Nickname = 0
    · rw [StudentReconciler.Reconcile_waiting sch req w student hget hlive hnick]
      refine ⟨?_, ?_⟩
      · simp [hget, errOf, Op.isRecordUpdate]
      · simp only [hlk1]
        rfl
    · obtain ⟨h1, -, h3⟩ := StudentReconciler.syncing_facts sch req w student hget hlive hnick hc
      refine ⟨fun ev hev => Op.upsert_not_recordUpdate _ (h1 ev hev), ?_⟩
      have := congrArg (Option.map (fun m : ObjectMeta => m.Finalizers)) (h3 req)
      simp only [Option.map_map] at this
      rw [hlk] at this
      exact this

/-- C4, at two records under deletion. The first carries the token and a
finalizer of another party: the one update keeps the other finalizer only,
and the record stays stored with it. The second carries the token only: the
update leaves no finalizer and the store removes the record. -/
theorem student_finalizer_protocol_witness :
    (∃ s : Student,
      (StudentReconciler.Reconcile exScheme exStudentKey exLeavingWorld).2.trace
        = [⟨.getStudent exStudentKey, none⟩,
            ⟨.updateStudent s, (StudentReconciler.Reconcile exScheme exStudentKey exLeavingWorld).1.2⟩]
      ∧ studentFinalizer ∉ s.Finalizers
      ∧ (∀ f, f ≠ studentFinalizer → (f ∈ s.Finalizers ↔ f ∈ exLeaving.Finalizers))
      ∧ ((StudentReconciler.Reconcile exScheme exStudentKey exLeavingWorld).1.2 = none →
          (s.Finalizers ≠ [] →
            (lookup Student.toObjectMeta exStudentKey
              (StudentReconciler.Reconcile exScheme exStudentKey exLeavingWorld).2.store.students).map
                (fun x => x.Finalizers) = some s.Finalizers)
          ∧ (s.Finalizers = [] →
            lookup Student.toObjectMeta exStudentKey
              (StudentReconciler.Reconcile exScheme exStudentKey exLeavingWorld).2.store.students
                = none)))
    ∧ (∃ s : Student,
      (StudentReconciler.Reconcile exScheme exStudentKey exDepartingWorld).2.trace
        = [⟨.getStudent exStudentKey, none⟩,
            ⟨.updateStudent s,
              (StudentReconciler.Reconcile exScheme exStudentKey exDepartingWorld).1.2⟩]
      ∧ studentFinalizer ∉ s.Finalizers
      ∧ (∀ f, f ≠ studentFinalizer → (f ∈ s.Finalizers ↔ f ∈ exDeparting.Finalizers))
      ∧ ((StudentReconciler.Reconcile exScheme exStudentKey exDepartingWorld).1.2 = none →
          (s.Finalizers ≠ [] →
            (lookup Student.toObjectMeta exStudentKey
              (StudentReconciler.Reconcile exScheme exStudentKey
                exDepartingWorld).2.store.students).map
                (fun x => x.Finalizers) = some s.Finalizers)
          ∧ (s.Finalizers = [] →
            lookup Student.toObjectMeta exStudentKey
              (StudentReconciler.Reconcile exScheme exStudentKey exDepartingWorld).2.store.students
                = none))) :=
  ⟨(student_finalizer_protocol exScheme exStudentKey exLeavingWorld exLeaving rfl).1 (by decide),
    (student_finalizer_protocol exScheme exStudentKey exDepartingWorld exDeparting rfl).1
      (by decide)⟩

/-- C9. A pass whose initial get returns a live Student record with an empty
nickname returns the requeue result without error, leaves the store as it
was, and its only client call is that get: no finalizer is added, no child is
created or updated, no status is written. -/
theorem student_missing_nickname_requeues (sch : Scheme) (req : NamespacedName) (w : World)
    (student : Student)
    (hget : (Client.getStudent req { w with trace := [] }).1 = .ok student)
    (hlive : student.DeletionTimestamp = none)
    (hnick : len student.Spec.Nickname = 0) :
    (StudentReconciler.Reconcile sch req w).1 = ({ Requeue := true }, none)
    ∧ (StudentReconciler.Reconcile sch req w).2.store = w.store
    ∧ (StudentReconciler.Reconcile sch req w).2.trace = [⟨.getStudent req, none⟩] := by
  rw [StudentReconciler.Reconcile_waiting sch req w student hget hlive hnick]
  simp [hget, errOf]

/-- C9, at a store that holds one record without nickname. -/
theorem student_missing_nickname_requeues_witness :
    (StudentReconciler.Reconcile exScheme exStudentKey exAnonymousWorld).1
        = ({ Requeue := true }, none)
    ∧ (StudentReconciler.Reconcile exScheme exStudentKey exAnonymousWorld).2.store
        = exAnonymousWorld.store
    ∧ (StudentReconciler.Reconcile exScheme exStudentKey exAnonymousWorld).2.trace
        = [⟨.getStudent exStudentKey, none⟩] :=
  student_missing_nickname_requeues exScheme exStudentKey exAnonymousWorld exAnonymous
    rfl (by decide) (by decide)

/-- C5, as stated, fails for the MySQL controller: it never looks at the
deletion marker. On a MySQL record under deletion (held by a finalizer of
another party) the pass creates the Pod and the Service and writes the status. -/
theorem mysql_pass_ignores_deletion_marker :
    (Client.getMySQL exDBKey { exLeavingDBWorld with trace := [] }).1 = .ok exLeavingDB
    ∧ exLeavingDB.DeletionTimestamp ≠ none
    ∧ ((MySQLReconciler.Reconcile exScheme exDBKey exLeavingDBWorld).2.trace.map
        (fun ev => (ev.op.isChildCreate, ev.op.isStatusWrite, ev.err)))
      = [(false, false, none), (false, false, some .notFound), (true, false, none),
          (false, true, none), (false, false, some .notFound), (true, false, none)]
    ∧ (MySQLReconciler.Reconcile exScheme exDBKey exLeavingDBWorld).2.store.pods ≠ []
    ∧ ((MySQLReconciler.Reconcile exScheme exDBKey exLeavingDBWorld).2.store.mysqls.map
        (fun m => m.Status.Initialized)) = [true] := by
  refine ⟨rfl, by decide, by decide, by decide, by decide⟩

/-- C5, amended to the Student controller. A Student pass whose initial get
returns a record under deletion issues no create, update or delete of a child
and no status write; the Pods, Services and Deployments of the store are as
before, and every Student record that the store holds after the pass has the
status that was stored before (the record of the pass itself may be gone:
the store removes it when its last finalizer is removed). -/
theorem student_deleting_pass_leaves_children (sch : Scheme) (req : NamespacedName) (w : World)
    (student : Student)
    (hget : (Client.getStudent req { w with trace := [] }).1 = .ok student)
    (hdel : student.DeletionTimestamp ≠ none) :
    (∀ ev ∈ (StudentReconciler.Reconcile sch req w).2.trace,
        ev.op.isChildWrite = false ∧ ev.op.isStatusWrite = false)
    ∧ (StudentReconciler.Reconcile sch req w).2.store.pods = w.store.pods
    ∧ (StudentReconciler.Reconcile sch req w).2.store.services = w.store.services
    ∧ (StudentReconciler.Reconcile sch req w).2.store.deployments = w.store.deployments
    ∧ (∀ k s, lookup Student.toObjectMeta k
          (StudentReconciler.Reconcile sch req w).2.store.students = some s →
        (lookup Student.toObjectMeta k w.store.students).map (fun x => x.Status)
          = some s.Status) := by
  rw [StudentReconciler.Reconcile_deleting sch req w student hget hdel]
  refine ⟨?_, ?_, ?_, ?_, ?_⟩
  · simp [Op.isChildWrite, Op.isStatusWrite]
  · simp
  · simp
  · simp
  · intro k s hs
    rcases Client.updateStudent_status
      { student with Finalizers := RemoveFinalizer student.toObjectMeta studentFinalizer }
      (Client.getStudent req { w with trace := [] }).2 k with h | h
    · rw [h] at hs
      cases hs
    · rw [hs] at h
      simp only [Client.getStudent_frame, Option.map_some'] at h
      exact h.symm

/-- C5 amended, at two Student records under deletion: one that keeps a
finalizer of another party and stays stored, and one whose last finalizer is
removed, which the store removes. -/
theorem student_deleting_pass_leaves_children_witness :
    ((∀ ev ∈ (StudentReconciler.Reconcile exScheme exStudentKey exLeavingWorld).2.trace,
        ev.op.isChildWrite = false ∧ ev.op.isStatusWrite = false)
      ∧ (StudentReconciler.Reconcile exScheme exStudentKey exLeavingWorld).2.store.pods
          = exLeavingWorld.store.pods
      ∧ (StudentReconciler.Reconcile exScheme exStudentKey exLeavingWorld).2.store.services
          = exLeavingWorld.store.services
      ∧ (StudentReconciler.Reconcile exScheme exStudentKey exLeavingWorld).2.store.deployments
          = exLeavingWorld.store.deployments
      ∧ (∀ k s, lookup Student.toObjectMeta k
            (StudentReconciler.Reconcile exScheme exStudentKey exLeavingWorld).2.store.students
              = some s →
          (lookup Student.toObjectMeta k exLeavingWorld.store.students).map (fun x => x.Status)
            = some s.Status))
    ∧ ((∀ ev ∈ (StudentReconciler.Reconcile exScheme exStudentKey exDepartingWorld).2.trace,
        ev.op.isChildWrite = false ∧ ev.op.isStatusWrite = false)
      ∧ (StudentReconciler.Reconcile exScheme exStudentKey exDepartingWorld).2.store.pods
          = exDepartingWorld.store.pods
      ∧ (StudentReconciler.Reconcile exScheme exStudentKey exDepartingWorld).2.store.services
          = exDepartingWorld.store.services
      ∧ (StudentReconciler.Reconcile exScheme exStudentKey exDepartingWorld).2.store.deployments
          = exDepartingWorld.store.deployments
      ∧ (∀ k s, lookup Student.toObjectMeta k
            (StudentReconciler.Reconcile exScheme exStudentKey exDepartingWorld).2.store.students
              = some s →
          (lookup Student.toObjectMeta k exDepartingWorld.store.students).map (fun x => x.Status)
            = some s.Status)) :=
  ⟨student_deleting_pass_leaves_children exScheme exStudentKey exLeavingWorld exLeaving rfl
      (by decide),
    student_deleting_pass_leaves_children exScheme exStudentKey exDepartingWorld exDeparting rfl
      (by decide)⟩

/-- C2, as stated, fails when the explicit credential equals the status
value: the code still assigns the explicit value, where the claim has the
value carried by the Pod (here "old") or, for a Pod without one, a fresh token. -/
theorem explicit_credential_wins_when_recorded :
    exSettledDB.Spec.Authentication.RootPassword = exSettledDB.Status.RootPassword
    ∧ (mysqlPodMutate exScheme exSettledDB exStalePod "" exSettledWorld).1.2.1 = "secret"
    ∧ claimedCredential exSettledDB.Spec.Authentication.RootPassword exSettledDB.Status.RootPassword
        (firstValue (firstEnv exStalePod.Spec.Containers)) (uuidNew exSettledWorld).1 = "old"
    ∧ (MySQLReconciler.createPod exScheme exSettledDB (mysqlPod exSettledDB) exSettledWorld).1.captured
        = "secret"
    ∧ claimedCredential exSettledDB.Spec.Authentication.RootPassword exSettledDB.Status.RootPassword
        (firstValue (firstEnv (mysqlPod exSettledDB).Spec.Containers)) (uuidNew exSettledWorld).1
        = "00000000-0000-4000-8000-000000000000" := by
  refine ⟨by decide, by decide, by decide, by decide, by decide⟩

/-- C2, amended. Whenever `createPod` returns without error, the password it
returns is: the explicit credential `s` whenever `s` is non-empty (whatever
the status value); otherwise the value `v` of the first environment variable
of the Pod that the store holds under the key of `pod` (of `pod` itself when
it holds none) when `v` is non-empty; otherwise a freshly drawn token. The
store then holds the Pod that `createPod` returns, and the first environment
variable of that Pod carries the returned password. Without store failures
`createPod` returns an error only when the Pod it mutates is controlled by
another owner. The mutate function itself, run on any Pod whose first
environment variable carries `v`, assigns and captures the same choice. -/
theorem createPod_credential (sch : Scheme) (db : MySQL) (pod : Pod) (b : String) (w : World) :
    (mysqlPodMutate sch db pod b w).1.2.1
        = (if db.Spec.Authentication.RootPassword ≠ "" then db.Spec.Authentication.RootPassword
           else if firstValue (firstEnv pod.Spec.Containers) ≠ "" then
             firstValue (firstEnv pod.Spec.Containers)
           else (uuidNew w).1)
    ∧ firstValue (firstEnv (mysqlPodMutate sch db pod b w).1.1.Spec.Containers)
        = (mysqlPodMutate sch db pod b w).1.2.1
    ∧ ((MySQLReconciler.createPod sch db pod w).1.err = none →
        (MySQLReconciler.createPod sch db pod w).1.captured
            = (if db.Spec.Authentication.RootPassword ≠ "" then
                db.Spec.Authentication.RootPassword
               else if firstValue (firstEnv ((lookup Pod.toObjectMeta (keyOf pod.toObjectMeta)
                    w.store.pods).getD pod).Spec.Containers) ≠ "" then
                 firstValue (firstEnv ((lookup Pod.toObjectMeta (keyOf pod.toObjectMeta)
                    w.store.pods).getD pod).Spec.Containers)
               else (uuidNew w).1)
        ∧ lookup Pod.toObjectMeta (keyOf pod.toObjectMeta)
            (MySQLReconciler.createPod sch db pod w).2.store.pods
            = some (MySQLReconciler.createPod sch db pod w).1.obj
        ∧ firstValue (firstEnv (MySQLReconciler.createPod sch db pod w).1.obj.Spec.Containers)
            = (MySQLReconciler.createPod sch db pod w).1.captured)
    ∧ (w.faults = [] →
        (MySQLReconciler.createPod sch db pod w).1.err = none
        ∨ ∃ y e, (lookup Pod.toObjectMeta (keyOf pod.toObjectMeta) w.store.pods = some y
              ∨ y = pod)
            ∧ SetControllerReference sch "MySQL" db.toObjectMeta y.OwnerReferences
                = .error e) := by
  obtain ⟨h1, h2, -⟩ := mysqlPodMutate_password sch db pod b w
  refine ⟨?_, ?_, ?_, ?_⟩
  · rw [h1, mysqlPassword_rule]
  · rw [h1, h2]
  · exact MySQLReconciler.createPod_stored sch db pod w
  · exact MySQLReconciler.createPod_total sch db pod w

/-- C2 amended, at three stores: a record with an explicit credential that
its status records and no Pod yet; a record without explicit credential
whose Pod carries "old"; a record without explicit credential and no Pod. -/
theorem createPod_credential_witness :
    ((MySQLReconciler.createPod exScheme exSettledDB (mysqlPod exSettledDB)
          exSettledWorld).1.captured = "secret"
      ∧ (lookup Pod.toObjectMeta exDBKey
          (MySQLReconciler.createPod exScheme exSettledDB (mysqlPod exSettledDB)
            exSettledWorld).2.store.pods).map (fun p => firstValue (firstEnv p.Spec.Containers))
          = some "secret")
    ∧ ((MySQLReconciler.createPod exScheme exFreshDB (mysqlPod exFreshDB)
          exKeptWorld).1.captured = "old"
      ∧ (lookup Pod.toObjectMeta exDBKey
          (MySQLReconciler.createPod exScheme exFreshDB (mysqlPod exFreshDB)
            exKeptWorld).2.store.pods).map (fun p => firstValue (firstEnv p.Spec.Containers))
          = some "old")
    ∧ ((MySQLReconciler.createPod exScheme exFreshDB (mysqlPod exFreshDB)
          exFreshWorld).1.captured = "00000000-0000-4000-8000-000000000000"
      ∧ (lookup Pod.toObjectMeta exDBKey
          (MySQLReconciler.createPod exScheme exFreshDB (mysqlPod exFreshDB)
            exFreshWorld).2.store.pods).map (fun p => firstValue (firstEnv p.Spec.Containers))
          = some "00000000-0000-4000-8000-000000000000") :=
  ⟨⟨((createPod_credential exScheme exSettledDB (mysqlPod exSettledDB) "" exSettledWorld).2.2.1
        (by decide)).1.trans (by decide),
      by
        have h := (createPod_credential exScheme exSettledDB (mysqlPod exSettledDB) ""
          exSettledWorld).2.2.1 (by decide)
        have hk : keyOf (mysqlPod exSettledDB).toObjectMeta = exDBKey := by decide
        rw [← hk, h.2.1, Option.map_some', h.2.2, h.1]
        decide⟩,
    ⟨((createPod_credential exScheme exFreshDB (mysqlPod exFreshDB) "" exKeptWorld).2.2.1
        (by decide)).1.trans (by decide),
      by
        have h := (createPod_credential exScheme exFreshDB (mysqlPod exFreshDB) ""
          exKeptWorld).2.2.1 (by decide)
        have hk : keyOf (mysqlPod exFreshDB).toObjectMeta = exDBKey := by decide
        rw [← hk, h.2.1, Option.map_some', h.2.2, h.1]
        decide⟩,
    ⟨((createPod_credential exScheme exFreshDB (mysqlPod exFreshDB) "" exFreshWorld).2.2.1
        (by decide)).1.trans (by decide),
      by
        have h := (createPod_credential exScheme exFreshDB (mysqlPod exFreshDB) ""
          exFreshWorld).2.2.1 (by decide)
        have hk : keyOf (mysqlPod exFreshDB).toObjectMeta = exDBKey := by decide
        rw [← hk, h.2.1, Option.map_some', h.2.2, h.1]
        decide⟩⟩

/-- C10, as stated, fails across the two kinds: the MySQL controller names
its children after the record alone, so a MySQL record named
`unito-u1-alice` and the Student record `alice` with identity token `u1`, in
the same namespace, derive the same Service identity. -/
theorem service_identity_collides_across_kinds :
    exClashDB.Namespace = exStudent.Namespace
    ∧ exClashDB.UID ≠ exStudent.UID
    ∧ exClashDB.Name ≠ exStudent.Name
    ∧ keyOf (mysqlService exClashDB).toObjectMeta = keyOf (studentService exStudent).toObjectMeta := by
  refine ⟨by decide, by decide, by decide, by decide⟩

/-- C10, amended to records of one kind. Two MySQL records of one namespace
with different names derive different Pod and different Service identities.
Two Student records of one namespace whose identity tokens have the same
length (as the tokens issued by the store have) and that differ in token or
name derive different Deployment and different Service identities. -/
theorem child_identities_distinct_within_kind :
    (∀ a b : MySQL, a.Namespace = b.Namespace → a.Name ≠ b.Name →
      keyOf (mysqlPod a).toObjectMeta ≠ keyOf (mysqlPod b).toObjectMeta
      ∧ keyOf (mysqlService a).toObjectMeta ≠ keyOf (mysqlService b).toObjectMeta)
    ∧ (∀ a b : Student, a.Namespace = b.Namespace → a.UID.length = b.UID.length →
      (a.UID ≠ b.UID ∨ a.Name ≠ b.Name) →
      keyOf (studentDeployment a).toObjectMeta ≠ keyOf (studentDeployment b).toObjectMeta
      ∧ keyOf (studentService a).toObjectMeta ≠ keyOf (studentService b).toObjectMeta) := by
  refine ⟨?_, ?_⟩
  · intro a b _ hn
    constructor
    · intro h
      simp [keyOf, mysqlPod] at h
      exact hn h.2
    · intro h
      simp [keyOf, mysqlService] at h
      exact hn h.2
  · intro a b _ hl hne
    have key : studentChildName a = studentChildName b → a.UID = b.UID ∧ a.Name = b.Name := by
      intro h
      unfold studentChildName at h
      have h1 := congrArg String.data h
      simp only [String.data_append] at h1
      rw [List.append_assoc, List.append_assoc, List.append_assoc, List.append_assoc] at h1
      have h2 := List.append_cancel_left h1
      have h3 := List.append_inj h2 hl
      refine ⟨String.ext h3.1, ?_⟩
      have h4 := List.append_cancel_left h3.2
      exact String.ext h4
    have hk : studentChildName a ≠ studentChildName b := by
      intro h
      obtain ⟨h1, h2⟩ := key h
      rcases hne with h | h
      · exact h h1
      · exact h h2
    constructor
    · intro h
      simp [keyOf, studentDeployment] at h
      exact hk h.2
    · intro h
      simp [keyOf, studentService] at h
      exact hk h.2

/-- C10 amended, at two Student records of one namespace. -/
theorem child_identities_distinct_within_kind_witness :
    keyOf (studentDeployment exStudent).toObjectMeta
        ≠ keyOf (studentDeployment exOtherStudent).toObjectMeta
    ∧ keyOf (studentService exStudent).toObjectMeta
        ≠ keyOf (studentService exOtherStudent).toObjectMeta :=
  child_identities_distinct_within_kind.2 exStudent exOtherStudent (by decide) (by decide)
    (Or.inl (by decide))

/-- C6, as stated, fails for the status updates of the MySQL controller: the
error is only logged. Here the first status update fails with a conflict;
the pass goes on with two more client calls and returns no error. -/
theorem mysql_pass_continues_after_status_failure :
    ((MySQLReconciler.Reconcile exScheme exDBKey exFlakyWorld).2.trace.map
        (fun ev => (ev.op.isStatusWrite, ev.err)))
      = [(false, none), (false, some .notFound), (false, none), (true, some .conflict),
          (false, some .notFound), (false, none)]
    ∧ (MySQLReconciler.Reconcile exScheme exDBKey exFlakyWorld).1 = ({}, none) := by
  refine ⟨by decide, by decide⟩

/-- C6, amended. In a Student pass, a client call that fails (any error,
except not-found on a read) is the last call of the pass and its error is
returned. In a MySQL pass the same holds for every failed call except a
failed status update and a not-found on the delete of the Pod, which the
controller tolerates: after a `createPod` without error the first status
update, whatever its outcome, is followed by the calls of the Service upsert,
and either the pass ends with these or three more status updates follow,
whatever their outcomes, and the pass returns no error; a pass whose last
call is a status update returns no error; and a delete of the Pod that
succeeds or reports not-found is followed by a further call. -/
theorem pass_stops_at_failed_call (sch : Scheme) (req : NamespacedName) (w : World)
    (pre post : List Event) (ev : Event) :
    ((StudentReconciler.Reconcile sch req w).2.trace = pre ++ ev :: post → ev.failed = true →
      post = [] ∧ (StudentReconciler.Reconcile sch req w).1.2 = ev.err)
    ∧ ((MySQLReconciler.Reconcile sch req w).2.trace = pre ++ ev :: post → ev.failedMySQL = true →
      post = [] ∧ (MySQLReconciler.Reconcile sch req w).1.2 = ev.err)
    ∧ (∀ db : MySQL, (Client.getMySQL req { w with trace := [] }).1 = .ok db →
      (MySQLReconciler.createPod sch db (mysqlPod db)
        (Client.getMySQL req { w with trace := [] }).2).1.err = none →
      ∃ m1 e1 evs, evs ≠ [] ∧ (∀ x ∈ evs, x.op.isUpsertCall = true)
        ∧ m1.Status.Initialized = true
        ∧ ((MySQLReconciler.Reconcile sch req w).2.trace
              = (MySQLReconciler.createPod sch db (mysqlPod db)
                  (Client.getMySQL req { w with trace := [] }).2).2.trace
                ++ ⟨.statusUpdateMySQL m1, e1⟩ :: evs
          ∨ ∃ m2 e2 m3 e3 m4 e4,
              (MySQLReconciler.Reconcile sch req w).2.trace
                = (MySQLReconciler.createPod sch db (mysqlPod db)
                    (Client.getMySQL req { w with trace := [] }).2).2.trace
                  ++ ⟨.statusUpdateMySQL m1, e1⟩ :: evs
                  ++ [⟨.statusUpdateMySQL m2, e2⟩, ⟨.statusUpdateMySQL m3, e3⟩,
                      ⟨.statusUpdateMySQL m4, e4⟩]
              ∧ (MySQLReconciler.Reconcile sch req w).1.2 = none))
    ∧ ((MySQLReconciler.Reconcile sch req w).2.trace = pre ++ [ev] →
      ev.op.isStatusWrite = true → (MySQLReconciler.Reconcile sch req w).1.2 = none)
    ∧ ((MySQLReconciler.Reconcile sch req w).2.trace = pre ++ ev :: post →
      ev.op.isChildDelete = true → (ev.err = none ∨ ev.err = some .notFound) → post ≠ []) :=
  ⟨StudentReconciler.student_failStop sch req w pre ev post,
    MySQLReconciler.mysql_failStop sch req w pre ev post,
    fun db hget hok => by
      rw [MySQLReconciler.Reconcile_mysql_sync sch req w db hget]
      exact MySQLReconciler.sync_shape sch db _ hok,
    MySQLReconciler.status_last_ok sch req w pre ev,
    MySQLReconciler.delete_tolerated sch req w pre post ev⟩

/-- C6 amended, at four passes: a Student pass whose create of the Deployment
fails with a conflict stops there and returns the conflict; a MySQL pass whose
first status update fails with a conflict goes on with the Service upsert; a
MySQL pass whose last status update fails with a conflict returns no error; a
MySQL pass whose delete of the Pod reports not-found goes on. -/
theorem pass_stops_at_failed_call_witness :
    (([] : List Event) = []
      ∧ (StudentReconciler.Reconcile exScheme exStudentKey exFlakyStudentWorld).1.2
          = some .conflict)
    ∧ (∃ m1 e1 evs, evs ≠ [] ∧ (∀ x ∈ evs, x.op.isUpsertCall = true)
        ∧ m1.Status.Initialized = true
        ∧ ((MySQLReconciler.Reconcile exScheme exDBKey exFlakyWorld).2.trace
              = (MySQLReconciler.createPod exScheme exFreshDB (mysqlPod exFreshDB)
                  (Client.getMySQL exDBKey { exFlakyWorld with trace := [] }).2).2.trace
                ++ ⟨.statusUpdateMySQL m1, e1⟩ :: evs
          ∨ ∃ m2 e2 m3 e3 m4 e4,
              (MySQLReconciler.Reconcile exScheme exDBKey exFlakyWorld).2.trace
                = (MySQLReconciler.createPod exScheme exFreshDB (mysqlPod exFreshDB)
                    (Client.getMySQL exDBKey { exFlakyWorld with trace := [] }).2).2.trace
                  ++ ⟨.statusUpdateMySQL m1, e1⟩ :: evs
                  ++ [⟨.statusUpdateMySQL m2, e2⟩, ⟨.statusUpdateMySQL m3, e3⟩,
                      ⟨.statusUpdateMySQL m4, e4⟩]
              ∧ (MySQLReconciler.Reconcile exScheme exDBKey exFlakyWorld).1.2 = none))
    ∧ (MySQLReconciler.Reconcile exScheme exDBKey exLateFaultWorld).1.2 = none
    ∧ (MySQLReconciler.Reconcile exScheme exDBKey exUnstartedWorld).2.trace.drop 2 ≠ [] :=
  ⟨(pass_stops_at_failed_call exScheme exStudentKey exFlakyStudentWorld
      [⟨.getStudent exStudentKey, none⟩,
        ⟨.getDeployment ⟨"campus", "unito-u1-alice"⟩, some .notFound⟩]
      []
      ⟨.createDeployment
          (studentDeploymentMutate exScheme exEnrolled (studentDeployment exEnrolled)).1,
        some .conflict⟩).1 (by decide) (by decide),
    (pass_stops_at_failed_call exScheme exDBKey exFlakyWorld [] []
      ⟨.getMySQL exDBKey, none⟩).2.2.1 exFreshDB rfl (by decide),
    (pass_stops_at_failed_call exScheme exDBKey exLateFaultWorld
      ((MySQLReconciler.Reconcile exScheme exDBKey exLateFaultWorld).2.trace.take 9) []
      ⟨.statusUpdateMySQL
          ((((exRotatingDB.setInitialized true).setAddress "10.0.0.7").setRootPassword
            "secret").setReady false),
        some .conflict⟩).2.2.2.1 (by decide) (by decide),
    (pass_stops_at_failed_call exScheme exDBKey exUnstartedWorld
      [⟨.getMySQL exDBKey, none⟩]
      ((MySQLReconciler.Reconcile exScheme exDBKey exUnstartedWorld).2.trace.drop 2)
      ⟨.deletePod (mysqlPod exRotatingDB), some .notFound⟩).2.2.2.2
        (by decide) (by decide) (Or.inr rfl)⟩

/-- C7, as stated, fails for the Student controller: with a Deployment that
reports unavailable replicas, the upsert of the Deployment succeeds and the
only status write of the pass carries initialized = false. -/
theorem student_status_not_initialized_when_unavailable :
    (CreateOrUpdate deploymentClient (studentDeployment exEnrolled) ()
        (fun d b x => (((studentDeploymentMutate exScheme exEnrolled d).1, b,
          (studentDeploymentMutate exScheme exEnrolled d).2), x))
        (Client.getStudent exStudentKey { exDegradedWorld with trace := [] }).2).1.err = none
    ∧ ((StudentReconciler.Reconcile exScheme exStudentKey exDegradedWorld).2.trace.filterMap
        (fun ev => ev.op.statusInitialized)) = [false]
    ∧ (StudentReconciler.Reconcile exScheme exStudentKey exDegradedWorld).1 = ({}, none) := by
  refine ⟨by decide, by decide, by decide⟩

/-- C7, amended. MySQL: in every pass in which `createPod` returns without
error, the next client call is a status update that carries
initialized = true, whatever the phase of the Pod (the log of the pass
continues the log of `createPod` with that call). Student: after a
successful upsert of the Deployment no status is written unless the upsert
of the Service succeeds too; then the pass ends with one status update,
which carries initialized = true exactly when the Deployment reports no
unavailable replica. -/
theorem initialized_written_after_upsert (sch : Scheme) (req : NamespacedName) (w : World) :
    (∀ db : MySQL, (Client.getMySQL req { w with trace := [] }).1 = .ok db →
      (MySQLReconciler.createPod sch db (mysqlPod db)
        (Client.getMySQL req { w with trace := [] }).2).1.err = none →
      ∃ m e,
        ((MySQLReconciler.createPod sch db (mysqlPod db)
              (Client.getMySQL req { w with trace := [] }).2).2.trace
            ++ [⟨.statusUpdateMySQL m, e⟩]) <+: (MySQLReconciler.Reconcile sch req w).2.trace
        ∧ m.Status.Initialized = true)
    ∧ (∀ student : Student, (Client.getStudent req { w with trace := [] }).1 = .ok student →
      student.DeletionTimestamp = none → len student.Spec.Nickname ≠ 0 →
      ContainsFinalizer student.toObjectMeta studentFinalizer = true →
      ∀ D, D = CreateOrUpdate deploymentClient (studentDeployment student) ()
        (fun d b x => (((studentDeploymentMutate sch student d).1, b,
          (studentDeploymentMutate sch student d).2), x))
        (Client.getStudent req { w with trace := [] }).2 →
      D.1.err = none →
      ∀ S, S = CreateOrUpdate serviceClient (studentService student) ()
        (fun s b x => (((studentServiceMutate sch student D.1.obj s).1, b,
          (studentServiceMutate sch student D.1.obj s).2), x)) D.2 →
      (S.1.err ≠ none → (StudentReconciler.Reconcile sch req w).2.trace = S.2.trace)
      ∧ (S.1.err = none → ∃ m e,
          (StudentReconciler.Reconcile sch req w).2.trace
            = S.2.trace ++ [⟨.statusUpdateStudent m, e⟩]
          ∧ m.Status.Initialized = decide (D.1.obj.Status.UnavailableReplicas ≤ 0))) := by
  refine ⟨?_, ?_⟩
  · intro db hget hok
    rw [MySQLReconciler.Reconcile_found sch req w db hget]
    simp only [hok]
    generalize MySQLReconciler.createPod sch db (mysqlPod db)
      (Client.getMySQL req { w with trace := [] }).2 = P at *
    obtain ⟨hu1, -⟩ := Client.statusUpdateMySQL_frame (db.setInitialized true) P.2
    obtain ⟨evs, hs1, -⟩ := CreateOrUpdate_summary serviceClient
      serviceClient_lawful (mysqlService (db.setInitialized true)) ()
      (fun s b x => (((mysqlServiceMutate sch (db.setInitialized true) s).1, b,
        (mysqlServiceMutate sch (db.setInitialized true) s).2), x))
      (quiet_pure _)
      (Client.statusUpdateMySQL (db.setInitialized true) P.2).2
    refine ⟨db.setInitialized true, (Client.statusUpdateMySQL (db.setInitialized true) P.2).1,
      ?_, rfl⟩
    rw [← hu1]
    generalize Client.statusUpdateMySQL (db.setInitialized true) P.2 = U1 at *
    have hS := List.prefix_append U1.2.trace evs
    rw [← hs1] at hS
    generalize CreateOrUpdate serviceClient (mysqlService (db.setInitialized true)) ()
      (fun s b x => (((mysqlServiceMutate sch (db.setInitialized true) s).1, b,
        (mysqlServiceMutate sch (db.setInitialized true) s).2), x)) U1.2 = S at *
    split
    · exact hS
    · split
      · exact hS
      · simp only [Client.statusUpdateMySQL_frame, List.append_assoc]
        exact hS.trans (List.prefix_append _ _)
  · intro student hget hlive hnick hfin D hD hDok S hS
    rw [StudentReconciler.Reconcile_syncing sch req w student hget hlive hnick hfin]
    subst hD
    generalize CreateOrUpdate deploymentClient (studentDeployment student) ()
      (fun d b x => (((studentDeploymentMutate sch student d).1, b,
        (studentDeploymentMutate sch student d).2), x))
      (Client.getStudent req { w with trace := [] }).2 = D at *
    simp only [hDok]
    subst hS
    generalize CreateOrUpdate serviceClient (studentService student) ()
      (fun s b x => (((studentServiceMutate sch student D.1.obj s).1, b,
        (studentServiceMutate sch student D.1.obj s).2), x)) D.2 = S at *
    refine ⟨?_, ?_⟩
    · intro hne
      split
      · rfl
      · rename_i h; exact absurd h hne
    · intro hok
      simp only [hok]
      refine ⟨if D.1.obj.Status.UnavailableReplicas > 0 then student.setInitialized false
          else (student.setInitialized true).setAcceptance "Accepted",
        (Client.statusUpdateStudent
          (if D.1.obj.Status.UnavailableReplicas > 0 then student.setInitialized false
            else (student.setInitialized true).setAcceptance "Accepted") S.2).1, ?_, ?_⟩
      · simp only [Client.statusUpdateStudent_frame]
      · split
        · rename_i h
          simp [Student.setInitialized, h]
        · rename_i h
          simp [Student.setInitialized, Student.setAcceptance, not_lt.mp h]

/-- C7 amended, at a fresh MySQL record: the create of the Pod is followed
by the status update with initialized = true. -/
theorem initialized_written_after_upsert_witness :
    ∃ m e,
      ((MySQLReconciler.createPod exScheme exSettledDB (mysqlPod exSettledDB)
            (Client.getMySQL exDBKey { exSettledWorld with trace := [] }).2).2.trace
          ++ [⟨.statusUpdateMySQL m, e⟩])
        <+: (MySQLReconciler.Reconcile exScheme exDBKey exSettledWorld).2.trace
      ∧ m.Status.Initialized = true :=
  (initialized_written_after_upsert exScheme exDBKey exSettledWorld).1 exSettledDB rfl (by decide)

/-- C8, as stated, fails for the status writes that precede the readiness
step of a MySQL pass: each write sends the whole status, so they carry the
ready flag of the record as it was read. Here the record was ready, the Pod
observed in the pass reports `Pending`, and the first three status updates
of the pass persist ready = true; only the fourth one persists false. -/
theorem mysql_early_status_writes_keep_ready :
    (MySQLReconciler.createPod exScheme exReadyDB (mysqlPod exReadyDB)
        (Client.getMySQL exDBKey { exPendingWorld with trace := [] }).2).1.obj.Status.Phase
      = "Pending"
    ∧ ((MySQLReconciler.Reconcile exScheme exDBKey exPendingWorld).2.trace.filterMap
        (fun ev => if ev.err = none then ev.op.statusReady else none))
      = [true, true, true, false] := by
  refine ⟨by decide, by decide⟩

/-- C8, amended. MySQL: a pass that gets past the address gate (Pod and
Service upserts succeed, the Service has a cluster IP) ends with a status
update that carries ready = true exactly when the Pod observed in the pass
reports the Running phase, and that value is the persisted one when that
update succeeds. Student: a pass whose two upserts succeed ends with a status
update that carries acceptance "Accepted" and initialized = true when the
Deployment observed reports no unavailable replica, and initialized = false
when it reports some; the status it carries is the persisted one when the
update succeeds. -/
theorem readiness_written_from_observed_child (sch : Scheme) (req : NamespacedName) (w : World) :
    (∀ db : MySQL, (Client.getMySQL req { w with trace := [] }).1 = .ok db →
      ∀ P, P = MySQLReconciler.createPod sch db (mysqlPod db)
        (Client.getMySQL req { w with trace := [] }).2 →
      P.1.err = none →
      ∀ S, S = CreateOrUpdate serviceClient (mysqlService (db.setInitialized true)) ()
        (fun s b x => (((mysqlServiceMutate sch (db.setInitialized true) s).1, b,
          (mysqlServiceMutate sch (db.setInitialized true) s).2), x))
        (Client.statusUpdateMySQL (db.setInitialized true) P.2).2 →
      S.1.err = none → len S.1.obj.Spec.ClusterIP ≠ 0 →
      ∃ m e,
        (MySQLReconciler.Reconcile sch req w).2.trace.getLast? = some ⟨.statusUpdateMySQL m, e⟩
        ∧ m.Status.Ready = decide (P.1.obj.Status.Phase = "Running")
        ∧ (e = none →
            (lookup MySQL.toObjectMeta req (MySQLReconciler.Reconcile sch req w).2.store.mysqls).map
              (fun x => x.Status.Ready) = some (decide (P.1.obj.Status.Phase = "Running"))))
    ∧ (∀ student : Student, (Client.getStudent req { w with trace := [] }).1 = .ok student →
      student.DeletionTimestamp = none → len student.Spec.Nickname ≠ 0 →
      ContainsFinalizer student.toObjectMeta studentFinalizer = true →
      ∀ D, D = CreateOrUpdate deploymentClient (studentDeployment student) ()
        (fun d b x => (((studentDeploymentMutate sch student d).1, b,
          (studentDeploymentMutate sch student d).2), x))
        (Client.getStudent req { w with trace := [] }).2 →
      D.1.err = none →
      ∀ S, S = CreateOrUpdate serviceClient (studentService student) ()
        (fun s b x => (((studentServiceMutate sch student D.1.obj s).1, b,
          (studentServiceMutate sch student D.1.obj s).2), x)) D.2 →
      S.1.err = none →
      ∃ m e,
        (StudentReconciler.Reconcile sch req w).2.trace.getLast? = some ⟨.statusUpdateStudent m, e⟩
        ∧ (D.1.obj.Status.UnavailableReplicas ≤ 0 →
            m.Status.Acceptance = "Accepted" ∧ m.Status.Initialized = true)
        ∧ (D.1.obj.Status.UnavailableReplicas > 0 → m.Status.Initialized = false)
        ∧ (e = none →
            (lookup Student.toObjectMeta req
              (StudentReconciler.Reconcile sch req w).2.store.students).map (fun x => x.Status)
              = some m.Status)) := by
  refine ⟨?_, ?_⟩
  · intro db hget P hP hPok S hS hSok hip
    have hkey := lookup_key _ _ _ _ (Client.getMySQL_ok _ _ _ hget)
    rw [MySQLReconciler.Reconcile_found sch req w db hget]
    subst hP
    generalize MySQLReconciler.createPod sch db (mysqlPod db)
      (Client.getMySQL req { w with trace := [] }).2 = P at *
    simp only [hPok]
    subst hS
    generalize CreateOrUpdate serviceClient (mysqlService (db.setInitialized true)) ()
        (fun s b x => (((mysqlServiceMutate sch (db.setInitialized true) s).1, b,
          (mysqlServiceMutate sch (db.setInitialized true) s).2), x))
        (Client.statusUpdateMySQL (db.setInitialized true) P.2).2 = S at *
    simp only [hSok, hip, if_false]
    generalize hU3 : Client.statusUpdateMySQL
      (((db.setInitialized true).setAddress S.1.obj.Spec.ClusterIP).setRootPassword P.1.captured)
      (Client.statusUpdateMySQL ((db.setInitialized true).setAddress S.1.obj.Spec.ClusterIP) S.2).2
      = U3
    refine ⟨(((db.setInitialized true).setAddress S.1.obj.Spec.ClusterIP).setRootPassword
        P.1.captured).setReady (decide (P.1.obj.Status.Phase = "Running")),
      (Client.statusUpdateMySQL ((((db.setInitialized true).setAddress
        S.1.obj.Spec.ClusterIP).setRootPassword P.1.captured).setReady
          (decide (P.1.obj.Status.Phase = "Running"))) U3.2).1, ?_, rfl, ?_⟩
    · simp only [Client.statusUpdateMySQL_frame]
      simp
    · intro hok
      have := Client.statusUpdateMySQL_persists _ _ hok
      have hk2 : keyOf ((((db.setInitialized true).setAddress
          S.1.obj.Spec.ClusterIP).setRootPassword P.1.captured).setReady
            (decide (P.1.obj.Status.Phase = "Running"))).toObjectMeta = req := hkey
      rw [hk2] at this
      have h2 := congrArg (Option.map (fun s : MySQLStatus => s.Ready)) this
      simp only [Option.map_map] at h2
      exact h2
  · intro student hget hlive hnick hfin D hD hDok S hS hSok
    have hkey := lookup_key _ _ _ _ (Client.getStudent_ok _ _ _ hget)
    rw [StudentReconciler.Reconcile_syncing sch req w student hget hlive hnick hfin]
    subst hD
    generalize CreateOrUpdate deploymentClient (studentDeployment student) ()
      (fun d b x => (((studentDeploymentMutate sch student d).1, b,
        (studentDeploymentMutate sch student d).2), x))
      (Client.getStudent req { w with trace := [] }).2 = D at *
    simp only [hDok]
    subst hS
    generalize CreateOrUpdate serviceClient (studentService student) ()
      (fun s b x => (((studentServiceMutate sch student D.1.obj s).1, b,
        (studentServiceMutate sch student D.1.obj s).2), x)) D.2 = S at *
    simp only [hSok]
    refine ⟨if D.1.obj.Status.UnavailableReplicas > 0 then student.setInitialized false
        else (student.setInitialized true).setAcceptance "Accepted",
      (Client.statusUpdateStudent
        (if D.1.obj.Status.UnavailableReplicas > 0 then student.setInitialized false
          else (student.setInitialized true).setAcceptance "Accepted") S.2).1, ?_, ?_, ?_, ?_⟩
    · simp only [Client.statusUpdateStudent_frame]
      simp
    · intro h
      simp [not_lt.mpr h, Student.setInitialized, Student.setAcceptance]
    · intro h
      simp [h, Student.setInitialized]
    · intro hok
      have := Client.statusUpdateStudent_persists _ _ hok
      have hk2 : keyOf (if D.1.obj.Status.UnavailableReplicas > 0 then student.setInitialized false
          else (student.setInitialized true).setAcceptance "Accepted").toObjectMeta = req := by
        split <;> exact hkey
      rw [hk2] at this
      exact this

/-- C8 amended, at the Student record whose Deployment reports unavailable
replicas: the last call of the pass is the status update with initialized = false. -/
theorem readiness_written_from_observed_child_witness :
    ∃ m e,
      (StudentReconciler.Reconcile exScheme exStudentKey exDegradedWorld).2.trace.getLast?
        = some ⟨.statusUpdateStudent m, e⟩
      ∧ ((2 : Int) ≤ 0 → m.Status.Acceptance = "Accepted" ∧ m.Status.Initialized = true)
      ∧ ((2 : Int) > 0 → m.Status.Initialized = false)
      ∧ (e = none →
          (lookup Student.toObjectMeta exStudentKey
            (StudentReconciler.Reconcile exScheme exStudentKey exDegradedWorld).2.store.students).map
              (fun x => x.Status) = some m.Status) :=
  (readiness_written_from_observed_child exScheme exStudentKey exDegradedWorld).2 exEnrolled rfl
    (by decide) (by decide) (by decide) _ rfl (by decide) _ rfl (by decide)

/-- C3, as stated, fails at the address gate: while the Service has no
cluster IP the pass returns without error before it writes the password.
Here the explicit credential differs from the status value; the pass deletes
the Pod, creates it anew, returns no error, and the persisted
status.rootPassword is still empty. -/
theorem rotation_pass_without_address_keeps_status :
    exRotatingDB.Spec.Authentication.RootPassword = "secret"
    ∧ exRotatingDB.Status.RootPassword = ""
    ∧ (MySQLReconciler.Reconcile exScheme exDBKey exRotatingWorld).1 = ({}, none)
    ∧ ((MySQLReconciler.Reconcile exScheme exDBKey exRotatingWorld).2.trace.map
        (fun ev => (ev.op.isChildDelete, ev.op.isChildCreate, ev.op.isStatusWrite, ev.err)))
      = [(false, false, false, none), (true, false, false, none),
          (false, false, false, some .notFound), (false, true, false, none),
          (false, false, true, none), (false, false, false, some .notFound),
          (false, true, false, none)]
    ∧ (lookup MySQL.toObjectMeta exDBKey
        (MySQLReconciler.Reconcile exScheme exDBKey exRotatingWorld).2.store.mysqls).map
          (fun x => x.Status.RootPassword) = some "" := by
  refine ⟨by decide, by decide, by decide, by decide, by decide⟩

/-- C3, amended. For a MySQL record whose explicit root credential `s` is
non-empty and differs from status.rootPassword, the first client call of the
pass after the get is the delete of the Pod; no later call is a delete, and
every later create or update of the Pod hands over a Pod whose first
environment variable holds `s`. Whenever the pass ends with a successful
status update (it got past the address gate, and its last status update did
not fail), the persisted status.rootPassword equals `s`. Whenever `createPod`
returns without error, as it does in every pass that returns without error,
the store holds at the end of the pass a Pod whose first environment variable
holds `s`. Without store failures `createPod` returns without error and the
log of the pass starts with the get of the record, the delete of the Pod
(which removes it, or finds none), the read of the upsert, which reports
not-found, and the create of a Pod that carries `s`, which the store holds
at the end of the pass. -/
theorem rotation_deletes_then_upserts (sch : Scheme) (req : NamespacedName) (w : World)
    (db : MySQL)
    (hget : (Client.getMySQL req { w with trace := [] }).1 = .ok db)
    (hs : db.Spec.Authentication.RootPassword ≠ "")
    (hst : db.Spec.Authentication.RootPassword ≠ db.Status.RootPassword) :
    (∃ e rest,
      (MySQLReconciler.Reconcile sch req w).2.trace
        = ⟨.getMySQL req, none⟩ :: ⟨.deletePod (mysqlPod db), e⟩ :: rest
      ∧ ∀ ev ∈ rest, ev.op.isChildDelete = false
          ∧ ∀ p, (ev.op = .createPod p ∨ ev.op = .updatePod p) →
              firstValue (firstEnv p.Spec.Containers) = db.Spec.Authentication.RootPassword)
    ∧ ((∃ m, (MySQLReconciler.Reconcile sch req w).2.trace.getLast?
          = some ⟨.statusUpdateMySQL m, none⟩) →
        (lookup MySQL.toObjectMeta req (MySQLReconciler.Reconcile sch req w).2.store.mysqls).map
          (fun x => x.Status.RootPassword) = some db.Spec.Authentication.RootPassword)
    ∧ ((MySQLReconciler.createPod sch db (mysqlPod db)
          (Client.getMySQL req { w with trace := [] }).2).1.err = none →
        ∃ p, lookup Pod.toObjectMeta (keyOf (mysqlPod db).toObjectMeta)
            (MySQLReconciler.Reconcile sch req w).2.store.pods = some p
          ∧ firstValue (firstEnv p.Spec.Containers) = db.Spec.Authentication.RootPassword)
    ∧ ((MySQLReconciler.Reconcile sch req w).1.2 = none →
        (MySQLReconciler.createPod sch db (mysqlPod db)
          (Client.getMySQL req { w with trace := [] }).2).1.err = none)
    ∧ (w.faults = [] →
        (MySQLReconciler.createPod sch db (mysqlPod db)
          (Client.getMySQL req { w with trace := [] }).2).1.err = none
        ∧ ∃ e p rest,
          (MySQLReconciler.Reconcile sch req w).2.trace
            = ⟨.getMySQL req, none⟩ :: ⟨.deletePod (mysqlPod db), e⟩
              :: ⟨.getPod (keyOf (mysqlPod db).toObjectMeta), some .notFound⟩
              :: ⟨.createPod p, none⟩ :: rest
          ∧ (e = none ∨ e = some .notFound)
          ∧ firstValue (firstEnv p.Spec.Containers) = db.Spec.Authentication.RootPassword
          ∧ lookup Pod.toObjectMeta (keyOf (mysqlPod db).toObjectMeta)
              (MySQLReconciler.Reconcile sch req w).2.store.pods = some p) := by
  have hlen : len db.Spec.Authentication.RootPassword > 0 :=
    Nat.pos_of_ne_zero (fun h => hs ((len_eq_zero _).mp h))
  have hkey := lookup_key _ _ _ _ (Client.getMySQL_ok _ _ _ hget)
  obtain ⟨hg1, -, -, -⟩ := Client.getMySQL_frame req { w with trace := [] }
  rw [hget] at hg1
  simp only [errOf, List.nil_append] at hg1
  have hnew : ((MySQLReconciler.createPod sch db (mysqlPod db)
          (Client.getMySQL req { w with trace := [] }).2).1.err = none →
        ∃ p, lookup Pod.toObjectMeta (keyOf (mysqlPod db).toObjectMeta)
            (MySQLReconciler.Reconcile sch req w).2.store.pods = some p
          ∧ firstValue (firstEnv p.Spec.Containers) = db.Spec.Authentication.RootPassword)
      ∧ ((MySQLReconciler.Reconcile sch req w).1.2 = none →
        (MySQLReconciler.createPod sch db (mysqlPod db)
          (Client.getMySQL req { w with trace := [] }).2).1.err = none)
      ∧ (w.faults = [] →
        (MySQLReconciler.createPod sch db (mysqlPod db)
          (Client.getMySQL req { w with trace := [] }).2).1.err = none
        ∧ ∃ e p rest,
          (MySQLReconciler.Reconcile sch req w).2.trace
            = ⟨.getMySQL req, none⟩ :: ⟨.deletePod (mysqlPod db), e⟩
              :: ⟨.getPod (keyOf (mysqlPod db).toObjectMeta), some .notFound⟩
              :: ⟨.createPod p, none⟩ :: rest
          ∧ (e = none ∨ e = some .notFound)
          ∧ firstValue (firstEnv p.Spec.Containers) = db.Spec.Authentication.RootPassword
          ∧ lookup Pod.toObjectMeta (keyOf (mysqlPod db).toObjectMeta)
              (MySQLReconciler.Reconcile sch req w).2.store.pods = some p) := by
    rw [MySQLReconciler.Reconcile_mysql_sync sch req w db hget]
    obtain ⟨⟨later, hl1, -⟩, hl2, hl3⟩ := MySQLReconciler.sync_after_createPod sch db
      (Client.getMySQL req { w with trace := [] }).2
    have stored : (MySQLReconciler.createPod sch db (mysqlPod db)
          (Client.getMySQL req { w with trace := [] }).2).1.err = none →
        lookup Pod.toObjectMeta (keyOf (mysqlPod db).toObjectMeta)
            (MySQLReconciler.sync sch db
              (Client.getMySQL req { w with trace := [] }).2).2.store.pods
          = some (MySQLReconciler.createPod sch db (mysqlPod db)
              (Client.getMySQL req { w with trace := [] }).2).1.obj
        ∧ firstValue (firstEnv (MySQLReconciler.createPod sch db (mysqlPod db)
              (Client.getMySQL req { w with trace := [] }).2).1.obj.Spec.Containers)
            = db.Spec.Authentication.RootPassword := by
      intro hok
      obtain ⟨a1, a2, a3⟩ := MySQLReconciler.createPod_stored sch db (mysqlPod db)
        (Client.getMySQL req { w with trace := [] }).2 hok
      rw [if_pos hs] at a1
      exact ⟨by rw [hl2]; exact a2, a3.trans a1⟩
    refine ⟨fun hok => ⟨_, stored hok⟩, hl3, fun hw => ?_⟩
    have hwf : (Client.getMySQL req { w with trace := [] }).2.faults = [] :=
      (Client.getMySQL_nofault req { w with trace := [] } hw).2
    have hok := MySQLReconciler.createPod_rotation_ok sch db
      (Client.getMySQL req { w with trace := [] }).2 ⟨hlen, hst⟩ hwf
    have htr := MySQLReconciler.createPod_recreates sch db (mysqlPod db)
      (Client.getMySQL req { w with trace := [] }).2 ⟨hlen, hst⟩ (Or.inr hwf) hok
    refine ⟨hok, (Client.deletePod (mysqlPod db) (Client.getMySQL req { w with trace := [] }).2).1,
      _, later, ?_, (Client.deletePod_nofault _ _ hwf).1, (stored hok).2, (stored hok).1⟩
    rw [hl1, htr, hg1]
    simp
  suffices hold : (∃ e rest,
      (MySQLReconciler.Reconcile sch req w).2.trace
        = ⟨.getMySQL req, none⟩ :: ⟨.deletePod (mysqlPod db), e⟩ :: rest
      ∧ ∀ ev ∈ rest, ev.op.isChildDelete = false
          ∧ ∀ p, (ev.op = .createPod p ∨ ev.op = .updatePod p) →
              firstValue (firstEnv p.Spec.Containers) = db.Spec.Authentication.RootPassword)
    ∧ ((∃ m, (MySQLReconciler.Reconcile sch req w).2.trace.getLast?
          = some ⟨.statusUpdateMySQL m, none⟩) →
        (lookup MySQL.toObjectMeta req (MySQLReconciler.Reconcile sch req w).2.store.mysqls).map
          (fun x => x.Status.RootPassword) = some db.Spec.Authentication.RootPassword) from
    ⟨hold.1, hold.2, hnew⟩
  clear hnew
  rw [MySQLReconciler.Reconcile_found sch req w db hget]
  generalize (Client.getMySQL req { w with trace := [] }).2 = W1 at *
  obtain ⟨e, rest, hp1, hp2⟩ := MySQLReconciler.createPod_rotation sch db (mysqlPod db) W1 hlen hst
  obtain ⟨evp, hq1, hq2, -, -, hq5, -, -⟩ :=
    MySQLReconciler.createPod_summary sch db (mysqlPod db) W1
  have hcap := MySQLReconciler.createPod_captured sch db (mysqlPod db) W1 hlen
  generalize MySQLReconciler.createPod sch db (mysqlPod db) W1 = P at *
  simp only
  split
  · rename_i e1 hpe
    refine ⟨⟨e, rest, by rw [hp1, hg1]; rfl, hp2⟩, ?_⟩
    rintro ⟨m, hm⟩
    rw [hq1] at hm
    have hmem := last_mem_of_append _ _ _ hq2 hm
    have := hq5 _ hmem
    simp [Op.isUpsertCall, Op.isGet, Op.isChildCreate, Op.isChildUpdate, Op.isChildDelete] at this
  · rename_i hpe
    have hcap2 := hcap hpe
    obtain ⟨hu1, -⟩ := Client.statusUpdateMySQL_frame (db.setInitialized true) P.2
    obtain ⟨evs, hs1, hs2⟩ := CreateOrUpdate_service_carries (mysqlService (db.setInitialized true)) ()
      (fun s b x => (((mysqlServiceMutate sch (db.setInitialized true) s).1, b,
        (mysqlServiceMutate sch (db.setInitialized true) s).2), x)) (quiet_pure _)
      (Client.statusUpdateMySQL (db.setInitialized true) P.2).2 db.Spec.Authentication.RootPassword
    obtain ⟨evs2, ht1, -, -, ht4, -, -⟩ := CreateOrUpdate_summary serviceClient
      serviceClient_lawful (mysqlService (db.setInitialized true)) ()
      (fun s b x => (((mysqlServiceMutate sch (db.setInitialized true) s).1, b,
        (mysqlServiceMutate sch (db.setInitialized true) s).2), x)) (quiet_pure _)
      (Client.statusUpdateMySQL (db.setInitialized true) P.2).2
    have hgr := CreateOrUpdate_grows serviceClient
      serviceClient_lawful (mysqlService (db.setInitialized true)) ()
      (fun s b x => (((mysqlServiceMutate sch (db.setInitialized true) s).1, b,
        (mysqlServiceMutate sch (db.setInitialized true) s).2), x)) (quiet_pure _)
      (Client.statusUpdateMySQL (db.setInitialized true) P.2).2
    have hne2 : evs2 ≠ [] := by
      intro h
      rw [ht1, h] at hgr
      simp at hgr
    generalize hU1 : Client.statusUpdateMySQL (db.setInitialized true) P.2 = U1 at *
    generalize CreateOrUpdate serviceClient (mysqlService (db.setInitialized true)) ()
      (fun s b x => (((mysqlServiceMutate sch (db.setInitialized true) s).1, b,
        (mysqlServiceMutate sch (db.setInitialized true) s).2), x)) U1.2 = S at *
    have hrest1 : ∀ ev ∈ rest ++ ⟨.statusUpdateMySQL (db.setInitialized true), U1.1⟩ :: evs,
        ev.carries db.Spec.Authentication.RootPassword := by
      intro ev hev
      rcases List.mem_append.mp hev with h | h
      · exact hp2 ev h
      · rcases List.mem_cons.mp h with h | h
        · subst h; exact Event.carries_status _ _ _
        · exact hs2 ev h
    have htr1 : S.2.trace = ⟨.getMySQL req, none⟩ :: ⟨.deletePod (mysqlPod db), e⟩
        :: (rest ++ ⟨.statusUpdateMySQL (db.setInitialized true), U1.1⟩ :: evs) := by
      rw [hs1, hu1, hp1, hg1]; simp
    have hnolast : (∃ m, S.2.trace.getLast? = some ⟨.statusUpdateMySQL m, none⟩) → False := by
      rintro ⟨m, hm⟩
      rw [ht1] at hm
      have hmem := last_mem_of_append _ _ _ hne2 hm
      have := ht4 _ hmem
      simp [Op.isUpsertCall, Op.isGet, Op.isChildCreate, Op.isChildUpdate] at this
    split
    · exact ⟨⟨e, _, htr1, hrest1⟩, fun h => (hnolast h).elim⟩
    · split
      · exact ⟨⟨e, _, htr1, hrest1⟩, fun h => (hnolast h).elim⟩
      · try dsimp only
        have hu2 := (Client.statusUpdateMySQL_frame
          ((db.setInitialized true).setAddress S.1.obj.Spec.ClusterIP) S.2).1
        generalize Client.statusUpdateMySQL
          ((db.setInitialized true).setAddress S.1.obj.Spec.ClusterIP) S.2 = U2 at *
        have hu3 := (Client.statusUpdateMySQL_frame
          (((db.setInitialized true).setAddress S.1.obj.Spec.ClusterIP).setRootPassword
            P.1.captured) U2.2).1
        generalize Client.statusUpdateMySQL
          (((db.setInitialized true).setAddress S.1.obj.Spec.ClusterIP).setRootPassword
            P.1.captured) U2.2 = U3 at *
        have hu4 := (Client.statusUpdateMySQL_frame
          ((((db.setInitialized true).setAddress S.1.obj.Spec.ClusterIP).setRootPassword
            P.1.captured).setReady (decide (P.1.obj.Status.Phase = "Running"))) U3.2).1
        have hpers := Client.statusUpdateMySQL_persists
          ((((db.setInitialized true).setAddress S.1.obj.Spec.ClusterIP).setRootPassword
            P.1.captured).setReady (decide (P.1.obj.Status.Phase = "Running"))) U3.2
        generalize Client.statusUpdateMySQL
          ((((db.setInitialized true).setAddress S.1.obj.Spec.ClusterIP).setRootPassword
            P.1.captured).setReady (decide (P.1.obj.Status.Phase = "Running"))) U3.2 = U4 at *
        refine ⟨⟨e, (rest ++ ⟨.statusUpdateMySQL (db.setInitialized true), U1.1⟩ :: evs)
            ++ [⟨.statusUpdateMySQL
                  ((db.setInitialized true).setAddress S.1.obj.Spec.ClusterIP), U2.1⟩,
                ⟨.statusUpdateMySQL
                  (((db.setInitialized true).setAddress S.1.obj.Spec.ClusterIP).setRootPassword
                    P.1.captured), U3.1⟩,
                ⟨.statusUpdateMySQL
                  ((((db.setInitialized true).setAddress S.1.obj.Spec.ClusterIP).setRootPassword
                    P.1.captured).setReady (decide (P.1.obj.Status.Phase = "Running"))), U4.1⟩],
          ?_, ?_⟩, ?_⟩
        · rw [hu4, hu3, hu2, htr1]
          simp
        · intro ev hev
          rcases List.mem_append.mp hev with h | h
          · exact hrest1 ev h
          · simp at h
            rcases h with h | h | h <;> (subst h; exact Event.carries_status _ _ _)
        · rintro ⟨m, hm⟩
          rw [hu4, List.getLast?_concat] at hm
          simp only [Option.some.injEq, Event.mk.injEq, Op.statusUpdateMySQL.injEq] at hm
          have := hpers hm.2
          have hk2 : keyOf ((((db.setInitialized true).setAddress
              S.1.obj.Spec.ClusterIP).setRootPassword P.1.captured).setReady
                (decide (P.1.obj.Status.Phase = "Running"))).toObjectMeta = req := hkey
          rw [hk2] at this
          have h2 := congrArg (Option.map (fun s : MySQLStatus => s.RootPassword)) this
          simp only [Option.map_map] at h2
          rw [← hcap2]
          exact h2

/-- C3 amended, at a record whose Pod carries the former password and whose
Service has a cluster IP: the pass ends with a successful status update and
persists the explicit value; its log starts with the get, the delete of the
Pod, the read that reports not-found and the create of a Pod that carries
the explicit value, which the store holds at the end. -/
theorem rotation_deletes_then_upserts_witness :
    (lookup MySQL.toObjectMeta exDBKey
      (MySQLReconciler.Reconcile exScheme exDBKey exAddressedWorld).2.store.mysqls).map
        (fun x => x.Status.RootPassword) = some "secret"
    ∧ ((MySQLReconciler.createPod exScheme exRotatingDB (mysqlPod exRotatingDB)
          (Client.getMySQL exDBKey { exAddressedWorld with trace := [] }).2).1.err = none
      ∧ ∃ e p rest,
        (MySQLReconciler.Reconcile exScheme exDBKey exAddressedWorld).2.trace
          = ⟨.getMySQL exDBKey, none⟩ :: ⟨.deletePod (mysqlPod exRotatingDB), e⟩
            :: ⟨.getPod (keyOf (mysqlPod exRotatingDB).toObjectMeta), some .notFound⟩
            :: ⟨.createPod p, none⟩ :: rest
        ∧ (e = none ∨ e = some .notFound)
        ∧ firstValue (firstEnv p.Spec.Containers)
            = exRotatingDB.Spec.Authentication.RootPassword
        ∧ lookup Pod.toObjectMeta (keyOf (mysqlPod exRotatingDB).toObjectMeta)
            (MySQLReconciler.Reconcile exScheme exDBKey exAddressedWorld).2.store.pods
            = some p) :=
  ⟨(rotation_deletes_then_upserts exScheme exDBKey exAddressedWorld exRotatingDB rfl
      (by decide) (by decide)).2.1
      ⟨(((exRotatingDB.setInitialized true).setAddress "10.0.0.7").setRootPassword
        "secret").setReady false, by decide⟩,
    (rotation_deletes_then_upserts exScheme exDBKey exAddressedWorld exRotatingDB rfl
      (by decide) (by decide)).2.2.2.2 rfl⟩

/-- C1, as stated, fails for both controllers. The first Student pass on a
record without the finalizer only adds the finalizer; the second pass creates
the Deployment and the Service. A MySQL record with an explicit credential
that no pass has recorded yet (the Service has no cluster IP) has its Pod
deleted and created again by the second pass. -/
theorem second_pass_creates_children :
    exStudentWorld.faults = []
    ∧ ((StudentReconciler.Reconcile exScheme exStudentKey exStudentWorld).2.trace.map
        (fun ev => ev.op.isChildCreate)) = [false, false]
    ∧ ((StudentReconciler.Reconcile exScheme exStudentKey
        (StudentReconciler.Reconcile exScheme exStudentKey exStudentWorld).2).2.trace.map
        (fun ev => ev.op.isChildCreate)) = [false, false, true, false, true, false]
    ∧ (StudentReconciler.Reconcile exScheme exStudentKey exStudentWorld).2.store.deployments.length = 0
    ∧ (StudentReconciler.Reconcile exScheme exStudentKey
        (StudentReconciler.Reconcile exScheme exStudentKey exStudentWorld).2).2.store.deployments.length = 1
    ∧ exRotatingWorld.faults = []
    ∧ ((MySQLReconciler.Reconcile exScheme exDBKey
        (MySQLReconciler.Reconcile exScheme exDBKey exRotatingWorld).2).2.trace.map
        (fun ev => (ev.op.isChildDelete, ev.op.isChildCreate)))
      = [(false, false), (true, false), (false, false), (false, true), (false, false),
          (false, false)] := by
  refine ⟨by decide, by decide, by decide, by decide, by decide, by decide, by decide⟩

/-- C1, amended. Over a store on which no client call fails and with a scheme
whose defaulting leaves a Deployment as it is, two passes in a row on the same
request end with the same store (the same child objects and the same records,
status included) after the second pass as after the first, and the second
pass issues no create, update or delete of a child object: for the Student
controller when the record is not a live record with a nickname that still
lacks the finalizer, and for the MySQL controller when the record that the
first pass leaves has an explicit credential that is empty or recorded in its
status. -/
theorem second_pass_changes_nothing (sch : Scheme) (hD : ∀ d, sch.Default d = d)
    (req : NamespacedName) (w : World) (hw : w.faults = []) :
    ((∀ student, lookup Student.toObjectMeta req w.store.students = some student →
        student.DeletionTimestamp = none → len student.Spec.Nickname ≠ 0 →
        ContainsFinalizer student.toObjectMeta studentFinalizer = true) →
      (StudentReconciler.Reconcile sch req (StudentReconciler.Reconcile sch req w).2).2.store
          = (StudentReconciler.Reconcile sch req w).2.store
      ∧ ∀ ev ∈ (StudentReconciler.Reconcile sch req
          (StudentReconciler.Reconcile sch req w).2).2.trace, ev.op.isChildWrite = false)
    ∧ ((∀ db, lookup MySQL.toObjectMeta req
          (MySQLReconciler.Reconcile sch req w).2.store.mysqls = some db →
        db.Spec.Authentication.RootPassword = ""
          ∨ db.Spec.Authentication.RootPassword = db.Status.RootPassword) →
      (MySQLReconciler.Reconcile sch req (MySQLReconciler.Reconcile sch req w).2).2.store
          = (MySQLReconciler.Reconcile sch req w).2.store
      ∧ ∀ ev ∈ (MySQLReconciler.Reconcile sch req
          (MySQLReconciler.Reconcile sch req w).2).2.trace, ev.op.isChildWrite = false) :=
  ⟨fun hfin => StudentReconciler.second_pass sch hD req w hw hfin,
    fun hcred => MySQLReconciler.mysql_second_pass sch req w hw hcred⟩

/-- C1, amended, at the Student record that carries the finalizer and at the
MySQL record whose explicit credential the first pass records, after it has
replaced the Pod that carried the former one. -/
theorem second_pass_changes_nothing_witness :
    ((StudentReconciler.Reconcile exScheme exStudentKey
        (StudentReconciler.Reconcile exScheme exStudentKey exEnrolledWorld).2).2.store
          = (StudentReconciler.Reconcile exScheme exStudentKey exEnrolledWorld).2.store
      ∧ ∀ ev ∈ (StudentReconciler.Reconcile exScheme exStudentKey
          (StudentReconciler.Reconcile exScheme exStudentKey exEnrolledWorld).2).2.trace,
          ev.op.isChildWrite = false)
    ∧ ((MySQLReconciler.Reconcile exScheme exDBKey
        (MySQLReconciler.Reconcile exScheme exDBKey exAddressedWorld).2).2.store
          = (MySQLReconciler.Reconcile exScheme exDBKey exAddressedWorld).2.store
      ∧ ∀ ev ∈ (MySQLReconciler.Reconcile exScheme exDBKey
          (MySQLReconciler.Reconcile exScheme exDBKey exAddressedWorld).2).2.trace,
          ev.op.isChildWrite = false) :=
  ⟨(second_pass_changes_nothing exScheme (fun _ => rfl) exStudentKey exEnrolledWorld rfl).1
      (fun student h _ _ => by
        have h2 : lookup Student.toObjectMeta exStudentKey exEnrolledWorld.store.students
            = some exEnrolled := by decide
        rw [h2] at h
        cases h
        decide),
    (second_pass_changes_nothing exScheme (fun _ => rfl) exDBKey exAddressedWorld rfl).2
      (fun db h => by
        have h2 : (lookup MySQL.toObjectMeta exDBKey
            (MySQLReconciler.Reconcile exScheme exDBKey exAddressedWorld).2.store.mysqls).map
              (fun x => (x.Spec.Authentication.RootPassword, x.Status.RootPassword))
            = some ("secret", "secret") := by decide
        rw [h] at h2
        simp only [Option.map_some', Option.some.injEq, Prod.mk.injEq] at h2
        exact Or.inr (h2.1.trans h2.2.symm))⟩

end Unito
